import Mathlib

/-!
File sharing backend: authorization and sharing model.

A shallow embedding of the Express/SQLite backend (`backend/config/database.js`,
`backend/middleware/authMiddleware.js`, `backend/controllers/*.js`).

The relational store is a record of three tables (lists of rows, in insertion
order) together with the upload directory.  Every handler is a function from
the store and the request to a response and the next store.  SQL statements
are modelled by list operations that apply the constraints declared in
`database.js`: primary keys with AUTOINCREMENT, the UNIQUE constraints and the
foreign keys with ON DELETE CASCADE (`PRAGMA foreign_keys = ON`).
-/

namespace SecureShare

/-! ## Tables (database.js, lines 15-47) -/

/-- Row of table `users`. -/
structure User where
  id : Nat
  username : String
  email : String
  password : String
  is_admin : Int
deriving DecidableEq, Repr

/-- Row of table `files`. -/
structure FileRow where
  id : Nat
  user_id : Nat
  original_name : String
  stored_name : String
  size : Nat
  is_private : Int
  upload_date : String
deriving DecidableEq, Repr

/-- Row of table `shared_files`. -/
structure SharedFile where
  id : Nat
  file_id : Nat
  shared_by_user_id : Nat
  shared_with_user_id : Nat
  shared_date : String
deriving DecidableEq, Repr

/-- One entry of the uploads directory: a stored name and its bytes. -/
structure DiskFile where
  name : String
  content : String
deriving DecidableEq, Repr

/-- The persistent state: `database.sqlite` and the `uploads` directory.
`seq_*` are the AUTOINCREMENT counters kept in `sqlite_sequence`. -/
structure Store where
  users : List User
  files : List FileRow
  shared_files : List SharedFile
  seq_users : Nat
  seq_files : Nat
  seq_shared : Nat
  uploads : List DiskFile
deriving DecidableEq, Repr

/-- The empty database file with an empty upload directory. -/
def Store.empty : Store :=
  { users := [], files := [], shared_files := [],
    seq_users := 0, seq_files := 0, seq_shared := 0, uploads := [] }

/-- The record `req.user` that `protect` reads:
`SELECT id, username, email, is_admin FROM users WHERE id = ?`. -/
structure ReqUser where
  id : Nat
  username : String
  email : String
  is_admin : Int
deriving DecidableEq, Repr

/-- Projection of a `users` row on the columns selected by `protect`. -/
def User.toReqUser (u : User) : ReqUser :=
  { id := u.id, username := u.username, email := u.email, is_admin := u.is_admin }

/-- JavaScript truthiness of the integer `req.user.is_admin`. -/
def ReqUser.isAdmin (u : ReqUser) : Bool := u.is_admin != 0

/-! ## Responses -/

/-- Row returned by `getSharedWithUsers`. -/
structure SharedUserRow where
  share_id : Nat
  user_id : Nat
  username : String
  email : String
  shared_date : String
deriving DecidableEq, Repr

/-- Row returned by `getSharedWithMeFiles`. -/
structure SharedWithMeRow where
  id : Nat
  user_id : Nat
  original_name : String
  stored_name : String
  size : Nat
  is_private : Int
  upload_date : String
  shared_by_user_id : Nat
  shared_date : String
  shared_by_username : String
  shared_by_email : String
deriving DecidableEq, Repr

/-- Row returned by `getAllUsers`: the password is not selected and the
admin flag is a boolean. -/
structure UserView where
  id : Nat
  username : String
  email : String
  is_admin : Bool
deriving DecidableEq, Repr

/-- The JSON body (or file transfer) of a response. -/
inductive Body where
  | message (message : String)
  | failure (message : String) (error : String)
  | uploaded (message : String) (fileId : Nat) (originalName : String)
  | files (rows : List FileRow)
  | sharedUsers (rows : List SharedUserRow)
  | sharedWithMe (rows : List SharedWithMeRow)
  | download (filePath : String) (filename : String)
  | user (message : String) (id : Nat) (username : String) (email : String)
      (is_admin : Bool)
  | users (rows : List UserView)
  | raw (data : String)
  | unanswered
deriving DecidableEq, Repr

/-- An HTTP response: `res.status(status).json(body)` or `res.download`. -/
structure Response where
  status : Nat
  body : Body
deriving DecidableEq, Repr

/-! ## SQL primitives -/

/-- The largest element of a list of row ids (0 for the empty table). -/
def maxId : List Nat → Nat
  | [] => 0
  | x :: xs => max x (maxId xs)

/-- AUTOINCREMENT: one more than the largest rowid ever used. -/
def nextId (seq : Nat) (ids : List Nat) : Nat := max seq (maxId ids) + 1

/-- `SELECT * FROM users WHERE id = ?`. -/
def Store.userById (s : Store) (id : Nat) : Option User :=
  s.users.find? (fun u => u.id == id)

/-- `SELECT * FROM users WHERE email = ?`. -/
def Store.userByEmail (s : Store) (email : String) : Option User :=
  s.users.find? (fun u => u.email == email)

/-- `SELECT * FROM files WHERE id = ?`. -/
def Store.fileById (s : Store) (id : Nat) : Option FileRow :=
  s.files.find? (fun f => f.id == id)

/-- `SELECT * FROM shared_files WHERE id = ?`. -/
def Store.shareById (s : Store) (id : Nat) : Option SharedFile :=
  s.shared_files.find? (fun g => g.id == id)

/-- `SELECT * FROM shared_files WHERE file_id = ? AND shared_with_user_id = ?`. -/
def Store.shareFor (s : Store) (fileId userId : Nat) : Option SharedFile :=
  s.shared_files.find? (fun g => g.file_id == fileId && g.shared_with_user_id == userId)

/-- `INSERT INTO users (username, email, password, is_admin)`: fails on the
UNIQUE constraints of `username` and `email`. -/
def Store.insertUser (s : Store) (username email password : String) (is_admin : Int) :
    Except String (Store × Nat) :=
  if s.users.any (fun u => u.username == username) then
    .error "SQLITE_CONSTRAINT: UNIQUE constraint failed: users.username"
  else if s.users.any (fun u => u.email == email) then
    .error "SQLITE_CONSTRAINT: UNIQUE constraint failed: users.email"
  else
    let id := nextId s.seq_users (s.users.map (fun u => u.id))
    .ok ({ s with
            users := s.users ++ [{ id := id, username := username, email := email,
                                   password := password, is_admin := is_admin }],
            seq_users := id }, id)

/-- `INSERT INTO files (user_id, original_name, stored_name, size, is_private,
upload_date)`: fails on UNIQUE `stored_name` and on the foreign key `user_id`. -/
def Store.insertFile (s : Store) (user_id : Nat) (original_name stored_name : String)
    (size : Nat) (is_private : Int) (now : String) : Except String (Store × Nat) :=
  if s.files.any (fun f => f.stored_name == stored_name) then
    .error "SQLITE_CONSTRAINT: UNIQUE constraint failed: files.stored_name"
  else if !(s.users.any (fun u => u.id == user_id)) then
    .error "SQLITE_CONSTRAINT: FOREIGN KEY constraint failed"
  else
    let id := nextId s.seq_files (s.files.map (fun f => f.id))
    .ok ({ s with
            files := s.files ++ [{ id := id, user_id := user_id,
                                   original_name := original_name,
                                   stored_name := stored_name, size := size,
                                   is_private := is_private, upload_date := now }],
            seq_files := id }, id)

/-- `INSERT INTO shared_files (file_id, shared_by_user_id, shared_with_user_id,
shared_date)`: fails on UNIQUE `(file_id, shared_with_user_id)` and on the
three foreign keys. -/
def Store.insertShare (s : Store) (file_id shared_by shared_with : Nat) (now : String) :
    Except String (Store × Nat) :=
  if s.shared_files.any
      (fun g => g.file_id == file_id && g.shared_with_user_id == shared_with) then
    .error "SQLITE_CONSTRAINT: UNIQUE constraint failed: shared_files.file_id, shared_files.shared_with_user_id"
  else if !(s.files.any (fun f => f.id == file_id)) ||
          !(s.users.any (fun u => u.id == shared_by)) ||
          !(s.users.any (fun u => u.id == shared_with)) then
    .error "SQLITE_CONSTRAINT: FOREIGN KEY constraint failed"
  else
    let id := nextId s.seq_shared (s.shared_files.map (fun g => g.id))
    .ok ({ s with
            shared_files := s.shared_files ++ [{ id := id, file_id := file_id,
                                                 shared_by_user_id := shared_by,
                                                 shared_with_user_id := shared_with,
                                                 shared_date := now }],
            seq_shared := id }, id)

/-- `DELETE FROM shared_files WHERE id = ?`. -/
def Store.deleteShare (s : Store) (id : Nat) : Store :=
  { s with shared_files := s.shared_files.filter (fun g => !(g.id == id)) }

/-- `DELETE FROM files WHERE <p>`: the rows go, and with each of them the
`shared_files` rows that reference it (ON DELETE CASCADE). -/
def Store.deleteFilesWhere (s : Store) (p : FileRow → Bool) : Store :=
  let gone := s.files.filter p
  { s with
    files := s.files.filter (fun f => !(p f)),
    shared_files := s.shared_files.filter
      (fun g => !(gone.any (fun f => f.id == g.file_id))) }

/-- `DELETE FROM users WHERE id = ?`: cascades to the files of the user (and
their grants) and to the grants given by or to the user.  Returns the store
and `result.changes`. -/
def Store.deleteUserRow (s : Store) (id : Nat) : Store × Nat :=
  let gone := s.users.filter (fun u => u.id == id)
  let s1 := s.deleteFilesWhere (fun f => gone.any (fun u => u.id == f.user_id))
  ({ s1 with
      users := s.users.filter (fun u => !(u.id == id)),
      shared_files := s1.shared_files.filter
        (fun g => !(gone.any (fun u => u.id == g.shared_by_user_id)) &&
                  !(gone.any (fun u => u.id == g.shared_with_user_id))) },
   gone.length)

/-- `UPDATE users SET is_admin = ? WHERE id = ?`, with `result.changes`. -/
def Store.setAdmin (s : Store) (id : Nat) (v : Int) : Store × Nat :=
  ({ s with users := s.users.map (fun u => if u.id == id then { u with is_admin := v } else u) },
   (s.users.filter (fun u => u.id == id)).length)

/-- `fs.unlink(path.join(UPLOADS_DIR, name))` on the upload directory. -/
def unlink (disk : List DiskFile) (name : String) : List DiskFile :=
  disk.filter (fun d => !(d.name == name))

/-- `fs.access(path.join(UPLOADS_DIR, name))` succeeds. -/
def diskHas (disk : List DiskFile) (name : String) : Bool :=
  disk.any (fun d => d.name == name)

/-- Stand-in for `bcrypt.hash` of the external library bcryptjs: the stored
value is only ever passed back to `bcrypt.compare`. -/
def bcryptHash (password : String) : String := "$2a$10$" ++ password

/-! ## openDb (database.js, lines 6-61) -/

/-- The connection is opened, the tables are created if missing, and the
default administrator is inserted when no user has its email. -/
def openDb (s : Store) : Except String Store :=
  match s.userByEmail "admin@example.com" with
  | some _ => .ok s
  | none =>
    match s.insertUser "admin" "admin@example.com" (bcryptHash "adminpassword") 1 with
    | .error e => .error e
    | .ok (s1, _) => .ok s1

/-! ## Middleware (authMiddleware.js) -/

/-- What `protect` finds in the `Authorization` header: nothing usable, a
token that `jwt.verify` rejects, or a token that verifies with payload id. -/
inductive Auth where
  | absent
  | invalid
  | token (id : Nat)
deriving DecidableEq, Repr

/-- Middleware `protect`: the store after it ran, and either the response it
sent or the `req.user` it set before calling `next()`. -/
def protect (s : Store) (a : Auth) : Store × Except Response ReqUser :=
  match a with
  | .absent => (s, .error ⟨401, .message "Not authorized, no token"⟩)
  | .invalid => (s, .error ⟨401, .message "Not authorized, token failed"⟩)
  | .token id =>
    match openDb s with
    | .error _ => (s, .error ⟨401, .message "Not authorized, token failed"⟩)
    | .ok db =>
      match db.userById id with
      | none => (db, .error ⟨401, .message "Not authorized, user not found"⟩)
      | some u => (db, .ok u.toReqUser)

/-- Middleware `authorizeAdmin`: `none` when it calls `next()`. -/
def authorizeAdmin (user : Option ReqUser) : Option Response :=
  match user with
  | none => some ⟨403, .message "Not authorized as an admin"⟩
  | some u => if !u.isAdmin then some ⟨403, .message "Not authorized as an admin"⟩ else none

/-! ## File controller (fileController.js) -/

/-- The directory `UPLOADS_DIR`. -/
def UPLOADS_DIR : String := "backend/uploads"

/-- JavaScript `path.join(UPLOADS_DIR, name)`. -/
def uploadPath (name : String) : String := UPLOADS_DIR ++ "/" ++ name

/-- The object `req.file` that multer hands to `uploadFile`. -/
structure UploadedFile where
  originalname : String
  filename : String
  size : Nat
deriving DecidableEq, Repr

/-- Faults of the physical medium during one request: `fs.mkdir` fails,
`fs.unlink` fails with an error other than ENOENT. -/
structure FsEnv where
  mkdirFails : Bool
  unlinkFails : Bool
deriving DecidableEq, Repr

/-- No fault of the physical medium. -/
def FsEnv.ok : FsEnv := { mkdirFails := false, unlinkFails := false }

/-- Multer `diskStorage`: the bytes are written under the generated name
before the handler runs. -/
def multerWrite (s : Store) (name content : String) : Store :=
  { s with uploads := unlink s.uploads name ++ [{ name := name, content := content }] }

/-- Handler `uploadFile` (lines 22-54). -/
def uploadFile (s : Store) (user : ReqUser) (file : Option UploadedFile)
    (is_private : Option String) (now : String) (env : FsEnv) : Response × Store :=
  match file with
  | none => (⟨400, .message "No file was uploaded."⟩, s)
  | some uploadedFile =>
    let isPrivate : Bool := is_private == some "true"
    let caught (db : Store) (error : String) : Response × Store :=
      (⟨500, .failure "Server error during file upload (DB issue)" error⟩,
       if env.unlinkFails then db
       else { db with uploads := unlink db.uploads uploadedFile.filename })
    if env.mkdirFails then
      caught s "Server internal error: Could not create upload directory."
    else
      match openDb s with
      | .error e => caught s e
      | .ok db =>
        match db.insertFile user.id uploadedFile.originalname uploadedFile.filename
                uploadedFile.size (if isPrivate then 1 else 0) now with
        | .error e => caught db e
        | .ok (db1, lastID) =>
          (⟨201, .uploaded "File uploaded successfully" lastID uploadedFile.originalname⟩, db1)

/-- Handler `getFiles` (lines 59-83). -/
def getFiles (s : Store) (user : Option ReqUser) : Response × Store :=
  match openDb s with
  | .error e => (⟨500, .failure "Server error fetching files" e⟩, s)
  | .ok db =>
    match user with
    | none => (⟨401, .message "Not authenticated for file retrieval."⟩, db)
    | some u =>
      let files :=
        if u.isAdmin then db.files
        else db.files.filter (fun f => f.user_id == u.id || f.is_private == 0)
      (⟨200, .files files⟩, db)

/-- Handler `shareFile` (lines 88-140).  A missing body field is falsy like
the id `0` and the empty string. -/
def shareFile (s : Store) (user : ReqUser) (file_id : Nat) (shared_with_email : String)
    (now : String) : Response × Store :=
  if file_id == 0 || shared_with_email == "" then
    (⟨400, .message "File ID and recipient email are required."⟩, s)
  else
    match openDb s with
    | .error e => (⟨500, .failure "Server error during file sharing" e⟩, s)
    | .ok db =>
      match db.fileById file_id with
      | none => (⟨404, .message "File not found."⟩, db)
      | some file =>
        if file.user_id != user.id || file.is_private != 1 then
          (⟨403, .message "You can only share your own private files."⟩, db)
        else
          match db.userByEmail shared_with_email with
          | none => (⟨404, .message "Recipient user not found."⟩, db)
          | some recipientUser =>
            if recipientUser.id == user.id then
              (⟨400, .message "Cannot share a file with yourself."⟩, db)
            else
              match db.shareFor file_id recipientUser.id with
              | some _ => (⟨400, .message "File already shared with this user."⟩, db)
              | none =>
                match db.insertShare file_id user.id recipientUser.id now with
                | .error e => (⟨500, .failure "Server error during file sharing" e⟩, db)
                | .ok (db1, _) =>
                  (⟨200, .message ("File \"" ++ file.original_name ++
                      "\" shared successfully with " ++ shared_with_email ++ ".")⟩, db1)

/-- Handler `getSharedWithMeFiles` (lines 145-172). -/
def getSharedWithMeFiles (s : Store) (user : ReqUser) : Response × Store :=
  match openDb s with
  | .error e => (⟨500, .failure "Server error fetching shared files" e⟩, s)
  | .ok db =>
    let sharedFiles :=
      (db.shared_files.filter (fun sf => sf.shared_with_user_id == user.id)).flatMap
        (fun sf => (db.files.filter (fun f => sf.file_id == f.id)).flatMap
          (fun f => (db.users.filter (fun u => sf.shared_by_user_id == u.id)).map
            (fun u => { id := f.id, user_id := f.user_id, original_name := f.original_name,
                        stored_name := f.stored_name, size := f.size,
                        is_private := f.is_private, upload_date := f.upload_date,
                        shared_by_user_id := sf.shared_by_user_id,
                        shared_date := sf.shared_date, shared_by_username := u.username,
                        shared_by_email := u.email })))
    (⟨200, .sharedWithMe sharedFiles⟩, db)

/-- Handler `getSharedWithUsers` (lines 177-210). -/
def getSharedWithUsers (s : Store) (user : ReqUser) (fileId : Nat) : Response × Store :=
  match openDb s with
  | .error e => (⟨500, .failure "Server error fetching sharing details" e⟩, s)
  | .ok db =>
    match db.fileById fileId with
    | none => (⟨404, .message "File not found."⟩, db)
    | some file =>
      if file.user_id != user.id && !user.isAdmin then
        (⟨403, .message "Not authorized to view sharing details for this file."⟩, db)
      else
        let sharedUsers :=
          (db.shared_files.filter (fun sf => sf.file_id == fileId)).flatMap
            (fun sf => (db.users.filter (fun u => sf.shared_with_user_id == u.id)).map
              (fun u => { share_id := sf.id, user_id := u.id, username := u.username,
                          email := u.email, shared_date := sf.shared_date }))
        (⟨200, .sharedUsers sharedUsers⟩, db)

/-- Handler `unshareFile` (lines 216-251). -/
def unshareFile (s : Store) (user : ReqUser) (shareId : Nat) : Response × Store :=
  match openDb s with
  | .error e => (⟨500, .failure "Server error during unsharing" e⟩, s)
  | .ok db =>
    match db.shareById shareId with
    | none => (⟨404, .message "Sharing entry not found."⟩, db)
    | some shareEntry =>
      match db.fileById shareEntry.file_id with
      | none => (⟨404, .message "Associated file not found."⟩, db)
      | some file =>
        if file.user_id != user.id && !user.isAdmin then
          (⟨403, .message "Not authorized to unshare this file."⟩, db)
        else
          let db1 := db.deleteShare shareId
          let recipientEmail :=
            match db1.userById shareEntry.shared_with_user_id with
            | some recipient => recipient.email
            | none => "an unknown user"
          (⟨200, .message ("File \"" ++ file.original_name ++
              "\" successfully unshared from " ++ recipientEmail ++ ".")⟩, db1)

/-- The decision `isAuthorized` of `downloadFile` (lines 267-289). -/
def isAuthorized (db : Store) (user : ReqUser) (file : FileRow) (fileId : Nat) : Bool :=
  if file.user_id == user.id then true
  else if file.is_private == 0 then true
  else if user.isAdmin then true
  else
    match db.shareFor fileId user.id with
    | some _ => true
    | none => false

/-- Handler `downloadFile` (lines 257-309). -/
def downloadFile (s : Store) (user : ReqUser) (fileId : Nat) : Response × Store :=
  match openDb s with
  | .error e => (⟨500, .failure "Server error during file download" e⟩, s)
  | .ok db =>
    match db.fileById fileId with
    | none => (⟨404, .message "File not found."⟩, db)
    | some file =>
      if !(isAuthorized db user file fileId) then
        (⟨403, .message "Not authorized to download this file."⟩, db)
      else if !(diskHas db.uploads file.stored_name) then
        (⟨500, .message "The file content is missing on the server."⟩, db)
      else
        (⟨200, .download (uploadPath file.stored_name) file.original_name⟩, db)

/-- Handler `deleteFile` (lines 314-351). -/
def deleteFile (s : Store) (user : ReqUser) (fileId : Nat) (env : FsEnv) : Response × Store :=
  match openDb s with
  | .error e => (⟨500, .failure "Server error during file deletion" e⟩, s)
  | .ok db =>
    match db.fileById fileId with
    | none => (⟨404, .message "File not found."⟩, db)
    | some file =>
      if file.user_id != user.id && !user.isAdmin then
        (⟨403, .message "Not authorized to delete this file."⟩, db)
      else
        let db1 := db.deleteFilesWhere (fun f => f.id == fileId)
        if env.unlinkFails then
          (⟨200, .message "File deleted from database, but physical file deletion failed."⟩, db1)
        else if !(diskHas db1.uploads file.stored_name) then
          (⟨200, .message "File deleted from database (physical file was already missing)."⟩, db1)
        else
          (⟨200, .message "File deleted successfully."⟩,
           { db1 with uploads := unlink db1.uploads file.stored_name })

/-! ## Auth controller (authController.js) -/

/-- Handler `registerUser` (lines 21-69).  `openDb` is awaited outside the
`try` block: when it throws, no response is sent. -/
def registerUser (s : Store) (username email password : String) : Response × Store :=
  if username == "" || email == "" || password == "" then
    (⟨400, .message "Please enter all fields"⟩, s)
  else
    match openDb s with
    | .error _ => (⟨0, .unanswered⟩, s)
    | .ok db =>
      match db.users.find? (fun u => u.email == email || u.username == username) with
      | some _ => (⟨400, .message "User already exists"⟩, db)
      | none =>
        match db.insertUser username email (bcryptHash password) 0 with
        | .error _ => (⟨500, .message "Server error"⟩, db)
        | .ok (db1, lastID) =>
          (⟨201, .user "User registered successfully" lastID username email false⟩, db1)

/-! ## Admin controller (adminController.js) -/

/-- The path segment `:id` of an admin route, seen by its two readers:
JavaScript `parseInt(id)` (`none` when the result is not a natural number)
and the SQLite comparison of the bound text with an INTEGER column (`none`
when it equals no natural number). -/
structure PathId where
  raw : String
  parseInt : Option Nat
  sql : Option Nat
deriving DecidableEq, Repr

/-- A path segment that is the decimal numeral of `n`. -/
def PathId.ofNat (n : Nat) : PathId :=
  { raw := toString n, parseInt := some n, sql := some n }

/-- Handler `deleteUser` (lines 26-51). -/
def deleteUser (s : Store) (user : ReqUser) (id : PathId) : Response × Store :=
  match openDb s with
  | .error _ => (⟨0, .unanswered⟩, s)
  | .ok db =>
    if some user.id == id.parseInt then
      (⟨403, .message "Cannot delete your own admin account through this interface."⟩, db)
    else
      match id.sql with
      | none => (⟨404, .message "User not found"⟩, db)
      | some n =>
        let db1 := db.deleteFilesWhere (fun f => f.user_id == n)
        let (db2, changes) := db1.deleteUserRow n
        if changes == 0 then
          (⟨404, .message "User not found"⟩, db2)
        else
          (⟨200, .message "User and their files deleted successfully"⟩, db2)

/-- Handler `updateUserAdminStatus` (lines 56-84); `is_admin` is `none` when
the body field is not a boolean. -/
def updateUserAdminStatus (s : Store) (user : ReqUser) (id : PathId)
    (is_admin : Option Bool) : Response × Store :=
  match is_admin with
  | none => (⟨400, .message "Invalid value for is_admin. Must be true or false."⟩, s)
  | some b =>
    match openDb s with
    | .error _ => (⟨0, .unanswered⟩, s)
    | .ok db =>
      let is_admin_int : Int := if b then 1 else 0
      if some user.id == id.parseInt then
        (⟨403, .message "Cannot change your own admin status."⟩, db)
      else
        match id.sql with
        | none => (⟨404, .message "User not found or admin status already set."⟩, db)
        | some n =>
          let (db1, changes) := db.setAdmin n is_admin_int
          if changes == 0 then
            (⟨404, .message "User not found or admin status already set."⟩, db1)
          else
            (⟨200, .message ("User ID " ++ id.raw ++ " admin status updated to " ++
                toString b ++ ".")⟩, db1)

/-! ## Requests and reachable stores -/

/-- The request reached its handler with this `req.user`: `protect` opened
the store (so the default administrator row is present) and read the row of
the token's user. -/
def Authenticated (s : Store) (u : ReqUser) : Prop :=
  openDb s = .ok s ∧ (s.userById u.id).map User.toReqUser = some u

/-- Stores the server can be in: the empty database file, and what any
request leaves behind.  Handlers of the file router run behind `protect`,
those of the admin router behind `protect` and `authorizeAdmin`. -/
inductive Reachable : Store → Prop where
  | empty : Reachable Store.empty
  | openDb {s s1 : Store} : Reachable s → openDb s = .ok s1 → Reachable s1
  | register {s : Store} (username email password : String) :
      Reachable s → Reachable (registerUser s username email password).2
  | multer {s : Store} (name content : String) :
      Reachable s → Reachable (multerWrite s name content)
  | upload {s : Store} {u : ReqUser} (file : Option UploadedFile)
      (is_private : Option String) (now : String) (env : FsEnv) :
      Reachable s → Authenticated s u →
      Reachable (uploadFile s u file is_private now env).2
  | share {s : Store} {u : ReqUser} (file_id : Nat) (email now : String) :
      Reachable s → Authenticated s u → Reachable (shareFile s u file_id email now).2
  | unshare {s : Store} {u : ReqUser} (shareId : Nat) :
      Reachable s → Authenticated s u → Reachable (unshareFile s u shareId).2
  | delete {s : Store} {u : ReqUser} (fileId : Nat) (env : FsEnv) :
      Reachable s → Authenticated s u → Reachable (deleteFile s u fileId env).2
  | deleteUser {s : Store} {u : ReqUser} (id : PathId) :
      Reachable s → Authenticated s u → u.isAdmin = true →
      Reachable (deleteUser s u id).2
  | setAdmin {s : Store} {u : ReqUser} (id : PathId) (v : Option Bool) :
      Reachable s → Authenticated s u → u.isAdmin = true →
      Reachable (updateUserAdminStatus s u id v).2

/-! ## Schema constraints and grant invariant -/

/-- The constraints that `database.js` declares on the three tables: primary
keys, UNIQUE columns and foreign keys. -/
structure Store.Valid (s : Store) : Prop where
  users_id : (s.users.map (fun u => u.id)).Nodup
  users_username : (s.users.map (fun u => u.username)).Nodup
  users_email : (s.users.map (fun u => u.email)).Nodup
  files_id : (s.files.map (fun f => f.id)).Nodup
  files_stored : (s.files.map (fun f => f.stored_name)).Nodup
  files_owner : ∀ f ∈ s.files, ∃ u ∈ s.users, u.id = f.user_id
  shares_id : (s.shared_files.map (fun g => g.id)).Nodup
  shares_pair : (s.shared_files.map (fun g => (g.file_id, g.shared_with_user_id))).Nodup
  shares_file : ∀ g ∈ s.shared_files, ∃ f ∈ s.files, f.id = g.file_id
  shares_by : ∀ g ∈ s.shared_files, ∃ u ∈ s.users, u.id = g.shared_by_user_id
  shares_with : ∀ g ∈ s.shared_files, ∃ u ∈ s.users, u.id = g.shared_with_user_id

/-- Number of grant rows for the pair (file, recipient). -/
def Store.grantCount (s : Store) (fileId userId : Nat) : Nat :=
  (s.shared_files.filter
    (fun g => g.file_id == fileId && g.shared_with_user_id == userId)).length

/-- What a well-formed grant row says about its file and its recipient. -/
def Store.GrantOK (s : Store) (g : SharedFile) : Prop :=
  ∃ f, s.fileById g.file_id = some f ∧ f.is_private = 1 ∧
    g.shared_by_user_id = f.user_id ∧
    (∃ u ∈ s.users, u.id = g.shared_with_user_id) ∧
    g.shared_with_user_id ≠ f.user_id

/-! ## Error taxonomy and reference definitions of the sharing ledger -/

/-- The result kinds of the specification (section 7), and `Unanswered` for a
request that gets no response. -/
inductive Kind where
  | Ok
  | NotFound
  | Forbidden
  | Conflict
  | InvalidOperation
  | StorageError
  | AuthError
  | Unanswered
deriving DecidableEq, Repr

/-- The kind of a response, read off its status code; the two uniqueness
violations answered with status 400 are told apart by their message. -/
def Response.kind (r : Response) : Kind :=
  if r.status == 200 || r.status == 201 then .Ok
  else if r.status == 404 then .NotFound
  else if r.status == 403 then .Forbidden
  else if r.status == 401 then .AuthError
  else if r.status == 400 then
    if r.body == .message "File already shared with this user." ||
       r.body == .message "User already exists" then .Conflict
    else .InvalidOperation
  else if r.status == 500 then .StorageError
  else .Unanswered

/-- The store with one more grant row (file, sharer, recipient). -/
def Store.addGrant (s : Store) (fileId sharedBy sharedWith : Nat) (now : String) : Store :=
  let id := nextId s.seq_shared (s.shared_files.map (fun g => g.id))
  { s with
    shared_files := s.shared_files ++ [{ id := id, file_id := fileId,
                                         shared_by_user_id := sharedBy,
                                         shared_with_user_id := sharedWith,
                                         shared_date := now }],
    seq_shared := id }

/-- Reference definition of `createGrant`, after the specification: NotFound
if the file is absent; Forbidden if the acting user is not its owner or it is
not private; NotFound if no user has the email; InvalidOperation if the
recipient is the acting user; Conflict if the grant exists; otherwise the
grant row is added. -/
def createGrantSpec (s : Store) (actingUser : ReqUser) (fileId : Nat)
    (recipientEmail : String) (now : String) : Kind × Store :=
  match s.files.find? (fun f => f.id == fileId) with
  | none => (.NotFound, s)
  | some f =>
    if f.user_id ≠ actingUser.id ∨ f.is_private ≠ 1 then (.Forbidden, s)
    else
      match s.users.find? (fun r => r.email == recipientEmail) with
      | none => (.NotFound, s)
      | some r =>
        if r.id = actingUser.id then (.InvalidOperation, s)
        else if s.grantCount fileId r.id ≠ 0 then (.Conflict, s)
        else (.Ok, s.addGrant fileId actingUser.id r.id now)

/-- Reference definition of `revokeGrant`, after the specification: NotFound
if no grant has the id; Forbidden if the acting user is neither the owner of
the grant's file nor an admin; otherwise that one grant row is removed. -/
def revokeGrantSpec (s : Store) (actingUser : ReqUser) (grantId : Nat) : Kind × Store :=
  match s.shared_files.find? (fun g => g.id == grantId) with
  | none => (.NotFound, s)
  | some g =>
    let owner := (s.files.find? (fun f => f.id == g.file_id)).map (fun f => f.user_id)
    if owner ≠ some actingUser.id ∧ actingUser.is_admin = 0 then (.Forbidden, s)
    else (.Ok, { s with shared_files := s.shared_files.erase g })

/-- Every grant row of the store is well formed. -/
def Store.GrantsOK (s : Store) : Prop := ∀ g ∈ s.shared_files, s.GrantOK g

/-- The values that handlers test for truthiness are truthy in every row:
emails are not empty and file ids are not 0. -/
def Store.Truthy (s : Store) : Prop :=
  (∀ u ∈ s.users, u.email ≠ "") ∧ (∀ f ∈ s.files, f.id ≠ 0)

/-- A property of stores kept by every SQL statement the handlers issue.  The
user insert carries a name and an email that are not empty.  The grant insert
is the one of `shareFile`: the file row was read, it is private and owned by
the sharer, and the recipient row was read and is another user. -/
structure Closed (P : Store → Prop) : Prop where
  insertUser : ∀ (s s1 : Store) (username email password : String) (a : Int) (id : Nat),
    P s → username ≠ "" → email ≠ "" →
    s.insertUser username email password a = .ok (s1, id) → P s1
  insertFile : ∀ (s s1 : Store) (uid : Nat) (o n : String) (size : Nat) (v : Int)
    (now : String) (id : Nat),
    P s → s.insertFile uid o n size v now = .ok (s1, id) → P s1
  insertShare : ∀ (s s1 : Store) (F : FileRow) (R : User) (fileId sharedBy : Nat)
    (now : String) (id : Nat),
    P s → s.fileById fileId = some F → F.user_id = sharedBy → F.is_private = 1 →
    R ∈ s.users → R.id ≠ sharedBy →
    s.insertShare fileId sharedBy R.id now = .ok (s1, id) → P s1
  deleteShare : ∀ (s : Store) (id : Nat), P s → P (s.deleteShare id)
  deleteFilesWhere : ∀ (s : Store) (p : FileRow → Bool), P s → P (s.deleteFilesWhere p)
  deleteUserRow : ∀ (s : Store) (id : Nat), P s → P (s.deleteUserRow id).1
  setAdmin : ∀ (s : Store) (id : Nat) (v : Int), P s → P (s.setAdmin id v).1
  uploads : ∀ (s : Store) (d : List DiskFile), P s → P { s with uploads := d }

/-- The entry of `getSharedWithUsers` for one grant row: the grant id, the
recipient's id, username and email, and the grant's timestamp. -/
def Store.grantEntry (s : Store) (g : SharedFile) : Option SharedUserRow :=
  (s.userById g.shared_with_user_id).map
    (fun r => { share_id := g.id, user_id := r.id, username := r.username,
                email := r.email, shared_date := g.shared_date })

/-! ## The server's other routes (server.js, adminRoutes.js, fileRoutes.js) -/

/-- Route `app.use('/uploads', express.static(...))` (server.js line 26): a
GET of `/uploads/<name>` is answered from the upload directory.  No
middleware precedes it, so the request carries no identity. -/
def serveUpload (s : Store) (name : String) : Response :=
  match s.uploads.find? (fun d => d.name == name) with
  | some d => ⟨200, .raw d.content⟩
  | none => ⟨404, .raw ("Cannot GET /uploads/" ++ name)⟩

/-- The payload of a verified token, `jwt.sign({ id, is_admin }, ...)`. -/
structure Decoded where
  id : Nat
  is_admin : Int
deriving DecidableEq, Repr

/-- What `protect` keeps of a verified token: `decoded.id` (line 17). -/
def Auth.ofDecoded (d : Decoded) : Auth := .token d.id

/-- Handler `getAllUsers` (adminController.js lines 7-21). -/
def getAllUsers (s : Store) : Response × Store :=
  match openDb s with
  | .error _ => (⟨0, .unanswered⟩, s)
  | .ok db =>
    (⟨200, .users (db.users.map (fun user =>
        UserView.mk user.id user.username user.email (user.is_admin == 1)))⟩, db)

/-- The three routes of the admin router. -/
inductive AdminOp where
  | getAllUsers
  | deleteUser (id : PathId)
  | updateUserAdminStatus (id : PathId) (is_admin : Option Bool)
deriving DecidableEq, Repr

/-- The admin router (adminRoutes.js): `protect`, then `authorizeAdmin`,
then the handler of the route. -/
def adminRoutes (s : Store) (a : Auth) (op : AdminOp) : Response × Store :=
  match protect s a with
  | (s1, .error r) => (r, s1)
  | (s1, .ok user) =>
    match authorizeAdmin (some user) with
    | some r => (r, s1)
    | none =>
      match op with
      | .getAllUsers => getAllUsers s1
      | .deleteUser id => deleteUser s1 user id
      | .updateUserAdminStatus id v => updateUserAdminStatus s1 user id v

/-- The part of `shareFile` before its INSERT (lines 89-127): the store as
`openDb` leaves it, and either the response already sent or the file row and
recipient row that were read. -/
def shareFile_check (s : Store) (user : ReqUser) (file_id : Nat)
    (shared_with_email : String) : Store × Except Response (FileRow × User) :=
  if file_id == 0 || shared_with_email == "" then
    (s, .error ⟨400, .message "File ID and recipient email are required."⟩)
  else
    match openDb s with
    | .error e => (s, .error ⟨500, .failure "Server error during file sharing" e⟩)
    | .ok db =>
      match db.fileById file_id with
      | none => (db, .error ⟨404, .message "File not found."⟩)
      | some file =>
        if file.user_id != user.id || file.is_private != 1 then
          (db, .error ⟨403, .message "You can only share your own private files."⟩)
        else
          match db.userByEmail shared_with_email with
          | none => (db, .error ⟨404, .message "Recipient user not found."⟩)
          | some recipientUser =>
            if recipientUser.id == user.id then
              (db, .error ⟨400, .message "Cannot share a file with yourself."⟩)
            else
              match db.shareFor file_id recipientUser.id with
              | some _ => (db, .error ⟨400, .message "File already shared with this user."⟩)
              | none => (db, .ok (file, recipientUser))

/-- The INSERT of `shareFile` and what follows it (lines 129-139), on the
store as it is when the statement runs. -/
def shareFile_insert (db : Store) (user : ReqUser) (file_id : Nat)
    (shared_with_email : String) (file : FileRow) (recipientUser : User) (now : String) :
    Response × Store :=
  match db.insertShare file_id user.id recipientUser.id now with
  | .error e => (⟨500, .failure "Server error during file sharing" e⟩, db)
  | .ok (db1, _) =>
    (⟨200, .message ("File \"" ++ file.original_name ++
        "\" shared successfully with " ++ shared_with_email ++ ".")⟩, db1)

/-- Multer `storage.filename` (fileRoutes.js lines 25-27):
the name is made of `Date.now()` and the original name. -/
def storageFilename (dateNow : Nat) (originalname : String) : String :=
  toString dateNow ++ "-" ++ originalname

/-- The alternatives of the pattern `allowedTypes` (fileRoutes.js line 32). -/
def allowedTypes : List String :=
  ["jpeg", "jpg", "png", "gif", "pdf", "doc", "docx", "txt", "zip", "rar", "7z", "mp4",
   "webm", "ogg", "mp3", "wav", "flac", "csv", "json", "xml", "pptx", "xlsx", "ppt", "xls"]

/-- JavaScript `RegExp.prototype.test` for an unanchored pattern that is an
alternation of literal strings: some alternative matches at some position of
the subject. -/
def regexTest (alts : List (List Char)) : List Char → Bool
  | [] => alts.any (fun a => a.isPrefixOf [])
  | c :: cs => alts.any (fun a => a.isPrefixOf (c :: cs)) || regexTest alts cs

/-- Node `path.extname` on the characters of a name that does not end with a
separator: from the last `.` of the last path portion to the end, and empty
when there is no `.`, when the only `.` starts the portion, or when the
portion is `..`. -/
def extnameChars (p : List Char) : List Char :=
  let base := (p.reverse.takeWhile (fun c => c != '/')).reverse
  let ext := (base.reverse.takeWhile (fun c => c != '.')).reverse
  if !(base.contains '.') then []
  else if base.length == ext.length + 1 then []
  else if base == ['.', '.'] then []
  else '.' :: ext

/-- JavaScript `toLowerCase` on ASCII letters. -/
def toLowerCase (s : List Char) : List Char := s.map Char.toLower

/-- Multer `fileFilter` (fileRoutes.js lines 31-40): `.ok true` for
`cb(null, true)`, the error message for `cb(new Error(...), false)`. -/
def fileFilter (mimetype originalname : String) : Except String Bool :=
  let mimeType := regexTest (allowedTypes.map String.data) mimetype.data
  let extName := regexTest (allowedTypes.map String.data)
    (toLowerCase (extnameChars originalname.data))
  if mimeType && extName then .ok true
  else .error "Invalid file type. Only common documents, images, and archives are allowed."

/-- The file part of a multipart upload request. -/
structure Upload where
  originalname : String
  mimetype : String
  content : String
deriving DecidableEq, Repr

/-- Route `POST /upload` behind `protect` (fileRoutes.js line 49): multer
filters the part, writes its bytes under the generated name, and
`uploadFile` runs.  An error of multer reaches the error middleware of
server.js, which answers 500 "Something broke!". -/
def uploadRoute (s : Store) (user : ReqUser) (part : Option Upload) (dateNow : Nat)
    (is_private : Option String) (now : String) (env : FsEnv) : Response × Store :=
  match part with
  | none => uploadFile s user none is_private now env
  | some f =>
    match fileFilter f.mimetype f.originalname with
    | .error _ => (⟨500, .raw "Something broke!"⟩, s)
    | .ok _ =>
      if f.content.length > 1024 * 1024 * 50 then (⟨500, .raw "Something broke!"⟩, s)
      else
        let filename := storageFilename dateNow f.originalname
        uploadFile (multerWrite s filename f.content) user
          (some { originalname := f.originalname, filename := filename,
                  size := f.content.length }) is_private now env

/-- The file ids of a listing response (`getFiles`, `getSharedWithMeFiles`). -/
def Response.fileIds (r : Response) : List Nat :=
  match r.body with
  | .files rows => rows.map (fun f => f.id)
  | .sharedWithMe rows => rows.map (fun f => f.id)
  | _ => []

/-! ## Sample stores -/

/-- Request user of the seeded administrator. -/
def adminReq : ReqUser := { id := 1, username := "admin", email := "admin@example.com", is_admin := 1 }

/-- Request user of the sample owner. -/
def aliceReq : ReqUser := { id := 2, username := "alice", email := "a@x.io", is_admin := 0 }

/-- Request user of the sample recipient. -/
def bobReq : ReqUser := { id := 3, username := "bob", email := "b@x.io", is_admin := 0 }

/-- The store after the first `openDb`: only the default administrator. -/
def seeded : Store :=
  { Store.empty with
    users := [{ id := 1, username := "admin", email := "admin@example.com",
                password := bcryptHash "adminpassword", is_admin := 1 }],
    seq_users := 1 }

/-- The seeded store after alice and bob registered. -/
def registered : Store :=
  (registerUser (registerUser seeded "alice" "a@x.io" "pw").2 "bob" "b@x.io" "pw").2

/-- The sample private upload of alice and her public one. -/
def privFile : FileRow :=
  { id := 1, user_id := 2, original_name := "n.txt", stored_name := "1-n.txt", size := 3,
    is_private := 1, upload_date := "t1" }

/-- The sample public upload of alice. -/
def pubFile : FileRow :=
  { id := 2, user_id := 2, original_name := "p.txt", stored_name := "2-p.txt", size := 3,
    is_private := 0, upload_date := "t2" }

/-- Alice uploaded a private and a public file. -/
def uploaded : Store :=
  let s1 := multerWrite registered "1-n.txt" "abc"
  let s2 := (uploadFile s1 aliceReq (some ⟨"n.txt", "1-n.txt", 3⟩) (some "true") "t1" FsEnv.ok).2
  let s3 := multerWrite s2 "2-p.txt" "xyz"
  (uploadFile s3 aliceReq (some ⟨"p.txt", "2-p.txt", 3⟩) (some "false") "t2" FsEnv.ok).2

/-- Alice shared her private file with bob. -/
def shared : Store := (shareFile uploaded aliceReq 1 "b@x.io" "t3").2

/-- Request user of alice once she is an administrator. -/
def aliceAdminReq : ReqUser := { aliceReq with is_admin := 1 }

/-- The administrator made alice an administrator. -/
def promoted : Store :=
  (updateUserAdminStatus shared adminReq (PathId.ofNat 2) (some true)).2

/-- Alice deleted the default administrator. -/
def orphaned : Store := (deleteUser promoted aliceAdminReq (PathId.ofNat 1)).2

/-- The store `uploaded` with other bytes under the storage key of alice's
private file. -/
def tampered : Store :=
  { uploaded with
    uploads := [{ name := "1-n.txt", content := "zzz" }, { name := "2-p.txt", content := "xyz" }] }

/-- The path segment `10e-1`: `parseInt` reads its leading digits, 10; SQLite
converts the bound text to the number 1 before it compares it with an INTEGER
column. -/
def PathId.tenEMinusOne : PathId := { raw := "10e-1", parseInt := some 10, sql := some 1 }

/-! # Theorems -/

/-! ## The opened store -/

theorem Authenticated.opened {s : Store} {u : ReqUser} (h : Authenticated s u) :
    openDb s = .ok s := h.1

theorem Authenticated.row {s : Store} {u : ReqUser} (h : Authenticated s u) :
    ∃ r ∈ s.users, r.id = u.id ∧ r.toReqUser = u := by
  obtain ⟨_, h2⟩ := h
  unfold Store.userById at h2
  cases hf : s.users.find? (fun r => r.id == u.id) with
  | none => simp [hf] at h2
  | some r =>
    simp [hf] at h2
    have hm := List.mem_of_find?_eq_some hf
    have hid := List.find?_some hf
    exact ⟨r, hm, by simpa using hid, h2⟩

theorem shareFor_isSome_iff (s : Store) (fileId userId : Nat) :
    (s.shareFor fileId userId).isSome = true ↔
      ∃ g ∈ s.shared_files, g.file_id = fileId ∧ g.shared_with_user_id = userId := by
  unfold Store.shareFor
  rw [List.find?_isSome]
  constructor
  · rintro ⟨g, hg, hp⟩
    simp at hp
    exact ⟨g, hg, hp⟩
  · rintro ⟨g, hg, h1, h2⟩
    exact ⟨g, hg, by simp [h1, h2]⟩

theorem isAuthorized_iff (db : Store) (u : ReqUser) (F : FileRow) (fileId : Nat) :
    isAuthorized db u F fileId = true ↔
      (F.user_id = u.id ∨ F.is_private = 0 ∨ u.is_admin ≠ 0 ∨
        ∃ g ∈ db.shared_files, g.file_id = fileId ∧ g.shared_with_user_id = u.id) := by
  have hs := shareFor_isSome_iff db fileId u.id
  unfold isAuthorized ReqUser.isAdmin
  by_cases h1 : F.user_id = u.id
  · simp [h1]
  by_cases h2 : F.is_private = 0
  · simp [h2]
  by_cases h3 : u.is_admin = 0
  · cases hf : db.shareFor fileId u.id with
    | none =>
      rw [hf] at hs
      simp at hs
      simp [h1, h2, h3]
      intro g hg hfile
      exact hs g hg hfile
    | some g0 =>
      rw [hf] at hs
      simp at hs
      simp [h1, h2, h3]
      exact hs
  · simp [h1, h2, h3]

theorem downloadFile_status (s : Store) (u : ReqUser) (fileId : Nat) (F : FileRow)
    (hu : openDb s = .ok s) (hF : s.fileById fileId = some F) :
    (downloadFile s u fileId).1.status ≠ 403 ↔ isAuthorized s u F fileId = true := by
  unfold downloadFile
  rw [hu]
  simp only [hF]
  cases hA : isAuthorized s u F fileId
  · simp
  · cases hD : diskHas s.uploads F.stored_name <;> simp [hD]

/-! ## Lists and row ids -/

theorem maxId_ge {l : List Nat} {x : Nat} (h : x ∈ l) : x ≤ maxId l := by
  induction l with
  | nil => cases h
  | cons a t ih =>
    simp only [maxId]
    rcases List.mem_cons.1 h with rfl | h
    · exact le_max_left _ _
    · exact le_trans (ih h) (le_max_right _ _)

theorem nextId_not_mem (seq : Nat) (l : List Nat) : nextId seq l ∉ l := by
  intro h
  have h1 := maxId_ge h
  have h2 := le_max_right seq (maxId l)
  unfold nextId at h1
  omega

theorem nodup_map_snoc {α β : Type} (k : α → β) (l : List α) (a : α)
    (h : (l.map k).Nodup) (ha : ∀ x ∈ l, k x ≠ k a) : ((l ++ [a]).map k).Nodup := by
  rw [List.map_append, List.nodup_append]
  refine ⟨h, by simp, ?_⟩
  intro b hb hb2
  obtain ⟨x, hx, rfl⟩ := List.mem_map.1 hb
  simp at hb2
  exact ha x hx hb2

theorem nodup_map_filter {α β : Type} (k : α → β) (l : List α) (p : α → Bool)
    (h : (l.map k).Nodup) : ((l.filter p).map k).Nodup :=
  h.sublist ((List.filter_sublist l).map k)

theorem eq_of_nodup_map {α β : Type} (k : α → β) {l : List α} (h : (l.map k).Nodup)
    {a b : α} (ha : a ∈ l) (hb : b ∈ l) (hk : k a = k b) : a = b :=
  List.inj_on_of_nodup_map h ha hb hk

theorem find?_eq_of_nodup_map {α β : Type} [DecidableEq β] (k : α → β) {l : List α}
    (h : (l.map k).Nodup) {a : α} (ha : a ∈ l) :
    l.find? (fun x => k x == k a) = some a := by
  cases hf : l.find? (fun x => k x == k a) with
  | none =>
    have := List.find?_eq_none.1 hf a ha
    simp at this
  | some b =>
    have hb := List.mem_of_find?_eq_some hf
    have hkb := List.find?_some hf
    simp at hkb
    rw [eq_of_nodup_map k h hb ha hkb]

/-! ## The SQL statements, characterised -/

theorem insertUser_ok {s s1 : Store} {un em pw : String} {a : Int} {id : Nat}
    (h : s.insertUser un em pw a = .ok (s1, id)) :
    (∀ u ∈ s.users, u.username ≠ un) ∧ (∀ u ∈ s.users, u.email ≠ em) ∧
      id = nextId s.seq_users (s.users.map (fun u => u.id)) ∧
      s1 = { s with
             users := s.users ++ [{ id := id, username := un, email := em,
                                    password := pw, is_admin := a }],
             seq_users := id } := by
  unfold Store.insertUser at h
  split at h
  · cases h
  · split at h
    · cases h
    · rename_i h1 h2
      simp only [Except.ok.injEq, Prod.mk.injEq] at h
      obtain ⟨hs, hid⟩ := h
      refine ⟨?_, ?_, hid.symm, ?_⟩
      · intro u hu hn
        exact h1 (List.any_eq_true.2 ⟨u, hu, by simp [hn]⟩)
      · intro u hu hn
        exact h2 (List.any_eq_true.2 ⟨u, hu, by simp [hn]⟩)
      · rw [← hs, hid]

theorem insertFile_ok {s s1 : Store} {uid : Nat} {o n : String} {size : Nat} {v : Int}
    {now : String} {id : Nat} (h : s.insertFile uid o n size v now = .ok (s1, id)) :
    (∀ f ∈ s.files, f.stored_name ≠ n) ∧ (∃ u ∈ s.users, u.id = uid) ∧
      id = nextId s.seq_files (s.files.map (fun f => f.id)) ∧
      s1 = { s with
             files := s.files ++ [{ id := id, user_id := uid, original_name := o,
                                    stored_name := n, size := size, is_private := v,
                                    upload_date := now }],
             seq_files := id } := by
  unfold Store.insertFile at h
  split at h
  · cases h
  · split at h
    · cases h
    · rename_i h1 h2
      simp only [Except.ok.injEq, Prod.mk.injEq] at h
      obtain ⟨hs, hid⟩ := h
      refine ⟨?_, ?_, hid.symm, ?_⟩
      · intro f hf hn
        exact h1 (List.any_eq_true.2 ⟨f, hf, by simp [hn]⟩)
      · simp only [Bool.not_eq_true, Bool.not_eq_eq_eq_not, Bool.not_true,
          Bool.not_eq_false] at h2
        obtain ⟨u, hu, hid2⟩ := List.any_eq_true.1 h2
        exact ⟨u, hu, by simpa using hid2⟩
      · rw [← hs, hid]

theorem insertShare_ok {s s1 : Store} {fid sb sw : Nat} {now : String} {id : Nat}
    (h : s.insertShare fid sb sw now = .ok (s1, id)) :
    (∀ g ∈ s.shared_files, ¬(g.file_id = fid ∧ g.shared_with_user_id = sw)) ∧
      (∃ f ∈ s.files, f.id = fid) ∧ (∃ u ∈ s.users, u.id = sb) ∧
      (∃ u ∈ s.users, u.id = sw) ∧
      id = nextId s.seq_shared (s.shared_files.map (fun g => g.id)) ∧
      s1 = s.addGrant fid sb sw now := by
  unfold Store.insertShare at h
  split at h
  · cases h
  · split at h
    · cases h
    · rename_i h1 h2
      simp only [Except.ok.injEq, Prod.mk.injEq] at h
      obtain ⟨hs, hid⟩ := h
      simp only [Bool.or_eq_true, Bool.not_eq_true', not_or, Bool.not_eq_false] at h2
      obtain ⟨⟨hf, hb⟩, hw⟩ := h2
      refine ⟨?_, ?_, ?_, ?_, hid.symm, ?_⟩
      · intro g hg hn
        exact h1 (List.any_eq_true.2 ⟨g, hg, by simp [hn.1, hn.2]⟩)
      · obtain ⟨f, hf1, hf2⟩ := List.any_eq_true.1 hf
        exact ⟨f, hf1, by simpa using hf2⟩
      · obtain ⟨u, hu1, hu2⟩ := List.any_eq_true.1 hb
        exact ⟨u, hu1, by simpa using hu2⟩
      · obtain ⟨u, hu1, hu2⟩ := List.any_eq_true.1 hw
        exact ⟨u, hu1, by simpa using hu2⟩
      · rw [← hs]; rfl

/-! ## The schema constraints are kept -/

theorem valid_empty : Store.empty.Valid := by
  constructor <;> simp [Store.empty]

theorem valid_insertUser {s s1 : Store} {un em pw : String} {a : Int} {id : Nat}
    (hv : s.Valid) (h : s.insertUser un em pw a = .ok (s1, id)) : s1.Valid := by
  obtain ⟨hun, hem, hid, rfl⟩ := insertUser_ok h
  have hfresh : ∀ u ∈ s.users, u.id ≠ id := by
    intro u hu he
    apply nextId_not_mem s.seq_users (s.users.map (fun u => u.id))
    rw [← hid, ← he]
    exact List.mem_map_of_mem _ hu
  constructor
  · exact nodup_map_snoc _ _ _ hv.users_id (fun x hx => hfresh x hx)
  · exact nodup_map_snoc _ _ _ hv.users_username (fun x hx => hun x hx)
  · exact nodup_map_snoc _ _ _ hv.users_email (fun x hx => hem x hx)
  · exact hv.files_id
  · exact hv.files_stored
  · intro f hf
    obtain ⟨u, hu, he⟩ := hv.files_owner f hf
    exact ⟨u, List.mem_append_left _ hu, he⟩
  · exact hv.shares_id
  · exact hv.shares_pair
  · exact hv.shares_file
  · intro g hg
    obtain ⟨u, hu, he⟩ := hv.shares_by g hg
    exact ⟨u, List.mem_append_left _ hu, he⟩
  · intro g hg
    obtain ⟨u, hu, he⟩ := hv.shares_with g hg
    exact ⟨u, List.mem_append_left _ hu, he⟩

theorem valid_insertFile {s s1 : Store} {uid : Nat} {o n : String} {size : Nat} {v : Int}
    {now : String} {id : Nat} (hv : s.Valid)
    (h : s.insertFile uid o n size v now = .ok (s1, id)) : s1.Valid := by
  obtain ⟨hst, hown, hid, rfl⟩ := insertFile_ok h
  have hfresh : ∀ f ∈ s.files, f.id ≠ id := by
    intro f hf he
    apply nextId_not_mem s.seq_files (s.files.map (fun f => f.id))
    rw [← hid, ← he]
    exact List.mem_map_of_mem _ hf
  constructor
  · exact hv.users_id
  · exact hv.users_username
  · exact hv.users_email
  · exact nodup_map_snoc _ _ _ hv.files_id (fun x hx => hfresh x hx)
  · exact nodup_map_snoc _ _ _ hv.files_stored (fun x hx => hst x hx)
  · intro f hf
    rcases List.mem_append.1 hf with hf | hf
    · exact hv.files_owner f hf
    · simp only [List.mem_singleton] at hf
      subst hf
      exact hown
  · exact hv.shares_id
  · exact hv.shares_pair
  · intro g hg
    obtain ⟨f, hf, he⟩ := hv.shares_file g hg
    exact ⟨f, List.mem_append_left _ hf, he⟩
  · exact hv.shares_by
  · exact hv.shares_with

theorem valid_insertShare {s s1 : Store} {fid sb sw : Nat} {now : String} {id : Nat}
    (hv : s.Valid) (h : s.insertShare fid sb sw now = .ok (s1, id)) : s1.Valid := by
  obtain ⟨hpair, hf, hb, hw, _, rfl⟩ := insertShare_ok h
  have hfresh : ∀ g ∈ s.shared_files,
      g.id ≠ nextId s.seq_shared (s.shared_files.map (fun g => g.id)) := by
    intro g hg he
    apply nextId_not_mem s.seq_shared (s.shared_files.map (fun g => g.id))
    rw [← he]
    exact List.mem_map_of_mem _ hg
  have hmem : ∀ g, g ∈ (s.addGrant fid sb sw now).shared_files →
      g ∈ s.shared_files ∨ (g.file_id = fid ∧ g.shared_by_user_id = sb ∧
        g.shared_with_user_id = sw) := by
    intro g hg
    rcases List.mem_append.1 hg with hg | hg
    · exact Or.inl hg
    · simp only [List.mem_singleton] at hg
      subst hg
      exact Or.inr ⟨rfl, rfl, rfl⟩
  constructor
  · exact hv.users_id
  · exact hv.users_username
  · exact hv.users_email
  · exact hv.files_id
  · exact hv.files_stored
  · exact hv.files_owner
  · exact nodup_map_snoc _ _ _ hv.shares_id (fun x hx => hfresh x hx)
  · refine nodup_map_snoc _ _ _ hv.shares_pair (fun x hx he => ?_)
    simp only [Prod.mk.injEq] at he
    exact hpair x hx he
  · intro g hg
    rcases hmem g hg with hg | ⟨h1, _, _⟩
    · exact hv.shares_file g hg
    · rw [h1]; exact hf
  · intro g hg
    rcases hmem g hg with hg | ⟨_, h1, _⟩
    · exact hv.shares_by g hg
    · rw [h1]; exact hb
  · intro g hg
    rcases hmem g hg with hg | ⟨_, _, h1⟩
    · exact hv.shares_with g hg
    · rw [h1]; exact hw

theorem valid_deleteShare {s : Store} (hv : s.Valid) (id : Nat) : (s.deleteShare id).Valid := by
  constructor
  · exact hv.users_id
  · exact hv.users_username
  · exact hv.users_email
  · exact hv.files_id
  · exact hv.files_stored
  · exact hv.files_owner
  · exact nodup_map_filter _ _ _ hv.shares_id
  · exact nodup_map_filter _ _ _ hv.shares_pair
  · intro g hg
    exact hv.shares_file g (List.mem_filter.1 hg).1
  · intro g hg
    exact hv.shares_by g (List.mem_filter.1 hg).1
  · intro g hg
    exact hv.shares_with g (List.mem_filter.1 hg).1

theorem valid_deleteFilesWhere {s : Store} (hv : s.Valid) (p : FileRow → Bool) :
    (s.deleteFilesWhere p).Valid := by
  constructor
  · exact hv.users_id
  · exact hv.users_username
  · exact hv.users_email
  · exact nodup_map_filter _ _ _ hv.files_id
  · exact nodup_map_filter _ _ _ hv.files_stored
  · intro f hf
    exact hv.files_owner f (List.mem_filter.1 hf).1
  · exact nodup_map_filter _ _ _ hv.shares_id
  · exact nodup_map_filter _ _ _ hv.shares_pair
  · intro g hg
    obtain ⟨hg1, hg2⟩ := List.mem_filter.1 hg
    obtain ⟨f, hf, he⟩ := hv.shares_file g hg1
    refine ⟨f, List.mem_filter.2 ⟨hf, ?_⟩, he⟩
    cases hp : p f
    · rfl
    · exfalso
      simp only [Bool.not_eq_true', List.any_eq_false, List.mem_filter] at hg2
      exact hg2 f ⟨hf, hp⟩ (by simp [he])
  · intro g hg
    exact hv.shares_by g (List.mem_filter.1 hg).1
  · intro g hg
    exact hv.shares_with g (List.mem_filter.1 hg).1

theorem valid_deleteUserRow {s : Store} (hv : s.Valid) (id : Nat) :
    (s.deleteUserRow id).1.Valid := by
  have hkeep : ∀ u ∈ s.users, ∀ k : Nat,
      (s.users.filter (fun u => u.id == id)).any (fun u => u.id == k) = false →
      u.id = k → u ∈ s.users.filter (fun u => !(u.id == id)) := by
    intro u hu k hk he
    refine List.mem_filter.2 ⟨hu, ?_⟩
    cases hid : u.id == id
    · rfl
    · exfalso
      simp only [List.any_eq_false, List.mem_filter] at hk
      exact hk u ⟨hu, hid⟩ (by simp [he])
  have hv1 := valid_deleteFilesWhere hv
    (fun f => (s.users.filter (fun u => u.id == id)).any (fun u => u.id == f.user_id))
  constructor
  · exact nodup_map_filter _ _ _ hv.users_id
  · exact nodup_map_filter _ _ _ hv.users_username
  · exact nodup_map_filter _ _ _ hv.users_email
  · exact hv1.files_id
  · exact hv1.files_stored
  · intro f hf
    obtain ⟨hf1, hf2⟩ := List.mem_filter.1 hf
    obtain ⟨u, hu, he⟩ := hv.files_owner f hf1
    simp only [Bool.not_eq_true'] at hf2
    exact ⟨u, hkeep u hu f.user_id hf2 he, he⟩
  · exact nodup_map_filter _ _ _ hv1.shares_id
  · exact nodup_map_filter _ _ _ hv1.shares_pair
  · intro g hg
    exact hv1.shares_file g (List.mem_filter.1 hg).1
  · intro g hg
    obtain ⟨hg1, hg2⟩ := List.mem_filter.1 hg
    obtain ⟨u, hu, he⟩ := hv1.shares_by g hg1
    simp only [Bool.and_eq_true, Bool.not_eq_true'] at hg2
    exact ⟨u, hkeep u hu _ hg2.1 he, he⟩
  · intro g hg
    obtain ⟨hg1, hg2⟩ := List.mem_filter.1 hg
    obtain ⟨u, hu, he⟩ := hv1.shares_with g hg1
    simp only [Bool.and_eq_true, Bool.not_eq_true'] at hg2
    exact ⟨u, hkeep u hu _ hg2.2 he, he⟩

theorem setAdmin_users_map {β : Type} (k : User → β) (l : List User) (id : Nat) (v : Int)
    (hk : ∀ u : User, k { u with is_admin := v } = k u) :
    (l.map (fun u => if u.id == id then { u with is_admin := v } else u)).map k = l.map k := by
  rw [List.map_map]
  apply List.map_congr_left
  intro u _
  simp only [Function.comp]
  split
  · exact hk u
  · rfl

theorem setAdmin_mem_id {l : List User} {id : Nat} {v : Int} {k : Nat}
    (h : ∃ u ∈ l, u.id = k) :
    ∃ u ∈ l.map (fun u => if u.id == id then { u with is_admin := v } else u), u.id = k := by
  obtain ⟨u, hu, he⟩ := h
  refine ⟨_, List.mem_map_of_mem _ hu, ?_⟩
  split <;> exact he

theorem valid_setAdmin {s : Store} (hv : s.Valid) (id : Nat) (v : Int) :
    (s.setAdmin id v).1.Valid := by
  constructor
  · show ((s.users.map _).map _).Nodup
    rw [setAdmin_users_map _ _ _ _ (fun _ => rfl)]
    exact hv.users_id
  · show ((s.users.map _).map _).Nodup
    rw [setAdmin_users_map _ _ _ _ (fun _ => rfl)]
    exact hv.users_username
  · show ((s.users.map _).map _).Nodup
    rw [setAdmin_users_map _ _ _ _ (fun _ => rfl)]
    exact hv.users_email
  · exact hv.files_id
  · exact hv.files_stored
  · intro f hf
    exact setAdmin_mem_id (hv.files_owner f hf)
  · exact hv.shares_id
  · exact hv.shares_pair
  · exact hv.shares_file
  · intro g hg
    exact setAdmin_mem_id (hv.shares_by g hg)
  · intro g hg
    exact setAdmin_mem_id (hv.shares_with g hg)

theorem valid_closed : Closed Store.Valid where
  insertUser := fun _ _ _ _ _ _ _ hv _ _ h => valid_insertUser hv h
  insertFile := fun _ _ _ _ _ _ _ _ _ hv h => valid_insertFile hv h
  insertShare := fun _ _ _ _ _ _ _ _ hv _ _ _ _ _ h => valid_insertShare hv h
  deleteShare := fun _ id hv => valid_deleteShare hv id
  deleteFilesWhere := fun _ p hv => valid_deleteFilesWhere hv p
  deleteUserRow := fun _ id hv => valid_deleteUserRow hv id
  setAdmin := fun _ id v hv => valid_setAdmin hv id v
  uploads := fun _ _ hv =>
    ⟨hv.users_id, hv.users_username, hv.users_email, hv.files_id, hv.files_stored,
      hv.files_owner, hv.shares_id, hv.shares_pair, hv.shares_file, hv.shares_by,
      hv.shares_with⟩

/-! ## The grant invariant is kept -/

theorem find?_filter_of_pos {α : Type} (q r : α → Bool) {l : List α} {a : α}
    (h : l.find? q = some a) (hr : r a = true) : (l.filter r).find? q = some a := by
  induction l with
  | nil => simp at h
  | cons x t ih =>
    rw [List.find?_cons] at h
    cases hq : q x
    · rw [hq] at h
      simp only at h
      cases hrx : r x
      · rw [List.filter_cons_of_neg (by simp [hrx])]
        exact ih h
      · rw [List.filter_cons_of_pos (by simp [hrx]), List.find?_cons, hq]
        exact ih h
    · rw [hq] at h
      simp only [Option.some.injEq] at h
      subst h
      rw [List.filter_cons_of_pos hr, List.find?_cons, hq]

theorem find?_append_of_some {α : Type} (q : α → Bool) {l : List α} (l2 : List α) {a : α}
    (h : l.find? q = some a) : (l ++ l2).find? q = some a := by
  rw [List.find?_append, h]
  rfl

theorem grantOK_of {s s1 : Store} {g : SharedFile} (h : s.GrantOK g)
    (hf : ∀ f, s.fileById g.file_id = some f → s1.fileById g.file_id = some f)
    (hu : ∀ u ∈ s.users, u.id = g.shared_with_user_id →
      ∃ r ∈ s1.users, r.id = g.shared_with_user_id) : s1.GrantOK g := by
  obtain ⟨f, h1, h2, h3, ⟨u, hu1, hu2⟩, h5⟩ := h
  exact ⟨f, hf f h1, h2, h3, hu u hu1 hu2, h5⟩

theorem grantsOK_empty : Store.empty.GrantsOK := by
  intro g hg
  simp [Store.empty] at hg

theorem grantsOK_insertUser {s s1 : Store} {un em pw : String} {a : Int} {id : Nat}
    (hv : s.GrantsOK) (h : s.insertUser un em pw a = .ok (s1, id)) : s1.GrantsOK := by
  obtain ⟨_, _, _, rfl⟩ := insertUser_ok h
  intro g hg
  exact grantOK_of (hv g hg) (fun f hf => hf)
    (fun u hu he => ⟨u, List.mem_append_left _ hu, he⟩)

theorem grantsOK_insertFile {s s1 : Store} {uid : Nat} {o n : String} {size : Nat}
    {v : Int} {now : String} {id : Nat} (hv : s.GrantsOK)
    (h : s.insertFile uid o n size v now = .ok (s1, id)) : s1.GrantsOK := by
  obtain ⟨_, _, _, rfl⟩ := insertFile_ok h
  intro g hg
  exact grantOK_of (hv g hg) (fun f hf => find?_append_of_some _ _ hf)
    (fun u hu he => ⟨u, hu, he⟩)

theorem grantsOK_insertShare {s s1 : Store} {F : FileRow} {R : User} {fid sb : Nat}
    {now : String} {id : Nat} (hv : s.GrantsOK) (hF : s.fileById fid = some F)
    (hown : F.user_id = sb) (hpriv : F.is_private = 1) (hR : R ∈ s.users)
    (hne : R.id ≠ sb) (h : s.insertShare fid sb R.id now = .ok (s1, id)) :
    s1.GrantsOK := by
  obtain ⟨_, _, _, _, _, rfl⟩ := insertShare_ok h
  intro g hg
  rcases List.mem_append.1 hg with hg | hg
  · exact grantOK_of (hv g hg) (fun f hf => hf) (fun u hu he => ⟨u, hu, he⟩)
  · simp only [List.mem_singleton] at hg
    subst hg
    exact ⟨F, hF, hpriv, hown.symm, ⟨R, hR, rfl⟩, by rw [hown]; exact hne⟩

theorem grantsOK_deleteShare {s : Store} (hv : s.GrantsOK) (id : Nat) :
    (s.deleteShare id).GrantsOK := by
  intro g hg
  exact grantOK_of (hv g (List.mem_filter.1 hg).1) (fun f hf => hf)
    (fun u hu he => ⟨u, hu, he⟩)

theorem grantsOK_deleteFilesWhere {s : Store} (hv : s.GrantsOK) (p : FileRow → Bool) :
    (s.deleteFilesWhere p).GrantsOK := by
  intro g hg
  obtain ⟨hg1, hg2⟩ := List.mem_filter.1 hg
  refine grantOK_of (hv g hg1) (fun f hf => ?_) (fun u hu he => ⟨u, hu, he⟩)
  have hmem : f ∈ s.files := List.mem_of_find?_eq_some hf
  have hid : f.id = g.file_id := by simpa using List.find?_some hf
  have hp : p f = false := by
    cases hp : p f
    · rfl
    · exfalso
      simp only [Bool.not_eq_true', List.any_eq_false, List.mem_filter] at hg2
      exact hg2 f ⟨hmem, hp⟩ (by simp [hid])
  exact find?_filter_of_pos _ _ hf (by simp [hp])

theorem grantsOK_deleteUserRow {s : Store} (hv : s.GrantsOK) (id : Nat) :
    (s.deleteUserRow id).1.GrantsOK := by
  have hv1 := grantsOK_deleteFilesWhere hv
    (fun f => (s.users.filter (fun u => u.id == id)).any (fun u => u.id == f.user_id))
  intro g hg
  obtain ⟨hg1, hg2⟩ := List.mem_filter.1 hg
  refine grantOK_of (hv1 g hg1) (fun f hf => hf) (fun u hu he => ?_)
  refine ⟨u, List.mem_filter.2 ⟨hu, ?_⟩, he⟩
  simp only [Bool.and_eq_true, Bool.not_eq_true'] at hg2
  cases hid : u.id == id
  · rfl
  · exfalso
    have h2 := hg2.2
    simp only [List.any_eq_false, List.mem_filter] at h2
    exact h2 u ⟨hu, hid⟩ (by simp [he])

theorem grantsOK_setAdmin {s : Store} (hv : s.GrantsOK) (id : Nat) (v : Int) :
    (s.setAdmin id v).1.GrantsOK := by
  intro g hg
  exact grantOK_of (hv g hg) (fun f hf => hf)
    (fun u hu he => setAdmin_mem_id ⟨u, hu, he⟩)

theorem grantsOK_closed : Closed Store.GrantsOK where
  insertUser := fun _ _ _ _ _ _ _ hv _ _ h => grantsOK_insertUser hv h
  insertFile := fun _ _ _ _ _ _ _ _ _ hv h => grantsOK_insertFile hv h
  insertShare := fun _ _ _ _ _ _ _ _ hv hF hown hpriv hR hne h =>
    grantsOK_insertShare hv hF hown hpriv hR hne h
  deleteShare := fun _ id hv => grantsOK_deleteShare hv id
  deleteFilesWhere := fun _ p hv => grantsOK_deleteFilesWhere hv p
  deleteUserRow := fun _ id hv => grantsOK_deleteUserRow hv id
  setAdmin := fun _ id v hv => grantsOK_setAdmin hv id v
  uploads := fun _ _ hv g hg => grantOK_of (hv g hg) (fun _ hf => hf)
    (fun u hu he => ⟨u, hu, he⟩)

/-! ## Emails and file ids are truthy -/

theorem truthy_empty : Store.empty.Truthy := by
  constructor <;> intro x hx <;> simp [Store.empty] at hx

theorem truthy_closed : Closed Store.Truthy where
  insertUser := by
    intro s s1 un em pw a id hv _ hem h
    obtain ⟨_, _, _, rfl⟩ := insertUser_ok h
    refine ⟨fun u hu => ?_, hv.2⟩
    rcases List.mem_append.1 hu with hu | hu
    · exact hv.1 u hu
    · simp only [List.mem_singleton] at hu
      subst hu
      exact hem
  insertFile := by
    intro s s1 uid o n size v now id hv h
    obtain ⟨_, _, hid, rfl⟩ := insertFile_ok h
    refine ⟨hv.1, fun f hf => ?_⟩
    rcases List.mem_append.1 hf with hf | hf
    · exact hv.2 f hf
    · simp only [List.mem_singleton] at hf
      subst hf
      show id ≠ 0
      rw [hid]
      unfold nextId
      omega
  insertShare := by
    intro s s1 F R fid sb now id hv _ _ _ _ _ h
    obtain ⟨_, _, _, _, _, rfl⟩ := insertShare_ok h
    exact hv
  deleteShare := fun _ _ hv => hv
  deleteFilesWhere := fun _ _ hv => ⟨hv.1, fun f hf => hv.2 f (List.mem_filter.1 hf).1⟩
  deleteUserRow := fun _ _ hv =>
    ⟨fun u hu => hv.1 u (List.mem_filter.1 hu).1,
     fun f hf => hv.2 f (List.mem_filter.1 hf).1⟩
  setAdmin := by
    intro s id v hv
    refine ⟨fun u hu => ?_, hv.2⟩
    obtain ⟨r, hr, rfl⟩ := List.mem_map.1 hu
    have := hv.1 r hr
    split <;> exact this
  uploads := fun _ _ hv => hv

/-! ## Every handler keeps a closed property -/

theorem closed_openDb {P : Store → Prop} (hP : Closed P) {s s1 : Store} (h : P s)
    (ho : openDb s = .ok s1) : P s1 := by
  unfold openDb at ho
  split at ho
  · cases ho; exact h
  · split at ho
    · cases ho
    · rename_i heq
      cases ho
      exact hP.insertUser _ _ _ _ _ _ _ h (by decide) (by decide) heq

theorem closed_registerUser {P : Store → Prop} (hP : Closed P) {s : Store} (h : P s)
    (username email password : String) : P (registerUser s username email password).2 := by
  unfold registerUser
  split
  · exact h
  · rename_i hguard
    simp only [Bool.or_eq_true, beq_iff_eq, not_or] at hguard
    split
    · exact h
    · rename_i db ho
      have hdb := closed_openDb hP h ho
      split
      · exact hdb
      · split
        · exact hdb
        · rename_i heq
          exact hP.insertUser _ _ _ _ _ _ _ hdb hguard.1.1 hguard.1.2 heq

theorem closed_multerWrite {P : Store → Prop} (hP : Closed P) {s : Store} (h : P s)
    (name content : String) : P (multerWrite s name content) :=
  hP.uploads s _ h

theorem closed_uploadFile {P : Store → Prop} (hP : Closed P) {s : Store} (h : P s)
    (u : ReqUser) (file : Option UploadedFile) (is_private : Option String) (now : String)
    (env : FsEnv) : P (uploadFile s u file is_private now env).2 := by
  unfold uploadFile
  split
  · exact h
  · rename_i uf
    have hc : ∀ db : Store, P db →
        P (if env.unlinkFails = true then db
           else { db with uploads := unlink db.uploads uf.filename }) := by
      intro db hdb
      split
      · exact hdb
      · exact hP.uploads db _ hdb
    simp only
    split
    · exact hc s h
    · split
      · exact hc s h
      · rename_i db ho
        have hdb := closed_openDb hP h ho
        split
        · exact hc db hdb
        · rename_i heq
          exact hP.insertFile _ _ _ _ _ _ _ _ _ hdb heq

theorem closed_shareFile {P : Store → Prop} (hP : Closed P) {s : Store} (h : P s)
    (u : ReqUser) (file_id : Nat) (email now : String) :
    P (shareFile s u file_id email now).2 := by
  unfold shareFile
  split
  · exact h
  · split
    · exact h
    · rename_i db ho
      have hdb := closed_openDb hP h ho
      split
      · exact hdb
      · rename_i file hfile
        split
        · exact hdb
        · rename_i hown
          split
          · exact hdb
          · rename_i R hR
            split
            · exact hdb
            · rename_i hself
              split
              · exact hdb
              · split
                · exact hdb
                · rename_i heq
                  simp at hown hself
                  exact hP.insertShare db _ file R file_id u.id now _ hdb hfile hown.1 hown.2
                    (List.mem_of_find?_eq_some hR) hself heq

theorem closed_unshareFile {P : Store → Prop} (hP : Closed P) {s : Store} (h : P s)
    (u : ReqUser) (shareId : Nat) : P (unshareFile s u shareId).2 := by
  unfold unshareFile
  split
  · exact h
  · rename_i db ho
    have hdb := closed_openDb hP h ho
    split
    · exact hdb
    · split
      · exact hdb
      · split
        · exact hdb
        · exact hP.deleteShare db shareId hdb

theorem closed_deleteFile {P : Store → Prop} (hP : Closed P) {s : Store} (h : P s)
    (u : ReqUser) (fileId : Nat) (env : FsEnv) : P (deleteFile s u fileId env).2 := by
  unfold deleteFile
  split
  · exact h
  · rename_i db ho
    have hdb := closed_openDb hP h ho
    split
    · exact hdb
    · split
      · exact hdb
      · have h1 := hP.deleteFilesWhere db (fun f => f.id == fileId) hdb
        simp only
        split
        · exact h1
        · split
          · exact h1
          · exact hP.uploads _ _ h1

theorem closed_deleteUser {P : Store → Prop} (hP : Closed P) {s : Store} (h : P s)
    (u : ReqUser) (id : PathId) : P (deleteUser s u id).2 := by
  unfold deleteUser
  split
  · exact h
  · rename_i db ho
    have hdb := closed_openDb hP h ho
    split
    · exact hdb
    · split
      · exact hdb
      · rename_i n _
        have h1 := hP.deleteFilesWhere db (fun f => f.user_id == n) hdb
        have h2 := hP.deleteUserRow _ n h1
        simp only
        split <;> exact h2

theorem closed_updateUserAdminStatus {P : Store → Prop} (hP : Closed P) {s : Store}
    (h : P s) (u : ReqUser) (id : PathId) (v : Option Bool) :
    P (updateUserAdminStatus s u id v).2 := by
  unfold updateUserAdminStatus
  split
  · exact h
  · split
    · exact h
    · rename_i db ho
      have hdb := closed_openDb hP h ho
      simp only
      split
      · exact hdb
      · split
        · exact hdb
        · rename_i n _
          split <;> split <;> exact hP.setAdmin db n _ hdb

theorem closed_reachable {P : Store → Prop} (hP : Closed P) (h0 : P Store.empty)
    {s : Store} (hs : Reachable s) : P s := by
  induction hs with
  | empty => exact h0
  | openDb _ ho ih => exact closed_openDb hP ih ho
  | register un em pw _ ih => exact closed_registerUser hP ih un em pw
  | multer n c _ ih => exact closed_multerWrite hP ih n c
  | upload f p now env _ _ ih => exact closed_uploadFile hP ih _ f p now env
  | share f e now _ _ ih => exact closed_shareFile hP ih _ f e now
  | unshare i _ _ ih => exact closed_unshareFile hP ih _ i
  | delete i env _ _ ih => exact closed_deleteFile hP ih _ i env
  | deleteUser i _ _ _ ih => exact closed_deleteUser hP ih _ i
  | setAdmin i v _ _ _ ih => exact closed_updateUserAdminStatus hP ih _ i v

theorem reachable_valid {s : Store} (hs : Reachable s) : s.Valid :=
  closed_reachable valid_closed valid_empty hs

theorem reachable_grantsOK {s : Store} (hs : Reachable s) : s.GrantsOK :=
  closed_reachable grantsOK_closed grantsOK_empty hs

theorem reachable_truthy {s : Store} (hs : Reachable s) : s.Truthy :=
  closed_reachable truthy_closed truthy_empty hs

/-! ## Download and listing (C1, C2) -/

/-- C1: for a private file F that exists and an authenticated user u,
`downloadFile` does not answer 403 Forbidden if and only if u owns F, or u's
admin flag is set, or a grant row exists for (F, u). -/
theorem downloadFile_private_authorized_iff (s : Store) (u : ReqUser) (fileId : Nat)
    (F : FileRow) (hu : Authenticated s u) (hF : s.fileById fileId = some F)
    (hpriv : F.is_private = 1) :
    (downloadFile s u fileId).1.status ≠ 403 ↔
      (F.user_id = u.id ∨ u.is_admin ≠ 0 ∨
        ∃ g ∈ s.shared_files, g.file_id = fileId ∧ g.shared_with_user_id = u.id) := by
  rw [downloadFile_status s u fileId F hu.opened hF, isAuthorized_iff]
  simp [hpriv]

/-- C1 (witness): bob holds a grant on the private file of alice. -/
theorem downloadFile_private_authorized_iff_witness :
    (downloadFile shared bobReq 1).1.status ≠ 403 ↔
      (privFile.user_id = bobReq.id ∨ bobReq.is_admin ≠ 0 ∨
        ∃ g ∈ shared.shared_files, g.file_id = 1 ∧ g.shared_with_user_id = bobReq.id) :=
  downloadFile_private_authorized_iff shared bobReq 1 privFile ⟨rfl, rfl⟩ rfl rfl

/-- C2: a public file F is in the listing `getFiles` returns to any
registered user u, and `downloadFile` does not answer 403 to u for F. -/
theorem public_file_listed_and_downloadable (s : Store) (u : ReqUser) (F : FileRow)
    (hu : Authenticated s u) (hF : s.fileById F.id = some F) (hpub : F.is_private = 0) :
    (∃ rows, (getFiles s (some u)).1 = ⟨200, .files rows⟩ ∧ F ∈ rows) ∧
      (downloadFile s u F.id).1.status ≠ 403 := by
  constructor
  · have hmem : F ∈ s.files := List.mem_of_find?_eq_some hF
    unfold getFiles
    rw [hu.opened]
    by_cases ha : u.isAdmin = true
    · exact ⟨s.files, by simp [ha], hmem⟩
    · refine ⟨s.files.filter (fun f => f.user_id == u.id || f.is_private == 0),
        by simp [ha], ?_⟩
      simp [List.mem_filter, hmem, hpub]
  · rw [downloadFile_status s u F.id F hu.opened hF, isAuthorized_iff]
    exact Or.inr (Or.inl hpub)

/-- C2 (witness): bob sees and may download the public file of alice. -/
theorem public_file_listed_and_downloadable_witness :
    (∃ rows, (getFiles uploaded (some bobReq)).1 = ⟨200, .files rows⟩ ∧ pubFile ∈ rows) ∧
      (downloadFile uploaded bobReq pubFile.id).1.status ≠ 403 :=
  public_file_listed_and_downloadable uploaded bobReq pubFile ⟨rfl, rfl⟩ rfl rfl

/-! ## The sharing ledger: lemmas -/

theorem grantCount_eq_zero_iff (s : Store) (fileId userId : Nat) :
    s.grantCount fileId userId = 0 ↔ s.shareFor fileId userId = none := by
  unfold Store.grantCount Store.shareFor
  rw [List.length_eq_zero, List.filter_eq_nil_iff, List.find?_eq_none]

theorem insertShare_eq_ok {s : Store} {fid sb sw : Nat} (now : String)
    (hnone : s.shareFor fid sw = none) (hf : ∃ f ∈ s.files, f.id = fid)
    (hb : ∃ u ∈ s.users, u.id = sb) (hw : ∃ u ∈ s.users, u.id = sw) :
    s.insertShare fid sb sw now =
      .ok (s.addGrant fid sb sw now,
        nextId s.seq_shared (s.shared_files.map (fun g => g.id))) := by
  unfold Store.insertShare
  have h1 : s.shared_files.any
      (fun g => g.file_id == fid && g.shared_with_user_id == sw) = false := by
    unfold Store.shareFor at hnone
    rw [List.find?_eq_none] at hnone
    rw [List.any_eq_false]
    exact hnone
  have h2 : s.files.any (fun f => f.id == fid) = true := by
    obtain ⟨f, hf1, hf2⟩ := hf
    exact List.any_eq_true.2 ⟨f, hf1, by simp [hf2]⟩
  have h3 : s.users.any (fun u => u.id == sb) = true := by
    obtain ⟨u, hu1, hu2⟩ := hb
    exact List.any_eq_true.2 ⟨u, hu1, by simp [hu2]⟩
  have h4 : s.users.any (fun u => u.id == sw) = true := by
    obtain ⟨u, hu1, hu2⟩ := hw
    exact List.any_eq_true.2 ⟨u, hu1, by simp [hu2]⟩
  simp [h1, h2, h3, h4, Store.addGrant]

theorem shareFile_missing_field (s : Store) (u : ReqUser) (fileId : Nat)
    (email now : String) (h : fileId = 0 ∨ email = "") :
    shareFile s u fileId email now =
      (⟨400, .message "File ID and recipient email are required."⟩, s) := by
  unfold shareFile
  have hg2 : (fileId == 0 || email == "") = true := by simpa using h
  rw [if_pos hg2]

theorem shareFile_eq_spec (s : Store) (u : ReqUser) (fileId : Nat) (email now : String)
    (hu : Authenticated s u) (hid : fileId ≠ 0) (hem : email ≠ "") :
    ((shareFile s u fileId email now).1.kind, (shareFile s u fileId email now).2) =
      createGrantSpec s u fileId email now := by
  obtain ⟨row, hrow, hrid, _⟩ := hu.row
  unfold shareFile
  have hg2 : ¬ (fileId == 0 || email == "") = true := by simp [hid, hem]
  rw [if_neg hg2, hu.opened]
  unfold createGrantSpec
  simp only
  cases hF : s.fileById fileId with
  | none =>
    have hF2 : s.files.find? (fun f => f.id == fileId) = none := hF
    simp only [hF2]
    rfl
  | some F =>
    have hF2 : s.files.find? (fun f => f.id == fileId) = some F := hF
    simp only [hF2]
    by_cases hown : F.user_id ≠ u.id ∨ F.is_private ≠ 1
    · have hown2 : (F.user_id != u.id || F.is_private != 1) = true := by simpa using hown
      rw [if_pos hown2, if_pos hown]
      rfl
    · have hown2 : ¬ (F.user_id != u.id || F.is_private != 1) = true := by simpa using hown
      rw [if_neg hown2, if_neg hown]
      cases hR : s.userByEmail email with
      | none =>
        have hR2 : s.users.find? (fun r => r.email == email) = none := hR
        simp only [hR2]
        rfl
      | some R =>
        have hR2 : s.users.find? (fun r => r.email == email) = some R := hR
        simp only [hR2]
        by_cases hself : R.id = u.id
        · have hself2 : (R.id == u.id) = true := by simpa using hself
          rw [if_pos hself2, if_pos hself]
          rfl
        · have hself2 : ¬ (R.id == u.id) = true := by simpa using hself
          rw [if_neg hself2, if_neg hself]
          cases hS : s.shareFor fileId R.id with
          | some g0 =>
            have hc : s.grantCount fileId R.id ≠ 0 := by
              rw [Ne, grantCount_eq_zero_iff, hS]
              simp
            rw [if_pos hc]
            rfl
          | none =>
            have hc : ¬ s.grantCount fileId R.id ≠ 0 := by
              rw [Ne, grantCount_eq_zero_iff, hS]
              simp
            rw [if_neg hc]
            have hins := insertShare_eq_ok now hS
              ⟨F, List.mem_of_find?_eq_some hF, by simpa using List.find?_some hF⟩
              ⟨row, hrow, hrid⟩ ⟨R, List.mem_of_find?_eq_some hR, rfl⟩
            simp only [hins]
            rfl

theorem opened_iff (s : Store) :
    openDb s = .ok s ↔ (s.userByEmail "admin@example.com").isSome = true := by
  unfold openDb
  cases h : s.userByEmail "admin@example.com" with
  | some a => simp
  | none =>
    simp only [Option.isSome_none, Bool.false_eq_true, iff_false]
    intro ho
    split at ho
    · cases ho
    · rename_i s1 id heq
      obtain ⟨_, _, _, hs1⟩ := insertUser_ok heq
      simp only [Except.ok.injEq] at ho
      rw [ho] at hs1
      have hl := congrArg (fun t : Store => t.users.length) hs1
      simp at hl

theorem opened_of_users {s s1 : Store} (h : openDb s = .ok s) (hu : s1.users = s.users) :
    openDb s1 = .ok s1 := by
  rw [opened_iff] at h ⊢
  unfold Store.userByEmail at h ⊢
  rw [hu]
  exact h

theorem openDb_idem {s db : Store} (h : openDb s = .ok db) : openDb db = .ok db := by
  rw [opened_iff]
  unfold openDb at h
  split at h
  · rename_i a ha
    cases h
    rw [ha]
    rfl
  · split at h
    · cases h
    · rename_i s1 id heq
      cases h
      obtain ⟨_, _, _, rfl⟩ := insertUser_ok heq
      unfold Store.userByEmail
      rw [List.find?_isSome]
      exact ⟨_, List.mem_append_right _ (List.mem_singleton.2 rfl), by simp⟩

theorem protect_authenticated {s s1 : Store} {a : Auth} {u : ReqUser}
    (h : protect s a = (s1, .ok u)) : Authenticated s1 u := by
  unfold protect at h
  split at h
  · simp at h
  · simp at h
  · rename_i id
    split at h
    · simp at h
    · rename_i db hdb
      split at h
      · simp at h
      · rename_i r hr
        simp only [Prod.mk.injEq, Except.ok.injEq] at h
        obtain ⟨h1, h2⟩ := h
        subst h1
        subst h2
        refine ⟨openDb_idem hdb, ?_⟩
        have hid : r.id = id := by
          unfold Store.userById at hr
          simpa using List.find?_some hr
        show (db.userById r.id).map User.toReqUser = some r.toReqUser
        rw [hid, hr]
        rfl

theorem shareFile_owner_request {s : Store} {u : ReqUser} {fileId : Nat} {email : String}
    {F : FileRow} {R : User} (now : String) (hu : Authenticated s u) (hid : fileId ≠ 0)
    (hem : email ≠ "") (hF : s.fileById fileId = some F) (hown : F.user_id = u.id)
    (hpriv : F.is_private = 1) (hR : s.userByEmail email = some R) (hne : R.id ≠ u.id) :
    (∀ g, s.shareFor fileId R.id = some g →
        shareFile s u fileId email now =
          (⟨400, .message "File already shared with this user."⟩, s)) ∧
      (s.shareFor fileId R.id = none →
        shareFile s u fileId email now =
          (⟨200, .message ("File \"" ++ F.original_name ++
              "\" shared successfully with " ++ email ++ ".")⟩,
           s.addGrant fileId u.id R.id now)) := by
  obtain ⟨row, hrow, hrid, _⟩ := hu.row
  constructor
  · intro g hg
    unfold shareFile
    rw [if_neg (by simp [hid, hem]), hu.opened]
    simp only
    rw [hF]
    simp only
    rw [if_neg (by simp [hown, hpriv]), hR]
    simp only
    rw [if_neg (by simp [hne]), hg]
  · intro hS
    have hins : s.insertShare fileId u.id R.id now =
        .ok (s.addGrant fileId u.id R.id now,
          nextId s.seq_shared (s.shared_files.map (fun g => g.id))) :=
      insertShare_eq_ok now hS
        ⟨F, List.mem_of_find?_eq_some hF, by simpa using List.find?_some hF⟩
        ⟨row, hrow, hrid⟩ ⟨R, List.mem_of_find?_eq_some hR, rfl⟩
    unfold shareFile
    rw [if_neg (by simp [hid, hem]), hu.opened]
    simp only
    rw [hF]
    simp only
    rw [if_neg (by simp [hown, hpriv]), hR]
    simp only
    rw [if_neg (by simp [hne]), hS]
    simp only
    rw [hins]

theorem shareFile_ok_inv {s : Store} {u : ReqUser} {fileId : Nat} {email now : String}
    (hu : Authenticated s u) (hok : (shareFile s u fileId email now).1.status = 200) :
    ∃ F R, fileId ≠ 0 ∧ email ≠ "" ∧ s.fileById fileId = some F ∧ F.user_id = u.id ∧
      F.is_private = 1 ∧ s.userByEmail email = some R ∧ R.id ≠ u.id ∧
      s.shareFor fileId R.id = none ∧
      shareFile s u fileId email now =
        (⟨200, .message ("File \"" ++ F.original_name ++
            "\" shared successfully with " ++ email ++ ".")⟩,
         s.addGrant fileId u.id R.id now) := by
  unfold shareFile at hok ⊢
  split at hok
  · simp at hok
  · rename_i hguard
    simp only [Bool.or_eq_true, beq_iff_eq, not_or] at hguard
    rw [if_neg (by simp [hguard.1, hguard.2])]
    rw [hu.opened] at hok ⊢
    simp only at hok ⊢
    split at hok
    · simp at hok
    · rename_i F hF
      split at hok
      · simp at hok
      · rename_i hown
        split at hok
        · simp at hok
        · rename_i R hR
          split at hok
          · simp at hok
          · rename_i hself
            split at hok
            · simp at hok
            · rename_i hS
              split at hok
              · simp at hok
              · rename_i db1 id hins
                simp only [bne_iff_ne, ne_eq, Bool.or_eq_true, decide_eq_true_eq, not_or,
                  Decidable.not_not] at hown
                simp only [beq_iff_eq] at hself
                obtain ⟨_, _, _, _, _, hdb1⟩ := insertShare_ok hins
                refine ⟨F, R, hguard.1, hguard.2, hF, hown.1, hown.2, hR, hself, hS, ?_⟩
                rw [if_neg (by simp [hown.1, hown.2]), if_neg (by simp [hself]), hdb1]

theorem filter_length_le_one {α β : Type} (k : α → β) (p : α → Bool) (l : List α)
    (hnd : (l.map k).Nodup) (hp : ∀ a b, p a = true → p b = true → k a = k b) :
    (l.filter p).length ≤ 1 := by
  induction l with
  | nil => simp
  | cons x t ih =>
    rw [List.map_cons, List.nodup_cons] at hnd
    cases hx : p x
    · rw [List.filter_cons_of_neg (by simp [hx])]
      exact ih hnd.2
    · rw [List.filter_cons_of_pos hx]
      have hnil : t.filter p = [] := by
        rw [List.filter_eq_nil_iff]
        intro a ha hpa
        apply hnd.1
        rw [← hp a x hpa hx]
        exact List.mem_map_of_mem _ ha
      simp [hnil]

theorem valid_grantCount_le_one {s : Store} (hv : s.Valid) (fileId userId : Nat) :
    s.grantCount fileId userId ≤ 1 := by
  unfold Store.grantCount
  apply filter_length_le_one (fun g : SharedFile => (g.file_id, g.shared_with_user_id)) _ _
    hv.shares_pair
  intro a b ha hb
  simp only [Bool.and_eq_true, beq_iff_eq] at ha hb
  rw [ha.1, ha.2, hb.1, hb.2]

theorem shareFile_again {s : Store} {u : ReqUser} {fileId : Nat} {email now : String}
    (hu : Authenticated s u) (hok : (shareFile s u fileId email now).1.status = 200)
    (now2 : String) :
    shareFile (shareFile s u fileId email now).2 u fileId email now2 =
      (⟨400, .message "File already shared with this user."⟩,
       (shareFile s u fileId email now).2) := by
  obtain ⟨F, R, h0, he, hF, hown, hpriv, hR, hself, hS, heq⟩ := shareFile_ok_inv hu hok
  rw [heq]
  simp only
  have hop : openDb (s.addGrant fileId u.id R.id now) = .ok (s.addGrant fileId u.id R.id now) :=
    opened_of_users hu.opened rfl
  have hF1 : (s.addGrant fileId u.id R.id now).fileById fileId = some F := hF
  have hR1 : (s.addGrant fileId u.id R.id now).userByEmail email = some R := hR
  have hS1 : ∃ g, (s.addGrant fileId u.id R.id now).shareFor fileId R.id = some g := by
    unfold Store.shareFor Store.addGrant
    unfold Store.shareFor at hS
    simp only
    rw [List.find?_append, hS]
    simp
  obtain ⟨g, hg⟩ := hS1
  unfold shareFile
  rw [if_neg (by simp [h0, he]), hop]
  simp only
  rw [hF1]
  simp only
  rw [if_neg (by simp [hown, hpriv]), hR1]
  simp only
  rw [if_neg (by simp [hself]), hg]

theorem shareFile_count_one {s : Store} {u : ReqUser} {fileId : Nat} {email now : String}
    (hu : Authenticated s u) (hok : (shareFile s u fileId email now).1.status = 200)
    {R : User} (hR : s.userByEmail email = some R) :
    (shareFile s u fileId email now).2.grantCount fileId R.id = 1 := by
  obtain ⟨F, R1, _, _, _, _, _, hR1, _, hS, heq⟩ := shareFile_ok_inv hu hok
  rw [hR] at hR1
  cases hR1
  rw [heq]
  have hz := (grantCount_eq_zero_iff s fileId R.id).2 hS
  unfold Store.grantCount at hz ⊢
  unfold Store.addGrant
  simp only
  rw [List.filter_append, List.length_append, hz]
  simp

/-! ## Sample stores are reachable -/

theorem reachable_seeded : Reachable seeded := Reachable.openDb Reachable.empty rfl

theorem reachable_registered : Reachable registered :=
  Reachable.register _ _ _ (Reachable.register _ _ _ reachable_seeded)

theorem reachable_uploaded : Reachable uploaded :=
  Reachable.upload _ _ _ _
    (Reachable.multer _ _
      (Reachable.upload _ _ _ _ (Reachable.multer _ _ reachable_registered)
        (u := aliceReq) ⟨rfl, rfl⟩))
    (u := aliceReq) ⟨rfl, rfl⟩

theorem reachable_shared : Reachable shared :=
  Reachable.share _ _ _ reachable_uploaded (u := aliceReq) ⟨rfl, rfl⟩

/-! ## Claims on the sharing ledger (C3, C4, C5) -/

/-- C3 (counterexample): alice shares her own private file and leaves the
recipient email empty, or names file id 0.  `shareFile` answers 400 with the
required-fields message, where the reference definition says NotFound. -/
theorem shareFile_differs_from_createGrantSpec :
    Authenticated uploaded aliceReq ∧
      (shareFile uploaded aliceReq 1 "" "t3").1 =
        ⟨400, .message "File ID and recipient email are required."⟩ ∧
      (createGrantSpec uploaded aliceReq 1 "" "t3").1 = Kind.NotFound ∧
      (shareFile uploaded aliceReq 0 "b@x.io" "t3").1 =
        ⟨400, .message "File ID and recipient email are required."⟩ ∧
      (createGrantSpec uploaded aliceReq 0 "b@x.io" "t3").1 = Kind.NotFound ∧
      ((shareFile uploaded aliceReq 1 "" "t3").1.kind,
        (shareFile uploaded aliceReq 1 "" "t3").2) ≠
          createGrantSpec uploaded aliceReq 1 "" "t3" := by
  refine ⟨⟨rfl, rfl⟩, rfl, rfl, rfl, rfl, ?_⟩
  intro h
  have h1 := congrArg Prod.fst h
  revert h1
  decide

/-- C3 (amended): for an authenticated acting user, `shareFile` answers 400
with the required-fields message and leaves the store unchanged when the file
id is 0 (or missing) or the recipient email is empty (or missing); for every
other file id and email its result kind and next store equal the reference
definition `createGrantSpec`. -/
theorem shareFile_refines_createGrantSpec (s : Store) (u : ReqUser) (fileId : Nat)
    (email now : String) (hu : Authenticated s u) :
    ((fileId = 0 ∨ email = "") →
        shareFile s u fileId email now =
          (⟨400, .message "File ID and recipient email are required."⟩, s)) ∧
      (fileId ≠ 0 → email ≠ "" →
        ((shareFile s u fileId email now).1.kind, (shareFile s u fileId email now).2) =
          createGrantSpec s u fileId email now) :=
  ⟨shareFile_missing_field s u fileId email now,
   fun hid hem => shareFile_eq_spec s u fileId email now hu hid hem⟩

/-- C3 (witness): alice shares her private file with bob. -/
theorem shareFile_refines_createGrantSpec_witness :
    Authenticated uploaded aliceReq ∧
      ((shareFile uploaded aliceReq 1 "b@x.io" "t3").1.kind,
        (shareFile uploaded aliceReq 1 "b@x.io" "t3").2) =
          createGrantSpec uploaded aliceReq 1 "b@x.io" "t3" :=
  ⟨⟨rfl, rfl⟩,
   (shareFile_refines_createGrantSpec uploaded aliceReq 1 "b@x.io" "t3" ⟨rfl, rfl⟩).2
     (by decide) (by decide)⟩

/-- C4: in every reachable store there is at most one grant row per (file,
recipient) pair; and when the owner of a private file calls `shareFile` twice
for the same file and the same recipient (another user), the second call
answers 400 "File already shared with this user." (Conflict) and leaves the
store unchanged, and exactly one grant row exists for the pair. -/
theorem grant_pair_unique (s : Store) (hs : Reachable s) :
    (∀ fileId userId : Nat, s.grantCount fileId userId ≤ 1) ∧
      (∀ (u : ReqUser) (fileId : Nat) (email now now2 : String) (F : FileRow) (R : User),
        Authenticated s u → s.fileById fileId = some F → F.user_id = u.id →
        F.is_private = 1 → s.userByEmail email = some R → R.id ≠ u.id →
        (shareFile (shareFile s u fileId email now).2 u fileId email now2).1 =
            ⟨400, .message "File already shared with this user."⟩ ∧
          (shareFile (shareFile s u fileId email now).2 u fileId email now2).1.kind =
            Kind.Conflict ∧
          (shareFile (shareFile s u fileId email now).2 u fileId email now2).2 =
            (shareFile s u fileId email now).2 ∧
          (shareFile (shareFile s u fileId email now).2 u fileId email now2).2.grantCount
            fileId R.id = 1) := by
  have hv := reachable_valid hs
  have ht := reachable_truthy hs
  refine ⟨valid_grantCount_le_one hv, ?_⟩
  intro u fileId email now now2 F R hu hF hown hpriv hR hne
  have hid : fileId ≠ 0 := by
    have h1 : F.id = fileId := by simpa using List.find?_some hF
    rw [← h1]
    exact ht.2 F (List.mem_of_find?_eq_some hF)
  have hem : email ≠ "" := by
    have h1 : R.email = email := by
      unfold Store.userByEmail at hR
      simpa using List.find?_some hR
    rw [← h1]
    exact ht.1 R (List.mem_of_find?_eq_some hR)
  cases hS : s.shareFor fileId R.id with
  | none =>
    have h1 := (shareFile_owner_request now hu hid hem hF hown hpriv hR hne).2 hS
    have hok : (shareFile s u fileId email now).1.status = 200 := by rw [h1]
    have h2 := shareFile_again hu hok now2
    rw [h2]
    exact ⟨rfl, rfl, rfl, shareFile_count_one hu hok hR⟩
  | some g =>
    have h1 := (shareFile_owner_request now hu hid hem hF hown hpriv hR hne).1 g hS
    have h2 := (shareFile_owner_request now2 hu hid hem hF hown hpriv hR hne).1 g hS
    rw [h1]
    simp only
    rw [h2]
    refine ⟨rfl, rfl, rfl, ?_⟩
    have hle := valid_grantCount_le_one hv fileId R.id
    have hnz : s.grantCount fileId R.id ≠ 0 := by
      rw [Ne, grantCount_eq_zero_iff, hS]
      simp
    simp only
    omega

/-- C4 (witness): alice shares her private file with bob twice. -/
theorem grant_pair_unique_witness :
    Reachable uploaded ∧ shared.grantCount 1 3 ≤ 1 ∧
      (shareFile shared aliceReq 1 "b@x.io" "t4").1.kind = Kind.Conflict ∧
      (shareFile shared aliceReq 1 "b@x.io" "t4").2 = shared ∧
      (shareFile shared aliceReq 1 "b@x.io" "t4").2.grantCount 1 3 = 1 :=
  ⟨reachable_uploaded,
   (grant_pair_unique shared reachable_shared).1 1 3,
   ((grant_pair_unique uploaded reachable_uploaded).2 aliceReq 1 "b@x.io" "t3" "t4"
      privFile ⟨3, "bob", "b@x.io", bcryptHash "pw", 0⟩ ⟨rfl, rfl⟩ rfl rfl rfl rfl
      (by decide)).2.1,
   ((grant_pair_unique uploaded reachable_uploaded).2 aliceReq 1 "b@x.io" "t3" "t4"
      privFile ⟨3, "bob", "b@x.io", bcryptHash "pw", 0⟩ ⟨rfl, rfl⟩ rfl rfl rfl rfl
      (by decide)).2.2.1,
   ((grant_pair_unique uploaded reachable_uploaded).2 aliceReq 1 "b@x.io" "t3" "t4"
      privFile ⟨3, "bob", "b@x.io", bcryptHash "pw", 0⟩ ⟨rfl, rfl⟩ rfl rfl rfl rfl
      (by decide)).2.2.2⟩

theorem userByEmail_self {s : Store} {u : ReqUser} (hv : s.Valid) (hu : Authenticated s u) :
    ∃ R, s.userByEmail u.email = some R ∧ R.id = u.id := by
  obtain ⟨row, hrow, hrid, hreq⟩ := hu.row
  have hem : row.email = u.email := by rw [← hreq]; rfl
  refine ⟨row, ?_, hrid⟩
  have h := find?_eq_of_nodup_map (fun x : User => x.email) hv.users_email hrow
  unfold Store.userByEmail
  rw [← hem]
  exact h

/-- C5 (counterexample): alice shares her own public file with her own email
and is answered 403 Forbidden, not the self-share rejection. -/
theorem shareFile_self_public_forbidden :
    Authenticated uploaded aliceReq ∧ uploaded.fileById 2 = some pubFile ∧
      pubFile.user_id = aliceReq.id ∧ pubFile.is_private = 0 ∧
      shareFile uploaded aliceReq 2 aliceReq.email "t3" =
        (⟨403, .message "You can only share your own private files."⟩, uploaded) ∧
      (shareFile uploaded aliceReq 2 aliceReq.email "t3").1.kind ≠ Kind.InvalidOperation := by
  refine ⟨⟨rfl, rfl⟩, rfl, rfl, rfl, rfl, ?_⟩
  decide

/-- C5 (amended): in a reachable store, `shareFile` called by the owner of an
existing file F with the owner's own email as recipient creates no grant; it
fails with the self-share rejection (400, InvalidOperation) when F is private
and with 403 Forbidden when F is not private. -/
theorem shareFile_self (s : Store) (u : ReqUser) (fileId : Nat) (F : FileRow) (now : String)
    (hs : Reachable s) (hu : Authenticated s u) (hF : s.fileById fileId = some F)
    (hown : F.user_id = u.id) :
    (F.is_private = 1 →
        shareFile s u fileId u.email now =
          (⟨400, .message "Cannot share a file with yourself."⟩, s) ∧
        (shareFile s u fileId u.email now).1.kind = Kind.InvalidOperation) ∧
      (F.is_private ≠ 1 →
        shareFile s u fileId u.email now =
          (⟨403, .message "You can only share your own private files."⟩, s) ∧
        (shareFile s u fileId u.email now).1.kind = Kind.Forbidden) := by
  have hv := reachable_valid hs
  have ht := reachable_truthy hs
  obtain ⟨row, hrow, _, hreq⟩ := hu.row
  have hem : row.email = u.email := by rw [← hreq]; rfl
  have hne : u.email ≠ "" := by rw [← hem]; exact ht.1 row hrow
  have hid : fileId ≠ 0 := by
    have h1 : F.id = fileId := by simpa using List.find?_some hF
    rw [← h1]
    exact ht.2 F (List.mem_of_find?_eq_some hF)
  obtain ⟨R, hR, hRid⟩ := userByEmail_self hv hu
  constructor
  · intro hpriv
    have h : shareFile s u fileId u.email now =
        (⟨400, .message "Cannot share a file with yourself."⟩, s) := by
      unfold shareFile
      rw [if_neg (by simp [hid, hne]), hu.opened]
      simp only
      rw [hF]
      simp only
      rw [if_neg (by simp [hown, hpriv]), hR]
      simp only
      rw [if_pos (by simp [hRid])]
    rw [h]
    exact ⟨rfl, rfl⟩
  · intro hpriv
    have h : shareFile s u fileId u.email now =
        (⟨403, .message "You can only share your own private files."⟩, s) := by
      unfold shareFile
      rw [if_neg (by simp [hid, hne]), hu.opened]
      simp only
      rw [hF]
      simp only
      rw [if_pos (by simp [hpriv])]
    rw [h]
    exact ⟨rfl, rfl⟩

/-- C5 (witness): alice shares her private file with her own email. -/
theorem shareFile_self_witness :
    Reachable uploaded ∧ Authenticated uploaded aliceReq ∧
      shareFile uploaded aliceReq 1 aliceReq.email "t3" =
        (⟨400, .message "Cannot share a file with yourself."⟩, uploaded) :=
  ⟨reachable_uploaded, ⟨rfl, rfl⟩,
   ((shareFile_self uploaded aliceReq 1 privFile "t3" reachable_uploaded ⟨rfl, rfl⟩ rfl
      rfl).1 rfl).1⟩

/-! ## Grant rows are well formed (C6) -/

/-- C6: in every reachable store, every grant row has an existing private
file, was shared by the owner of that file, and names as recipient an existing
user other than the owner. -/
theorem reachable_grant_wellformed (s : Store) (hs : Reachable s) (g : SharedFile)
    (hg : g ∈ s.shared_files) :
    ∃ F, s.fileById g.file_id = some F ∧ F.is_private = 1 ∧
      g.shared_by_user_id = F.user_id ∧
      (∃ u ∈ s.users, u.id = g.shared_with_user_id) ∧
      g.shared_with_user_id ≠ F.user_id :=
  reachable_grantsOK hs g hg

/-- C6 (witness): the grant of alice to bob in the sample store. -/
theorem reachable_grant_wellformed_witness :
    ∃ F, shared.fileById 1 = some F ∧ F.is_private = 1 ∧
      2 = F.user_id ∧ (∃ u ∈ shared.users, u.id = 3) ∧ 3 ≠ F.user_id :=
  reachable_grant_wellformed shared reachable_shared ⟨1, 1, 2, 3, "t3"⟩
    (by decide)

/-! ## Deleting a file (C7) -/

theorem deleteFilesWhere_fileById (s : Store) (fileId : Nat) :
    (s.deleteFilesWhere (fun f => f.id == fileId)).fileById fileId = none := by
  unfold Store.fileById Store.deleteFilesWhere
  simp only
  rw [List.find?_eq_none]
  intro f hf
  have := (List.mem_filter.1 hf).2
  simpa using this

/-- C7: `deleteFile` answers 404 NotFound when no file has the id; for an
existing file F it deletes the row (answer 200) when the acting user owns F or
is an admin, and in every other case answers 403 Forbidden and leaves the
store unchanged, whatever grants exist and whether or not F is public. -/
theorem deleteFile_authorization (s : Store) (u : ReqUser) (fileId : Nat) (env : FsEnv)
    (hu : Authenticated s u) :
    (s.fileById fileId = none →
        deleteFile s u fileId env = (⟨404, .message "File not found."⟩, s)) ∧
      (∀ F, s.fileById fileId = some F →
        ((F.user_id = u.id ∨ u.is_admin ≠ 0) →
          (deleteFile s u fileId env).1.status = 200 ∧
          (deleteFile s u fileId env).2.fileById fileId = none) ∧
        (¬(F.user_id = u.id ∨ u.is_admin ≠ 0) →
          deleteFile s u fileId env =
            (⟨403, .message "Not authorized to delete this file."⟩, s))) := by
  constructor
  · intro hF
    unfold deleteFile
    rw [hu.opened]
    simp only
    rw [hF]
  · intro F hF
    constructor
    · intro hauth
      have hc : ¬ (F.user_id != u.id && !u.isAdmin) = true := by
        unfold ReqUser.isAdmin
        rcases hauth with h | h
        · simp [h]
        · simp [h]
      unfold deleteFile
      rw [hu.opened]
      simp only
      rw [hF]
      simp only
      rw [if_neg hc]
      have hgone := deleteFilesWhere_fileById s fileId
      split
      · exact ⟨rfl, hgone⟩
      · split
        · exact ⟨rfl, hgone⟩
        · exact ⟨rfl, hgone⟩
    · intro hauth
      have hc : (F.user_id != u.id && !u.isAdmin) = true := by
        unfold ReqUser.isAdmin
        simp only [not_or, Decidable.not_not] at hauth
        simp [hauth.1, hauth.2]
      unfold deleteFile
      rw [hu.opened]
      simp only
      rw [hF]
      simp only
      rw [if_pos hc]

/-- C7 (witness): bob holds a grant on the private file of alice and may not
delete it. -/
theorem deleteFile_authorization_witness :
    Authenticated shared bobReq ∧
      deleteFile shared bobReq 1 FsEnv.ok =
        (⟨403, .message "Not authorized to delete this file."⟩, shared) :=
  ⟨⟨rfl, rfl⟩,
   ((deleteFile_authorization shared bobReq 1 FsEnv.ok ⟨rfl, rfl⟩).2 privFile rfl).2
     (by decide)⟩

/-! ## A grant is read-only delegation (C8) -/

theorem shareById_of_mem {s : Store} (hv : s.Valid) {g : SharedFile}
    (hg : g ∈ s.shared_files) : s.shareById g.id = some g :=
  find?_eq_of_nodup_map (fun x : SharedFile => x.id) hv.shares_id hg

/-- C8: in a reachable store, for a grant row whose recipient B is not an
administrator, `downloadFile` does not answer 403 to B for the file, while
`deleteFile`, `getSharedWithUsers` and `unshareFile` of that grant, called by
B, each answer 403 Forbidden and leave the store unchanged. -/
theorem recipient_reads_only (s : Store) (hs : Reachable s) (g : SharedFile) (B : ReqUser)
    (env : FsEnv) (hg : g ∈ s.shared_files) (hB : Authenticated s B)
    (hid : B.id = g.shared_with_user_id) (hna : B.is_admin = 0) :
    (downloadFile s B g.file_id).1.status ≠ 403 ∧
      deleteFile s B g.file_id env =
        (⟨403, .message "Not authorized to delete this file."⟩, s) ∧
      getSharedWithUsers s B g.file_id =
        (⟨403, .message "Not authorized to view sharing details for this file."⟩, s) ∧
      unshareFile s B g.id =
        (⟨403, .message "Not authorized to unshare this file."⟩, s) := by
  obtain ⟨F, hF, _, _, _, hne⟩ := reachable_grantsOK hs g hg
  have hc : (F.user_id != B.id && !B.isAdmin) = true := by
    unfold ReqUser.isAdmin
    have h1 : ¬ F.user_id = B.id := fun h => hne (by rw [← hid, h])
    simp [h1, hna]
  refine ⟨?_, ?_, ?_, ?_⟩
  · rw [downloadFile_status s B g.file_id F hB.opened hF, isAuthorized_iff]
    exact Or.inr (Or.inr (Or.inr ⟨g, hg, rfl, hid.symm⟩))
  · unfold deleteFile
    rw [hB.opened]
    simp only
    rw [hF]
    simp only
    rw [if_pos hc]
  · unfold getSharedWithUsers
    rw [hB.opened]
    simp only
    rw [hF]
    simp only
    rw [if_pos hc]
  · unfold unshareFile
    rw [hB.opened]
    simp only
    rw [shareById_of_mem (reachable_valid hs) hg]
    simp only
    rw [hF]
    simp only
    rw [if_pos hc]

/-- C8 (witness): bob and the grant alice gave him. -/
theorem recipient_reads_only_witness :
    (downloadFile shared bobReq 1).1.status ≠ 403 ∧
      deleteFile shared bobReq 1 FsEnv.ok =
        (⟨403, .message "Not authorized to delete this file."⟩, shared) ∧
      getSharedWithUsers shared bobReq 1 =
        (⟨403, .message "Not authorized to view sharing details for this file."⟩, shared) ∧
      unshareFile shared bobReq 1 =
        (⟨403, .message "Not authorized to unshare this file."⟩, shared) :=
  recipient_reads_only shared reachable_shared ⟨1, 1, 2, 3, "t3"⟩ bobReq FsEnv.ok
    (by decide) ⟨rfl, rfl⟩ rfl rfl

/-! ## Revoking a grant (C9, C10) -/

theorem filter_id_eq_erase {l : List SharedFile} (hnd : (l.map (fun g => g.id)).Nodup)
    {g : SharedFile} (hg : g ∈ l) :
    l.filter (fun x => !(x.id == g.id)) = l.erase g := by
  induction l with
  | nil => cases hg
  | cons x t ih =>
    rw [List.map_cons, List.nodup_cons] at hnd
    by_cases hx : x = g
    · subst hx
      rw [List.erase_cons_head, List.filter_cons_of_neg (by simp)]
      rw [List.filter_eq_self]
      intro a ha
      have hne : a.id ≠ x.id := by
        intro he
        apply hnd.1
        rw [← he]
        exact List.mem_map_of_mem _ ha
      simp [hne]
    · have hgt : g ∈ t := by
        rcases List.mem_cons.1 hg with h | h
        · exact absurd h.symm hx
        · exact h
      have hne : x.id ≠ g.id := by
        intro he
        apply hnd.1
        rw [he]
        exact List.mem_map_of_mem _ hgt
      rw [List.filter_cons_of_pos (by simp [hne]), List.erase_cons_tail (by simpa using hx),
        ih hnd.2 hgt]

/-- C9: on a store that satisfies the schema constraints of `database.js`
(every reachable store does) and for an authenticated acting user, the result
kind and next store of `unshareFile` equal the reference definition
`revokeGrantSpec`: NotFound if no grant has the id; Forbidden with the store
unchanged if the acting user neither owns the grant's file nor is an admin;
otherwise success with exactly that grant row removed. -/
theorem unshareFile_refines_revokeGrantSpec (s : Store) (u : ReqUser) (shareId : Nat)
    (hv : s.Valid) (hu : Authenticated s u) :
    ((unshareFile s u shareId).1.kind, (unshareFile s u shareId).2) =
      revokeGrantSpec s u shareId := by
  unfold unshareFile revokeGrantSpec
  rw [hu.opened]
  simp only
  cases hG : s.shareById shareId with
  | none =>
    have hG2 : s.shared_files.find? (fun g => g.id == shareId) = none := hG
    simp only [hG2]
    rfl
  | some g =>
    have hG2 : s.shared_files.find? (fun g => g.id == shareId) = some g := hG
    simp only [hG2]
    have hg : g ∈ s.shared_files := List.mem_of_find?_eq_some hG
    have hgid : g.id = shareId := by simpa using List.find?_some hG
    obtain ⟨f0, hf0, hf0id⟩ := hv.shares_file g hg
    cases hF : s.fileById g.file_id with
    | none =>
      exfalso
      unfold Store.fileById at hF
      have := List.find?_eq_none.1 hF f0 hf0
      simp [hf0id] at this
    | some F =>
      have hF2 : s.files.find? (fun f => f.id == g.file_id) = some F := hF
      simp only [hF2, Option.map_some']
      by_cases hc : F.user_id ≠ u.id ∧ u.is_admin = 0
      · have hc1 : (F.user_id != u.id && !u.isAdmin) = true := by
          unfold ReqUser.isAdmin
          simp [hc.1, hc.2]
        have hc2 : some F.user_id ≠ some u.id ∧ u.is_admin = 0 := by
          simpa using hc
        rw [if_pos hc1, if_pos hc2]
        rfl
      · have hc1 : ¬ (F.user_id != u.id && !u.isAdmin) = true := by
          unfold ReqUser.isAdmin
          simpa using hc
        have hc2 : ¬ (some F.user_id ≠ some u.id ∧ u.is_admin = 0) := by
          simpa using hc
        rw [if_neg hc1, if_neg hc2]
        have he : s.deleteShare shareId = { s with shared_files := s.shared_files.erase g } := by
          unfold Store.deleteShare
          rw [← hgid, filter_id_eq_erase hv.shares_id hg]
        simp only [he]
        rfl

/-- C9 (witness): alice revokes the grant she gave to bob. -/
theorem unshareFile_refines_revokeGrantSpec_witness :
    ((unshareFile shared aliceReq 1).1.kind, (unshareFile shared aliceReq 1).2) =
      revokeGrantSpec shared aliceReq 1 :=
  unshareFile_refines_revokeGrantSpec shared aliceReq 1 (reachable_valid reachable_shared)
    ⟨rfl, rfl⟩

theorem isAuthorized_eq_false {db : Store} {u : ReqUser} {F : FileRow} {fileId : Nat}
    (h1 : F.user_id ≠ u.id) (h2 : F.is_private = 1) (h3 : u.is_admin = 0)
    (h4 : db.shareFor fileId u.id = none) : isAuthorized db u F fileId = false := by
  unfold isAuthorized ReqUser.isAdmin
  simp [h1, h2, h3, h4]

theorem downloadFile_forbidden {s : Store} {u : ReqUser} {F : FileRow} {fileId : Nat}
    (ho : openDb s = .ok s) (hF : s.fileById fileId = some F)
    (hA : isAuthorized s u F fileId = false) :
    downloadFile s u fileId =
      (⟨403, .message "Not authorized to download this file."⟩, s) := by
  unfold downloadFile
  rw [ho]
  simp only
  rw [hF]
  simp only
  rw [if_pos (by simp [hA])]

/-- C10: when `shareFile` by A for file F and the email of a non-admin user B
succeeds (so F is private, owned by A, and B is not A), `downloadFile` does
not answer 403 to B for F; `unshareFile` by A of the grant just created then
succeeds, and after it `downloadFile` answers 403 Forbidden to B for F. -/
theorem share_then_revoke (s : Store) (A : ReqUser) (B : User) (fileId : Nat)
    (email now : String) (hA : Authenticated s A) (hB : s.userByEmail email = some B)
    (hna : B.is_admin = 0) (hok : (shareFile s A fileId email now).1.status = 200) :
    ∃ g ∈ (shareFile s A fileId email now).2.shared_files,
      g.file_id = fileId ∧ g.shared_by_user_id = A.id ∧ g.shared_with_user_id = B.id ∧
      (downloadFile (shareFile s A fileId email now).2 B.toReqUser fileId).1.status ≠ 403 ∧
      (unshareFile (shareFile s A fileId email now).2 A g.id).1.status = 200 ∧
      downloadFile (unshareFile (shareFile s A fileId email now).2 A g.id).2
          B.toReqUser fileId =
        (⟨403, .message "Not authorized to download this file."⟩,
         (unshareFile (shareFile s A fileId email now).2 A g.id).2) := by
  obtain ⟨F, R, _, _, hF, hown, hpriv, hR, hself, hS, heq⟩ := shareFile_ok_inv hA hok
  rw [hB] at hR
  cases hR
  rw [heq]
  simp only
  have hfresh : ∀ x ∈ s.shared_files,
      x.id ≠ nextId s.seq_shared (s.shared_files.map (fun g => g.id)) := by
    intro x hx he
    apply nextId_not_mem s.seq_shared (s.shared_files.map (fun g => g.id))
    rw [← he]
    exact List.mem_map_of_mem _ hx
  have hop1 : openDb (s.addGrant fileId A.id B.id now) = .ok (s.addGrant fileId A.id B.id now) :=
    opened_of_users hA.opened rfl
  have hF1 : (s.addGrant fileId A.id B.id now).fileById fileId = some F := hF
  refine ⟨⟨nextId s.seq_shared (s.shared_files.map (fun g => g.id)), fileId, A.id, B.id, now⟩,
    ?_, rfl, rfl, rfl, ?_, ?_⟩
  · unfold Store.addGrant
    simp
  · rw [downloadFile_status _ B.toReqUser fileId F hop1 hF1, isAuthorized_iff]
    refine Or.inr (Or.inr (Or.inr
      ⟨⟨nextId s.seq_shared (s.shared_files.map (fun g => g.id)), fileId, A.id, B.id, now⟩,
        ?_, rfl, rfl⟩))
    unfold Store.addGrant
    simp
  · simp only
    have hById : (s.addGrant fileId A.id B.id now).shareById
        (nextId s.seq_shared (s.shared_files.map (fun g => g.id))) =
        some ⟨nextId s.seq_shared (s.shared_files.map (fun g => g.id)), fileId, A.id,
          B.id, now⟩ := by
      unfold Store.shareById Store.addGrant
      simp only
      rw [List.find?_append]
      have hnone : s.shared_files.find?
          (fun g => g.id == nextId s.seq_shared (s.shared_files.map (fun g => g.id))) = none := by
        rw [List.find?_eq_none]
        intro x hx
        simpa using hfresh x hx
      rw [hnone]
      simp
    have hun : unshareFile (s.addGrant fileId A.id B.id now) A
        (nextId s.seq_shared (s.shared_files.map (fun g => g.id))) =
        (⟨200, .message ("File \"" ++ F.original_name ++ "\" successfully unshared from " ++
            (match ((s.addGrant fileId A.id B.id now).deleteShare
                (nextId s.seq_shared (s.shared_files.map (fun g => g.id)))).userById B.id with
              | some recipient => recipient.email
              | none => "an unknown user") ++ ".")⟩,
         (s.addGrant fileId A.id B.id now).deleteShare
            (nextId s.seq_shared (s.shared_files.map (fun g => g.id)))) := by
      unfold unshareFile
      rw [hop1]
      simp only
      rw [hById]
      simp only
      rw [hF1]
      simp only
      rw [if_neg (by simp [hown])]
    rw [hun]
    refine ⟨rfl, ?_⟩
    simp only
    have hshares : ((s.addGrant fileId A.id B.id now).deleteShare
        (nextId s.seq_shared (s.shared_files.map (fun g => g.id)))).shared_files =
        s.shared_files := by
      unfold Store.deleteShare Store.addGrant
      simp only
      rw [List.filter_append, List.filter_eq_self.2]
      · simp
      · intro x hx
        simpa using hfresh x hx
    apply downloadFile_forbidden (F := F)
    · exact opened_of_users hA.opened rfl
    · exact hF
    · apply isAuthorized_eq_false
      · rw [hown]
        exact fun h => hself h.symm
      · exact hpriv
      · exact hna
      · unfold Store.shareFor
        rw [hshares]
        exact hS

/-- C10 (witness): alice shares her private file with bob and revokes. -/
theorem share_then_revoke_witness :
    Authenticated uploaded aliceReq ∧
      ∃ g ∈ (shareFile uploaded aliceReq 1 "b@x.io" "t3").2.shared_files,
        g.file_id = 1 ∧ g.shared_by_user_id = aliceReq.id ∧ g.shared_with_user_id = 3 ∧
        (downloadFile (shareFile uploaded aliceReq 1 "b@x.io" "t3").2 bobReq 1).1.status
          ≠ 403 ∧
        (unshareFile (shareFile uploaded aliceReq 1 "b@x.io" "t3").2 aliceReq g.id).1.status
          = 200 ∧
        downloadFile (unshareFile (shareFile uploaded aliceReq 1 "b@x.io" "t3").2
            aliceReq g.id).2 bobReq 1 =
          (⟨403, .message "Not authorized to download this file."⟩,
           (unshareFile (shareFile uploaded aliceReq 1 "b@x.io" "t3").2 aliceReq g.id).2) :=
  ⟨⟨rfl, rfl⟩,
   share_then_revoke uploaded aliceReq ⟨3, "bob", "b@x.io", bcryptHash "pw", 0⟩ 1 "b@x.io"
     "t3" ⟨rfl, rfl⟩ rfl rfl rfl⟩

/-! ## Listings (C11, C12) -/

theorem filter_id_singleton {l : List User} (hnd : (l.map (fun u => u.id)).Nodup)
    {R : User} (hR : R ∈ l) : l.filter (fun u => R.id == u.id) = [R] := by
  induction l with
  | nil => cases hR
  | cons x t ih =>
    rw [List.map_cons, List.nodup_cons] at hnd
    by_cases hx : x = R
    · subst hx
      rw [List.filter_cons_of_pos (by simp)]
      have hnil : t.filter (fun u => x.id == u.id) = [] := by
        rw [List.filter_eq_nil_iff]
        intro a ha he
        apply hnd.1
        have : x.id = a.id := by simpa using he
        rw [this]
        exact List.mem_map_of_mem _ ha
      rw [hnil]
    · have hRt : R ∈ t := by
        rcases List.mem_cons.1 hR with h | h
        · exact absurd h.symm hx
        · exact h
      have hne : ¬ R.id = x.id := by
        intro he
        apply hnd.1
        rw [← he]
        exact List.mem_map_of_mem _ hRt
      rw [List.filter_cons_of_neg (by simpa using hne)]
      exact ih hnd.2 hRt

theorem userById_of_mem {s : Store} (hv : s.Valid) {R : User} (hR : R ∈ s.users) :
    s.userById R.id = some R :=
  find?_eq_of_nodup_map (fun x : User => x.id) hv.users_id hR

theorem sharedUsers_rows {s : Store} (hv : s.Valid) (G : List SharedFile)
    (hG : ∀ g ∈ G, g ∈ s.shared_files) :
    (G.flatMap (fun sf => (s.users.filter (fun u => sf.shared_with_user_id == u.id)).map
        (fun u => ({ share_id := sf.id, user_id := u.id, username := u.username,
                     email := u.email, shared_date := sf.shared_date } : SharedUserRow)))).map
        some = G.map s.grantEntry := by
  induction G with
  | nil => rfl
  | cons g t ih =>
    obtain ⟨R, hR, hid⟩ := hv.shares_with g (hG g (List.mem_cons_self _ _))
    have hf : s.users.filter (fun u => g.shared_with_user_id == u.id) = [R] := by
      rw [← hid]
      exact filter_id_singleton hv.users_id hR
    have he : s.grantEntry g =
        some ⟨g.id, R.id, R.username, R.email, g.shared_date⟩ := by
      unfold Store.grantEntry
      rw [← hid, userById_of_mem hv hR]
      rfl
    rw [List.flatMap_cons, List.map_append, List.map_cons, hf, he,
      ih (fun x hx => hG x (List.mem_cons_of_mem _ hx))]
    rfl

/-- C11: on a store that satisfies the schema constraints (every reachable
store does), `getSharedWithUsers` for an existing file F answers 403 Forbidden
unless the acting user owns F or is an admin; when permitted it answers 200
with exactly one entry per grant row on F, in order, each made of the grant
id, the recipient's id, username and email and the grant's timestamp; in both
cases the store is unchanged. -/
theorem getSharedWithUsers_listing (s : Store) (u : ReqUser) (fileId : Nat) (F : FileRow)
    (hv : s.Valid) (hu : Authenticated s u) (hF : s.fileById fileId = some F) :
    (¬(F.user_id = u.id ∨ u.is_admin ≠ 0) →
        getSharedWithUsers s u fileId =
          (⟨403, .message "Not authorized to view sharing details for this file."⟩, s)) ∧
      ((F.user_id = u.id ∨ u.is_admin ≠ 0) →
        ∃ rows, getSharedWithUsers s u fileId = (⟨200, .sharedUsers rows⟩, s) ∧
          rows.map some =
            (s.shared_files.filter (fun g => g.file_id == fileId)).map s.grantEntry) := by
  constructor
  · intro hauth
    have hc : (F.user_id != u.id && !u.isAdmin) = true := by
      unfold ReqUser.isAdmin
      simp only [not_or, Decidable.not_not] at hauth
      simp [hauth.1, hauth.2]
    unfold getSharedWithUsers
    rw [hu.opened]
    simp only
    rw [hF]
    simp only
    rw [if_pos hc]
  · intro hauth
    have hc : ¬ (F.user_id != u.id && !u.isAdmin) = true := by
      unfold ReqUser.isAdmin
      rcases hauth with h | h
      · simp [h]
      · simp [h]
    unfold getSharedWithUsers
    rw [hu.opened]
    simp only
    rw [hF]
    simp only
    rw [if_neg hc]
    exact ⟨_, rfl, sharedUsers_rows hv _ (fun g hg => (List.mem_filter.1 hg).1)⟩

/-- C11 (witness): alice lists the grants on her private file. -/
theorem getSharedWithUsers_listing_witness :
    ∃ rows, getSharedWithUsers shared aliceReq 1 = (⟨200, .sharedUsers rows⟩, shared) ∧
      rows.map some =
        (shared.shared_files.filter (fun g => g.file_id == 1)).map shared.grantEntry :=
  (getSharedWithUsers_listing shared aliceReq 1 privFile (reachable_valid reachable_shared)
    ⟨rfl, rfl⟩ rfl).2 (Or.inl rfl)

/-- C12: `getFiles` returns every file row to an admin, and to a non-admin
user u exactly the rows with owner u or visibility public, in table order; a
private file owned by someone else is not in the listing of a non-admin,
whether or not a grant for (file, u) exists. -/
theorem getFiles_listing (s : Store) (u : ReqUser) (hu : Authenticated s u) :
    (u.is_admin ≠ 0 → getFiles s (some u) = (⟨200, .files s.files⟩, s)) ∧
      (u.is_admin = 0 →
        getFiles s (some u) =
          (⟨200, .files (s.files.filter (fun f => f.user_id == u.id || f.is_private == 0))⟩,
            s) ∧
        (∀ f, f ∈ s.files.filter (fun f => f.user_id == u.id || f.is_private == 0) ↔
          f ∈ s.files ∧ (f.user_id = u.id ∨ f.is_private = 0)) ∧
        (∀ f, f.user_id ≠ u.id → f.is_private = 1 →
          f ∉ s.files.filter (fun f => f.user_id == u.id || f.is_private == 0))) := by
  constructor
  · intro ha
    unfold getFiles
    rw [hu.opened]
    simp only
    rw [if_pos (by unfold ReqUser.isAdmin; simpa using ha)]
  · intro ha
    refine ⟨?_, ?_, ?_⟩
    · unfold getFiles
      rw [hu.opened]
      simp only
      rw [if_neg (by unfold ReqUser.isAdmin; simp [ha])]
    · intro f
      simp [List.mem_filter]
    · intro f hne hpriv hmem
      have h := (List.mem_filter.1 hmem).2
      simp [hne, hpriv] at h

/-- C12 (witness): bob holds a grant on the private file of alice, and his
listing is her public file only. -/
theorem getFiles_listing_witness :
    Authenticated shared bobReq ∧
      getFiles shared (some bobReq) = (⟨200, .files [pubFile]⟩, shared) ∧
      privFile ∉ shared.files.filter (fun f => f.user_id == bobReq.id || f.is_private == 0) :=
  ⟨⟨rfl, rfl⟩,
   ((getFiles_listing shared bobReq ⟨rfl, rfl⟩).2 rfl).1,
   ((getFiles_listing shared bobReq ⟨rfl, rfl⟩).2 rfl).2.2 privFile (by decide) rfl⟩

/-! ## Deleting a file: frame and physical outcomes (C13, C20) -/

theorem deleteFilesWhere_id_shares {s : Store} {fileId : Nat} {F : FileRow}
    (hF : s.fileById fileId = some F) :
    (s.deleteFilesWhere (fun f => f.id == fileId)).shared_files =
      s.shared_files.filter (fun g => !(g.file_id == fileId)) := by
  have hmem : F ∈ s.files := List.mem_of_find?_eq_some hF
  have hid : F.id = fileId := by simpa using List.find?_some hF
  unfold Store.deleteFilesWhere
  simp only
  apply List.filter_congr
  intro g _
  congr 1
  cases hg : g.file_id == fileId
  · rw [List.any_eq_false]
    intro f hf hfg
    have h1 : f.id = fileId := by simpa using (List.mem_filter.1 hf).2
    have h2 : f.id = g.file_id := by simpa using hfg
    have h3 : ¬ g.file_id = fileId := by simpa using hg
    exact h3 (by rw [← h2, h1])
  · rw [List.any_eq_true]
    have h3 : g.file_id = fileId := by simpa using hg
    exact ⟨F, List.mem_filter.2 ⟨hmem, by simp [hid]⟩, by simp [hid, h3]⟩

theorem deleteFile_authorized {s : Store} {u : ReqUser} {fileId : Nat} {F : FileRow}
    (env : FsEnv) (hu : Authenticated s u) (hF : s.fileById fileId = some F)
    (hauth : F.user_id = u.id ∨ u.is_admin ≠ 0) :
    deleteFile s u fileId env =
      if env.unlinkFails then
        (⟨200, .message "File deleted from database, but physical file deletion failed."⟩,
         s.deleteFilesWhere (fun f => f.id == fileId))
      else if !(diskHas s.uploads F.stored_name) then
        (⟨200, .message "File deleted from database (physical file was already missing)."⟩,
         s.deleteFilesWhere (fun f => f.id == fileId))
      else
        (⟨200, .message "File deleted successfully."⟩,
         { s.deleteFilesWhere (fun f => f.id == fileId) with
           uploads := unlink s.uploads F.stored_name }) := by
  have hc : ¬ (F.user_id != u.id && !u.isAdmin) = true := by
    unfold ReqUser.isAdmin
    rcases hauth with h | h
    · simp [h]
    · simp [h]
  unfold deleteFile
  rw [hu.opened]
  simp only
  rw [hF]
  simp only
  rw [if_neg hc]
  rfl

theorem deleteFile_ok_inv {s : Store} {u : ReqUser} {fileId : Nat} {env : FsEnv}
    (hu : Authenticated s u) (hok : (deleteFile s u fileId env).1.status = 200) :
    ∃ F, s.fileById fileId = some F ∧ (F.user_id = u.id ∨ u.is_admin ≠ 0) := by
  unfold deleteFile at hok
  rw [hu.opened] at hok
  simp only at hok
  cases hF : s.fileById fileId with
  | none =>
    rw [hF] at hok
    simp at hok
  | some F =>
    refine ⟨F, rfl, ?_⟩
    rw [hF] at hok
    simp only at hok
    by_contra hauth
    have hc : (F.user_id != u.id && !u.isAdmin) = true := by
      unfold ReqUser.isAdmin
      simp only [not_or, Decidable.not_not] at hauth
      simp [hauth.1, hauth.2]
    rw [if_pos hc] at hok
    simp at hok

theorem deleteFile_tables {s : Store} {u : ReqUser} {fileId : Nat} {F : FileRow}
    (env : FsEnv) (hu : Authenticated s u) (hF : s.fileById fileId = some F)
    (hauth : F.user_id = u.id ∨ u.is_admin ≠ 0) :
    (deleteFile s u fileId env).1.status = 200 ∧
      (deleteFile s u fileId env).2.users = s.users ∧
      (deleteFile s u fileId env).2.files = s.files.filter (fun f => !(f.id == fileId)) ∧
      (deleteFile s u fileId env).2.shared_files =
        s.shared_files.filter (fun g => !(g.file_id == fileId)) := by
  rw [deleteFile_authorized env hu hF hauth]
  have hsh := deleteFilesWhere_id_shares hF
  split
  · exact ⟨rfl, rfl, rfl, hsh⟩
  · split
    · exact ⟨rfl, rfl, rfl, hsh⟩
    · exact ⟨rfl, rfl, rfl, hsh⟩

/-- C13: after a successful `deleteFile` of file F no file row with the id of
F and no grant row referencing it remains; the files table is the old one
without that row, the grants table the old one without the grants on F, and
the users table is unchanged. -/
theorem deleteFile_frame (s : Store) (u : ReqUser) (fileId : Nat) (env : FsEnv)
    (hu : Authenticated s u) (hok : (deleteFile s u fileId env).1.status = 200) :
    (∀ f ∈ (deleteFile s u fileId env).2.files, f.id ≠ fileId) ∧
      (∀ g ∈ (deleteFile s u fileId env).2.shared_files, g.file_id ≠ fileId) ∧
      (deleteFile s u fileId env).2.files = s.files.filter (fun f => !(f.id == fileId)) ∧
      (deleteFile s u fileId env).2.shared_files =
        s.shared_files.filter (fun g => !(g.file_id == fileId)) ∧
      (deleteFile s u fileId env).2.users = s.users := by
  obtain ⟨F, hF, hauth⟩ := deleteFile_ok_inv hu hok
  obtain ⟨_, h1, h2, h3⟩ := deleteFile_tables env hu hF hauth
  refine ⟨?_, ?_, h2, h3, h1⟩
  · intro f hf
    rw [h2] at hf
    simpa using (List.mem_filter.1 hf).2
  · intro g hg
    rw [h3] at hg
    simpa using (List.mem_filter.1 hg).2

/-- C13 (witness): alice deletes the private file she shared with bob. -/
theorem deleteFile_frame_witness :
    (∀ f ∈ (deleteFile shared aliceReq 1 FsEnv.ok).2.files, f.id ≠ 1) ∧
      (∀ g ∈ (deleteFile shared aliceReq 1 FsEnv.ok).2.shared_files, g.file_id ≠ 1) ∧
      (deleteFile shared aliceReq 1 FsEnv.ok).2.files =
        shared.files.filter (fun f => !(f.id == 1)) ∧
      (deleteFile shared aliceReq 1 FsEnv.ok).2.shared_files =
        shared.shared_files.filter (fun g => !(g.file_id == 1)) ∧
      (deleteFile shared aliceReq 1 FsEnv.ok).2.users = shared.users :=
  deleteFile_frame shared aliceReq 1 FsEnv.ok ⟨rfl, rfl⟩ rfl

/-- C20: for an existing file and its owner or an admin, `deleteFile` answers
200 in all three outcomes of the physical deletion (an error other than
ENOENT, content already missing, content removed), and in all three the file
row and the grants on the file are gone from the store. -/
theorem deleteFile_physical_outcomes (s : Store) (u : ReqUser) (fileId : Nat) (F : FileRow)
    (env : FsEnv) (hu : Authenticated s u) (hF : s.fileById fileId = some F)
    (hauth : F.user_id = u.id ∨ u.is_admin ≠ 0) :
    (deleteFile s u fileId env).1.status = 200 ∧
      (deleteFile s u fileId env).2.fileById fileId = none ∧
      (∀ g ∈ (deleteFile s u fileId env).2.shared_files, g.file_id ≠ fileId) ∧
      (env.unlinkFails = true →
        (deleteFile s u fileId env).1 =
          ⟨200, .message "File deleted from database, but physical file deletion failed."⟩) ∧
      (env.unlinkFails = false → diskHas s.uploads F.stored_name = false →
        (deleteFile s u fileId env).1 =
          ⟨200, .message "File deleted from database (physical file was already missing)."⟩) ∧
      (env.unlinkFails = false → diskHas s.uploads F.stored_name = true →
        (deleteFile s u fileId env).1 = ⟨200, .message "File deleted successfully."⟩) := by
  obtain ⟨h0, _, h2, h3⟩ := deleteFile_tables env hu hF hauth
  refine ⟨h0, ?_, ?_, ?_, ?_, ?_⟩
  · unfold Store.fileById
    rw [h2, List.find?_eq_none]
    intro f hf
    simpa using (List.mem_filter.1 hf).2
  · intro g hg
    rw [h3] at hg
    simpa using (List.mem_filter.1 hg).2
  · intro he
    rw [deleteFile_authorized env hu hF hauth, if_pos he]
  · intro he hd
    rw [deleteFile_authorized env hu hF hauth, if_neg (by simp [he]), if_pos (by simp [hd])]
  · intro he hd
    rw [deleteFile_authorized env hu hF hauth, if_neg (by simp [he]), if_neg (by simp [hd])]

/-- C20 (witness): the unlink of alice's shared file fails with an error other
than ENOENT; the answer is 200 and the row and its grant are gone. -/
theorem deleteFile_physical_outcomes_witness :
    (deleteFile shared aliceReq 1 ⟨false, true⟩).1 =
        ⟨200, .message "File deleted from database, but physical file deletion failed."⟩ ∧
      (deleteFile shared aliceReq 1 ⟨false, true⟩).2.fileById 1 = none ∧
      (∀ g ∈ (deleteFile shared aliceReq 1 ⟨false, true⟩).2.shared_files, g.file_id ≠ 1) :=
  ⟨(deleteFile_physical_outcomes shared aliceReq 1 privFile ⟨false, true⟩ ⟨rfl, rfl⟩ rfl
      (Or.inl rfl)).2.2.2.1 rfl,
   (deleteFile_physical_outcomes shared aliceReq 1 privFile ⟨false, true⟩ ⟨rfl, rfl⟩ rfl
      (Or.inl rfl)).2.1,
   (deleteFile_physical_outcomes shared aliceReq 1 privFile ⟨false, true⟩ ⟨rfl, rfl⟩ rfl
      (Or.inl rfl)).2.2.1⟩

/-! ## Deleting a user (C14, C15, C16) -/

theorem openDb_tables {s db : Store} (h : openDb s = .ok db) :
    db.files = s.files ∧ db.shared_files = s.shared_files ∧ db.uploads = s.uploads := by
  unfold openDb at h
  split at h
  · cases h
    exact ⟨rfl, rfl, rfl⟩
  · split at h
    · cases h
    · rename_i s1 id heq
      cases h
      obtain ⟨_, _, _, rfl⟩ := insertUser_ok heq
      exact ⟨rfl, rfl, rfl⟩

theorem any_id_of_mem {l : List User} {T k : Nat} (hex : ∃ r ∈ l, r.id = T) :
    (l.filter (fun u => u.id == T)).any (fun u => u.id == k) = (T == k) := by
  obtain ⟨r, hr, hrT⟩ := hex
  cases hk : T == k
  · rw [List.any_eq_false]
    intro x hx hxk
    have h1 : x.id = T := by simpa using (List.mem_filter.1 hx).2
    have h2 : x.id = k := by simpa using hxk
    have h3 : ¬ T = k := by simpa using hk
    exact h3 (by rw [← h1, h2])
  · rw [List.any_eq_true]
    have h3 : T = k := by simpa using hk
    exact ⟨r, List.mem_filter.2 ⟨hr, by simp [hrT]⟩, by simp [hrT, h3]⟩

theorem deleteUser_files (s : Store) (T : Nat) :
    ((s.deleteFilesWhere (fun f => f.user_id == T)).deleteUserRow T).1.files =
      s.files.filter (fun f => !(f.user_id == T)) := by
  unfold Store.deleteUserRow Store.deleteFilesWhere
  simp only
  rw [List.filter_eq_self]
  intro f hf
  have h1 : ¬ f.user_id = T := by simpa using (List.mem_filter.1 hf).2
  simp only [Bool.not_eq_true', List.any_eq_false, List.mem_filter]
  intro x hx hxf
  have h2 : x.id = T := by simpa using hx.2
  have h3 : x.id = f.user_id := by simpa using hxf
  exact h1 (by rw [← h3, h2])

theorem deleteUser_users (s : Store) (T : Nat) :
    ((s.deleteFilesWhere (fun f => f.user_id == T)).deleteUserRow T).1.users =
      s.users.filter (fun r => !(r.id == T)) := rfl

theorem deleteUser_second_cascade (s : Store) (T : Nat) :
    ((s.deleteFilesWhere (fun f => f.user_id == T)).deleteFilesWhere
        (fun f => (s.users.filter (fun u => u.id == T)).any
          (fun u => u.id == f.user_id))).shared_files =
      (s.deleteFilesWhere (fun f => f.user_id == T)).shared_files := by
  have hnil : (s.files.filter (fun f => !(f.user_id == T))).filter
      (fun f => (s.users.filter (fun u => u.id == T)).any (fun u => u.id == f.user_id)) = [] := by
    rw [List.filter_eq_nil_iff]
    intro f hf hany
    have h1 : ¬ f.user_id = T := by simpa using (List.mem_filter.1 hf).2
    obtain ⟨x, hx, hxf⟩ := List.any_eq_true.1 hany
    have h2 : x.id = T := by simpa using (List.mem_filter.1 hx).2
    have h3 : x.id = f.user_id := by simpa using hxf
    exact h1 (by rw [← h3, h2])
  show ((s.shared_files.filter _).filter _) = s.shared_files.filter _
  rw [List.filter_eq_self]
  intro g _
  show (!(List.any ((s.files.filter (fun f => !(f.user_id == T))).filter
      (fun f => (s.users.filter (fun u => u.id == T)).any (fun u => u.id == f.user_id)))
      (fun f => f.id == g.file_id))) = true
  rw [hnil]
  rfl

theorem deleteUser_shares {s : Store} {T : Nat} (hex : ∃ r ∈ s.users, r.id = T) :
    ((s.deleteFilesWhere (fun f => f.user_id == T)).deleteUserRow T).1.shared_files =
      s.shared_files.filter (fun g =>
        !(s.files.any (fun f => f.user_id == T && f.id == g.file_id)) &&
        (!(g.shared_by_user_id == T) && !(g.shared_with_user_id == T))) := by
  have h2 := deleteUser_second_cascade s T
  show ((s.deleteFilesWhere (fun f => f.user_id == T)).deleteFilesWhere
      (fun f => (s.users.filter (fun u => u.id == T)).any
        (fun u => u.id == f.user_id))).shared_files.filter _ = _
  rw [h2]
  show (s.shared_files.filter _).filter _ = _
  rw [List.filter_filter]
  apply List.filter_congr
  intro g _
  have hus : (s.deleteFilesWhere (fun f => f.user_id == T)).users = s.users := rfl
  rw [hus, any_id_of_mem hex, any_id_of_mem hex, List.any_filter]
  have e1 : (T == g.shared_by_user_id) = (g.shared_by_user_id == T) := BEq.comm
  have e2 : (T == g.shared_with_user_id) = (g.shared_with_user_id == T) := BEq.comm
  rw [e1, e2, Bool.and_comm]

theorem deleteUser_self {s : Store} {a : ReqUser} {id : PathId} (ha : Authenticated s a)
    (hid : id.parseInt = some a.id) :
    deleteUser s a id =
      (⟨403, .message "Cannot delete your own admin account through this interface."⟩, s) := by
  unfold deleteUser
  rw [ha.opened]
  simp only
  rw [if_pos (by rw [hid]; simp)]

theorem deleteUser_run {s : Store} {a : ReqUser} {id : PathId} {T : Nat}
    (ha : Authenticated s a) (hself : id.parseInt ≠ some a.id) (hT : id.sql = some T) :
    deleteUser s a id =
      if ((s.users.filter (fun u => u.id == T)).length == 0) = true then
        (⟨404, .message "User not found"⟩,
         ((s.deleteFilesWhere (fun f => f.user_id == T)).deleteUserRow T).1)
      else
        (⟨200, .message "User and their files deleted successfully"⟩,
         ((s.deleteFilesWhere (fun f => f.user_id == T)).deleteUserRow T).1) := by
  unfold deleteUser
  rw [ha.opened]
  simp only
  rw [if_neg (fun h => hself (eq_of_beq h).symm), hT]
  rfl

theorem deleteUser_ok_inv {s : Store} {a : ReqUser} {id : PathId} (ha : Authenticated s a)
    (hok : (deleteUser s a id).1.status = 200) :
    ∃ T, id.sql = some T ∧ (∃ r ∈ s.users, r.id = T) ∧
      (deleteUser s a id).2 =
        ((s.deleteFilesWhere (fun f => f.user_id == T)).deleteUserRow T).1 := by
  by_cases hself : id.parseInt = some a.id
  · rw [deleteUser_self ha hself] at hok
    simp at hok
  · cases hT : id.sql with
    | none =>
      unfold deleteUser at hok
      rw [ha.opened] at hok
      simp only at hok
      rw [if_neg (fun h => hself (eq_of_beq h).symm), hT] at hok
      simp at hok
    | some T =>
      refine ⟨T, rfl, ?_⟩
      rw [deleteUser_run ha hself hT] at hok ⊢
      by_cases hz : ((s.users.filter (fun u => u.id == T)).length == 0) = true
      · rw [if_pos hz] at hok
        simp at hok
      · rw [if_neg hz]
        refine ⟨?_, rfl⟩
        have hne : s.users.filter (fun u => u.id == T) ≠ [] := by
          intro h
          apply hz
          rw [h]
          rfl
        obtain ⟨r, hr⟩ := List.exists_mem_of_ne_nil _ hne
        exact ⟨r, (List.mem_filter.1 hr).1, by simpa using (List.mem_filter.1 hr).2⟩

theorem sharedWithMe_row_file {db : Store} {v : ReqUser} {r : SharedWithMeRow}
    (hr : r ∈ (db.shared_files.filter (fun sf => sf.shared_with_user_id == v.id)).flatMap
        (fun sf => (db.files.filter (fun f => sf.file_id == f.id)).flatMap
          (fun f => (db.users.filter (fun u => sf.shared_by_user_id == u.id)).map
            (fun u => ({ id := f.id, user_id := f.user_id,
                         original_name := f.original_name, stored_name := f.stored_name,
                         size := f.size, is_private := f.is_private,
                         upload_date := f.upload_date,
                         shared_by_user_id := sf.shared_by_user_id,
                         shared_date := sf.shared_date, shared_by_username := u.username,
                         shared_by_email := u.email } : SharedWithMeRow))))) :
    ∃ f ∈ db.files, r.id = f.id ∧ r.user_id = f.user_id := by
  obtain ⟨sf, _, hr1⟩ := List.mem_flatMap.1 hr
  obtain ⟨f, hf, hr2⟩ := List.mem_flatMap.1 hr1
  obtain ⟨u, _, hr3⟩ := List.mem_map.1 hr2
  refine ⟨f, (List.mem_filter.1 hf).1, ?_, ?_⟩
  · rw [← hr3]
  · rw [← hr3]

/-- C14: on a store that satisfies the schema constraints, after a successful
`deleteUser` of target T the users table is the old one without the row of T,
the files table the old one without the files owned by T, and the grants
table the old one without the grants whose file was owned by T, whose sharer
is T or whose recipient is T; no file that T owned appears in what `getFiles`
or `getSharedWithMeFiles` return afterwards to anyone. -/
theorem deleteUser_cascade (s : Store) (a : ReqUser) (id : PathId) (hv : s.Valid)
    (ha : Authenticated s a) (hok : (deleteUser s a id).1.status = 200) :
    ∃ T, id.sql = some T ∧ (∃ r ∈ s.users, r.id = T) ∧
      (deleteUser s a id).2.users = s.users.filter (fun r => !(r.id == T)) ∧
      (deleteUser s a id).2.files = s.files.filter (fun f => !(f.user_id == T)) ∧
      (deleteUser s a id).2.shared_files =
        s.shared_files.filter (fun g =>
          !(s.files.any (fun f => f.user_id == T && f.id == g.file_id)) &&
          (!(g.shared_by_user_id == T) && !(g.shared_with_user_id == T))) ∧
      (∀ (v : Option ReqUser) (rows : List FileRow),
        (getFiles (deleteUser s a id).2 v).1 = ⟨200, .files rows⟩ →
        ∀ f ∈ s.files, f.user_id = T → ∀ r ∈ rows, r.id ≠ f.id) ∧
      (∀ (v : ReqUser) (rows : List SharedWithMeRow),
        (getSharedWithMeFiles (deleteUser s a id).2 v).1 = ⟨200, .sharedWithMe rows⟩ →
        ∀ f ∈ s.files, f.user_id = T → ∀ r ∈ rows, r.id ≠ f.id) := by
  obtain ⟨T, hT, hex, hst⟩ := deleteUser_ok_inv ha hok
  have hfiles := deleteUser_files s T
  have hkey : ∀ db : Store, db.files = s.files.filter (fun f => !(f.user_id == T)) →
      ∀ f ∈ s.files, f.user_id = T → ∀ r ∈ db.files, r.id ≠ f.id := by
    intro db hdb f hf hfT r hr hid
    rw [hdb] at hr
    obtain ⟨hr1, hr2⟩ := List.mem_filter.1 hr
    have hrf : r = f := eq_of_nodup_map (fun x : FileRow => x.id) hv.files_id hr1 hf hid
    rw [hrf] at hr2
    simp [hfT] at hr2
  refine ⟨T, hT, hex, ?_, ?_, ?_, ?_, ?_⟩
  · rw [hst]
    rfl
  · rw [hst]
    exact hfiles
  · rw [hst]
    exact deleteUser_shares hex
  · intro v rows hrows f hf hfT r hr
    rw [hst] at hrows
    unfold getFiles at hrows
    split at hrows
    · simp at hrows
    · rename_i db hdb
      have hdbf : db.files = s.files.filter (fun f => !(f.user_id == T)) := by
        rw [(openDb_tables hdb).1]
        exact hfiles
      split at hrows
      · simp at hrows
      · rename_i u
        simp only [Response.mk.injEq, Body.files.injEq, true_and] at hrows
        apply hkey db hdbf f hf hfT r
        rw [← hrows] at hr
        split at hr
        · exact hr
        · exact (List.mem_filter.1 hr).1
  · intro v rows hrows f hf hfT r hr
    rw [hst] at hrows
    unfold getSharedWithMeFiles at hrows
    split at hrows
    · simp at hrows
    · rename_i db hdb
      have hdbf : db.files = s.files.filter (fun f => !(f.user_id == T)) := by
        rw [(openDb_tables hdb).1]
        exact hfiles
      simp only [Response.mk.injEq, Body.sharedWithMe.injEq, true_and] at hrows
      rw [← hrows] at hr
      obtain ⟨f1, hf1, hid1, _⟩ := sharedWithMe_row_file hr
      rw [hid1]
      exact hkey db hdbf f hf hfT f1 hf1

/-- C14 (witness): the administrator deletes alice, who shared a file with
bob. -/
theorem deleteUser_cascade_witness :
    ∃ T, (PathId.ofNat 2).sql = some T ∧ (∃ r ∈ shared.users, r.id = T) ∧
      (deleteUser shared adminReq (PathId.ofNat 2)).2.users =
        shared.users.filter (fun r => !(r.id == T)) ∧
      (deleteUser shared adminReq (PathId.ofNat 2)).2.files =
        shared.files.filter (fun f => !(f.user_id == T)) :=
  let ⟨T, h1, h2, h3, h4, _⟩ :=
    deleteUser_cascade shared adminReq (PathId.ofNat 2) (reachable_valid reachable_shared)
      ⟨rfl, rfl⟩ rfl
  ⟨T, h1, h2, h3, h4⟩

theorem updateUserAdminStatus_self {s : Store} {a : ReqUser} {id : PathId} (v : Bool)
    (ha : Authenticated s a) (hid : id.parseInt = some a.id) :
    updateUserAdminStatus s a id (some v) =
      (⟨403, .message "Cannot change your own admin status."⟩, s) := by
  unfold updateUserAdminStatus
  simp only
  rw [ha.opened]
  simp only
  rw [if_pos (by rw [hid]; simp)]

/-- The guarded branch of both admin handlers: when `parseInt` of the path
id is the caller's id, `deleteUser` and `updateUserAdminStatus` answer 403 and
leave the store unchanged.  The guard says nothing about the row the SQL
statement would match, see `self_protection_bypassed`. -/
theorem admin_self_protection (s : Store) (a : ReqUser) (id : PathId) (v : Bool)
    (ha : Authenticated s a) (hid : id.parseInt = some a.id) :
    deleteUser s a id =
        (⟨403, .message "Cannot delete your own admin account through this interface."⟩, s) ∧
      updateUserAdminStatus s a id (some v) =
        (⟨403, .message "Cannot change your own admin status."⟩, s) ∧
      (deleteUser s a id).1.kind = Kind.Forbidden ∧
      (updateUserAdminStatus s a id (some v)).1.kind = Kind.Forbidden := by
  have h1 := deleteUser_self ha hid
  have h2 := updateUserAdminStatus_self v ha hid
  rw [h1, h2]
  exact ⟨rfl, rfl, rfl, rfl⟩

/-- The guarded branch on a sample: the seeded administrator names its own
row by the decimal numeral 1. -/
theorem admin_self_protection_witness :
    deleteUser shared adminReq (PathId.ofNat 1) =
        (⟨403, .message "Cannot delete your own admin account through this interface."⟩,
          shared) ∧
      updateUserAdminStatus shared adminReq (PathId.ofNat 1) (some false) =
        (⟨403, .message "Cannot change your own admin status."⟩, shared) :=
  ⟨(admin_self_protection shared adminReq (PathId.ofNat 1) false ⟨rfl, rfl⟩ rfl).1,
   (admin_self_protection shared adminReq (PathId.ofNat 1) false ⟨rfl, rfl⟩ rfl).2.1⟩

/-- C15 (the code at the failing input): in the store `shared` the
administrator, user 1, names its own row by the path segment `10e-1`.  The
guard of both handlers compares the caller's id with `parseInt`, which reads
10, so it does not fire; the statements are given the raw text, which the
database matches to id 1, the caller's own id.  `deleteUser` answers 200 and
the caller's own row is gone; `updateUserAdminStatus` answers 200 and the
caller's own flag is cleared.  Neither answer is Forbidden and the users table
has changed.  Named by the decimal numeral 1, the same row is protected: both
handlers answer 403 and change nothing. -/
theorem self_protection_bypassed :
    Authenticated shared adminReq ∧ adminReq.isAdmin = true ∧
      PathId.tenEMinusOne.sql = some adminReq.id ∧
      PathId.tenEMinusOne.parseInt = some 10 ∧
      adminRoutes shared (Auth.ofDecoded ⟨1, 1⟩) (AdminOp.deleteUser PathId.tenEMinusOne) =
        deleteUser shared adminReq PathId.tenEMinusOne ∧
      (deleteUser shared adminReq PathId.tenEMinusOne).1 =
        ⟨200, .message "User and their files deleted successfully"⟩ ∧
      (deleteUser shared adminReq PathId.tenEMinusOne).1.kind ≠ Kind.Forbidden ∧
      (deleteUser shared adminReq PathId.tenEMinusOne).2.users =
        shared.users.filter (fun r => !(r.id == adminReq.id)) ∧
      (deleteUser shared adminReq PathId.tenEMinusOne).2.userById adminReq.id = none ∧
      (shared.userById adminReq.id).map User.is_admin = some 1 ∧
      adminRoutes shared (Auth.ofDecoded ⟨1, 1⟩)
          (AdminOp.updateUserAdminStatus PathId.tenEMinusOne (some false)) =
        updateUserAdminStatus shared adminReq PathId.tenEMinusOne (some false) ∧
      (updateUserAdminStatus shared adminReq PathId.tenEMinusOne (some false)).1 =
        ⟨200, .message "User ID 10e-1 admin status updated to false."⟩ ∧
      (updateUserAdminStatus shared adminReq PathId.tenEMinusOne (some false)).1.kind ≠
        Kind.Forbidden ∧
      ((updateUserAdminStatus shared adminReq PathId.tenEMinusOne (some false)).2.userById
        adminReq.id).map User.is_admin = some 0 ∧
      (updateUserAdminStatus shared adminReq PathId.tenEMinusOne (some false)).2.users ≠
        shared.users ∧
      deleteUser shared adminReq (PathId.ofNat 1) =
        (⟨403, .message "Cannot delete your own admin account through this interface."⟩,
          shared) ∧
      updateUserAdminStatus shared adminReq (PathId.ofNat 1) (some false) =
        (⟨403, .message "Cannot change your own admin status."⟩, shared) := by
  refine ⟨⟨rfl, rfl⟩, rfl, rfl, rfl, rfl, rfl, ?_, rfl, rfl, rfl, rfl, rfl, ?_, rfl, ?_,
    rfl, rfl⟩
  · decide
  · decide
  · decide

theorem deleteUser_absent {s : Store} {T : Nat} (hv : s.Valid)
    (habs : ∀ r ∈ s.users, r.id ≠ T) :
    ((s.deleteFilesWhere (fun f => f.user_id == T)).deleteUserRow T).1 = s := by
  have hfil : ∀ f ∈ s.files, f.user_id ≠ T := by
    intro f hf he
    obtain ⟨r, hr, hid⟩ := hv.files_owner f hf
    exact habs r hr (by rw [hid, he])
  have hgone : s.users.filter (fun u => u.id == T) = [] := by
    rw [List.filter_eq_nil_iff]
    intro r hr he
    exact habs r hr (by simpa using he)
  have hgf : s.files.filter (fun f => f.user_id == T) = [] := by
    rw [List.filter_eq_nil_iff]
    intro f hf he
    exact hfil f hf (by simpa using he)
  have h1 : ((s.deleteFilesWhere (fun f => f.user_id == T)).deleteUserRow T).1.users =
      s.users := by
    rw [deleteUser_users, List.filter_eq_self]
    intro r hr
    simpa using habs r hr
  have h2 : ((s.deleteFilesWhere (fun f => f.user_id == T)).deleteUserRow T).1.files =
      s.files := by
    rw [deleteUser_files, List.filter_eq_self]
    intro f hf
    simpa using hfil f hf
  have h3 : ((s.deleteFilesWhere (fun f => f.user_id == T)).deleteUserRow T).1.shared_files =
      s.shared_files := by
    show ((s.deleteFilesWhere (fun f => f.user_id == T)).deleteFilesWhere
        (fun f => (s.users.filter (fun u => u.id == T)).any
          (fun u => u.id == f.user_id))).shared_files.filter _ = _
    rw [deleteUser_second_cascade]
    show (s.shared_files.filter _).filter _ = _
    have hus : (s.deleteFilesWhere (fun f => f.user_id == T)).users = s.users := rfl
    rw [hus, hgone, hgf]
    simp
  have h4 : ((s.deleteFilesWhere (fun f => f.user_id == T)).deleteUserRow T).1 =
      { s with
        users := ((s.deleteFilesWhere (fun f => f.user_id == T)).deleteUserRow T).1.users,
        files := ((s.deleteFilesWhere (fun f => f.user_id == T)).deleteUserRow T).1.files,
        shared_files :=
          ((s.deleteFilesWhere (fun f => f.user_id == T)).deleteUserRow T).1.shared_files } :=
    rfl
  rw [h4, h1, h2, h3]

/-- C16: in a reachable store, `deleteUser` called by an authenticated user
(behind `authorizeAdmin`, an admin) with a path id that is not the caller's own and names no existing user answers 404 NotFound
and leaves the store unchanged, although the delete of the target's files is
issued before the delete of the user row. -/
theorem deleteUser_absent_target (s : Store) (a : ReqUser) (id : PathId)
    (hs : Reachable s) (ha : Authenticated s a) (hself : id.parseInt ≠ some a.id)
    (habs : ∀ T, id.sql = some T → ∀ r ∈ s.users, r.id ≠ T) :
    deleteUser s a id = (⟨404, .message "User not found"⟩, s) ∧
      (deleteUser s a id).1.kind = Kind.NotFound := by
  have h : deleteUser s a id = (⟨404, .message "User not found"⟩, s) := by
    cases hT : id.sql with
    | none =>
      unfold deleteUser
      rw [ha.opened]
      simp only
      rw [if_neg (fun h => hself (eq_of_beq h).symm), hT]
    | some T =>
      have hgone : s.users.filter (fun u => u.id == T) = [] := by
        rw [List.filter_eq_nil_iff]
        intro r hr he
        exact habs T hT r hr (by simpa using he)
      rw [deleteUser_run ha hself hT, hgone, deleteUser_absent (reachable_valid hs) (habs T hT)]
      rfl
  rw [h]
  exact ⟨rfl, rfl⟩

/-- C16 (witness): the administrator names user 9, who does not exist. -/
theorem deleteUser_absent_target_witness :
    deleteUser shared adminReq (PathId.ofNat 9) = (⟨404, .message "User not found"⟩, shared) :=
  (deleteUser_absent_target shared adminReq (PathId.ofNat 9) reachable_shared ⟨rfl, rfl⟩
    (by decide) (by
      intro T hT r hr
      have h9 : T = 9 := by
        have h := hT
        simp only [PathId.ofNat, Option.some.injEq] at h
        exact h.symm
      subst h9
      revert r
      decide)).1

/-! ## The admin flag (C17) -/

theorem setAdmin_absent {s : Store} {T : Nat} (v : Int) (habs : ∀ r ∈ s.users, r.id ≠ T) :
    s.setAdmin T v = (s, 0) := by
  have hmap : s.users.map (fun u => if u.id == T then { u with is_admin := v } else u) =
      s.users := by
    conv => rhs; rw [← List.map_id s.users]
    apply List.map_congr_left
    intro r hr
    rw [if_neg (by simpa using habs r hr)]
    rfl
  have hgone : s.users.filter (fun u => u.id == T) = [] := by
    rw [List.filter_eq_nil_iff]
    intro r hr he
    exact habs r hr (by simpa using he)
  unfold Store.setAdmin
  rw [hmap, hgone]
  rfl

theorem setAdmin_twice (s : Store) (T : Nat) (v : Int) :
    ((s.setAdmin T v).1.setAdmin T v).1 = (s.setAdmin T v).1 := by
  unfold Store.setAdmin
  simp only
  rw [List.map_map]
  congr 1
  apply List.map_congr_left
  intro r _
  simp only [Function.comp]
  by_cases h : (r.id == T) = true
  · rw [if_pos h, if_pos h]
  · rw [if_neg h, if_neg h]

theorem setAdmin_changes {l : List User} {T : Nat} (hex : ∃ r ∈ l, r.id = T) :
    ¬ ((l.filter (fun u => u.id == T)).length == 0) = true := by
  obtain ⟨r, hr, hid⟩ := hex
  intro h
  have hnil : l.filter (fun u => u.id == T) = [] :=
    List.length_eq_zero.1 (by simpa using h)
  have hmem : r ∈ l.filter (fun u => u.id == T) := List.mem_filter.2 ⟨hr, by simp [hid]⟩
  rw [hnil] at hmem
  cases hmem

theorem updateUserAdminStatus_run {s : Store} {a : ReqUser} {id : PathId} {T : Nat} (v : Bool)
    (ho : openDb s = .ok s) (hself : id.parseInt ≠ some a.id) (hT : id.sql = some T) :
    updateUserAdminStatus s a id (some v) =
      if ((s.users.filter (fun u => u.id == T)).length == 0) = true then
        (⟨404, .message "User not found or admin status already set."⟩,
         (s.setAdmin T (if v = true then 1 else 0)).1)
      else
        (⟨200, .message ("User ID " ++ id.raw ++ " admin status updated to " ++
            toString v ++ ".")⟩,
         (s.setAdmin T (if v = true then 1 else 0)).1) := by
  unfold updateUserAdminStatus
  simp only
  rw [ho]
  simp only
  rw [if_neg (fun h => hself (eq_of_beq h).symm), hT]
  rfl

theorem setAdmin_authenticated {s : Store} {a : ReqUser} {T : Nat} (v : Int)
    (ha : Authenticated s a) (hne : T ≠ a.id) : Authenticated (s.setAdmin T v).1 a := by
  constructor
  · rw [opened_iff]
    have h := (opened_iff s).1 ha.opened
    unfold Store.userByEmail at h ⊢
    rw [List.find?_isSome] at h ⊢
    obtain ⟨r, hr, he⟩ := h
    refine ⟨_, List.mem_map_of_mem _ hr, ?_⟩
    split <;> exact he
  · have h2 := ha.2
    unfold Store.userById at h2 ⊢
    show ((s.users.map _).find? _).map _ = _
    rw [List.find?_map]
    have hcomp : ((fun u : User => u.id == a.id) ∘
        (fun u : User => if u.id == T then { u with is_admin := v } else u)) =
        (fun u : User => u.id == a.id) := by
      funext u
      simp only [Function.comp]
      split <;> rfl
    rw [hcomp]
    cases hf : s.users.find? (fun u => u.id == a.id) with
    | none =>
      rw [hf] at h2
      simp at h2
    | some r =>
      rw [hf] at h2
      have hid : r.id = a.id := by simpa using List.find?_some hf
      simp only [Option.map_some']
      rw [if_neg (by rw [hid]; simpa using Ne.symm hne)]
      exact h2

/-- C17: `updateUserAdminStatus` with a boolean v and a path id that is not
the acting admin's: when the id names no user it answers 404 NotFound and
leaves the store unchanged; when it names user T (not the acting admin) it
answers 200 and the new store is the old one with the admin flag of T set to
v (1 or 0) and nothing else changed; the same request made again is answered
200 and leaves that store as it is, whatever the flag of T was before. -/
theorem updateUserAdminStatus_spec (s : Store) (a : ReqUser) (id : PathId) (v : Bool)
    (ha : Authenticated s a) (hself : id.parseInt ≠ some a.id) :
    ((∀ T, id.sql = some T → ∀ r ∈ s.users, r.id ≠ T) →
        updateUserAdminStatus s a id (some v) =
          (⟨404, .message "User not found or admin status already set."⟩, s)) ∧
      (∀ T, id.sql = some T → (∃ r ∈ s.users, r.id = T) → T ≠ a.id →
        (updateUserAdminStatus s a id (some v)).1.status = 200 ∧
        (updateUserAdminStatus s a id (some v)).2 =
          { s with
            users :=
              s.users.map
                (fun r =>
                  if r.id == T then { r with is_admin := if v = true then 1 else 0 } else r) } ∧
        Authenticated (updateUserAdminStatus s a id (some v)).2 a ∧
        (updateUserAdminStatus (updateUserAdminStatus s a id (some v)).2 a id (some v)).1.status
          = 200 ∧
        (updateUserAdminStatus (updateUserAdminStatus s a id (some v)).2 a id (some v)).2 =
          (updateUserAdminStatus s a id (some v)).2) := by
  constructor
  · intro habs
    cases hT : id.sql with
    | none =>
      unfold updateUserAdminStatus
      simp only
      rw [ha.opened]
      simp only
      rw [if_neg (fun h => hself (eq_of_beq h).symm), hT]
    | some T =>
      have hgone : s.users.filter (fun u => u.id == T) = [] := by
        rw [List.filter_eq_nil_iff]
        intro r hr he
        exact habs T hT r hr (by simpa using he)
      rw [updateUserAdminStatus_run v ha.opened hself hT, hgone,
        setAdmin_absent _ (habs T hT)]
      rfl
  · intro T hT hex hne
    have h1 := updateUserAdminStatus_run v ha.opened hself hT
    rw [if_neg (setAdmin_changes hex)] at h1
    have hauth := setAdmin_authenticated (if v = true then (1 : Int) else 0) ha hne
    have hex2 : ∃ r ∈ (s.setAdmin T (if v = true then 1 else 0)).1.users, r.id = T :=
      setAdmin_mem_id hex
    have h2 := updateUserAdminStatus_run (a := a) v hauth.opened hself hT
    rw [if_neg (setAdmin_changes hex2), setAdmin_twice] at h2
    have h3 : (updateUserAdminStatus s a id (some v)).2 =
        (s.setAdmin T (if v = true then 1 else 0)).1 := by rw [h1]
    refine ⟨by rw [h1], h3, by rw [h3]; exact hauth, by rw [h3, h2], by rw [h3, h2]⟩

/-- C17 (witness): the administrator promotes bob, twice. -/
theorem updateUserAdminStatus_spec_witness :
    (updateUserAdminStatus shared adminReq (PathId.ofNat 3) (some true)).1.status = 200 ∧
      (updateUserAdminStatus (updateUserAdminStatus shared adminReq (PathId.ofNat 3)
          (some true)).2 adminReq (PathId.ofNat 3) (some true)).1.status = 200 ∧
      (updateUserAdminStatus (updateUserAdminStatus shared adminReq (PathId.ofNat 3)
          (some true)).2 adminReq (PathId.ofNat 3) (some true)).2 =
        (updateUserAdminStatus shared adminReq (PathId.ofNat 3) (some true)).2 :=
  ⟨((updateUserAdminStatus_spec shared adminReq (PathId.ofNat 3) true ⟨rfl, rfl⟩
      (by decide)).2 3 rfl ⟨⟨3, "bob", "b@x.io", bcryptHash "pw", 0⟩, by decide, rfl⟩
      (by decide)).1,
   ((updateUserAdminStatus_spec shared adminReq (PathId.ofNat 3) true ⟨rfl, rfl⟩
      (by decide)).2 3 rfl ⟨⟨3, "bob", "b@x.io", bcryptHash "pw", 0⟩, by decide, rfl⟩
      (by decide)).2.2.2.1,
   ((updateUserAdminStatus_spec shared adminReq (PathId.ofNat 3) true ⟨rfl, rfl⟩
      (by decide)).2 3 rfl ⟨⟨3, "bob", "b@x.io", bcryptHash "pw", 0⟩, by decide, rfl⟩
      (by decide)).2.2.2.2⟩

/-! ## Stored bytes and metadata rows (C18, C19) -/

theorem deleteUser_uploads (s : Store) (a : ReqUser) (id : PathId) (ho : openDb s = .ok s) :
    (deleteUser s a id).2.uploads = s.uploads := by
  unfold deleteUser
  rw [ho]
  simp only
  split
  · rfl
  · split
    · rfl
    · split <;> rfl

/-- C18 (the code at the failing input): the administrator deletes alice, who
owns two uploads.  `deleteUser` answers 200 and removes both file rows, and
the upload directory still holds the bytes of both files; `deleteFile` of the
same file does remove its bytes. -/
theorem deleteUser_orphans_content :
    Authenticated uploaded adminReq ∧
      (deleteUser uploaded adminReq (PathId.ofNat 2)).1 =
        ⟨200, .message "User and their files deleted successfully"⟩ ∧
      (deleteUser uploaded adminReq (PathId.ofNat 2)).2.files = [] ∧
      (deleteUser uploaded adminReq (PathId.ofNat 2)).2.uploads =
        [⟨"1-n.txt", "abc"⟩, ⟨"2-p.txt", "xyz"⟩] ∧
      diskHas (deleteUser uploaded adminReq (PathId.ofNat 2)).2.uploads privFile.stored_name
        = true ∧
      diskHas (deleteFile uploaded aliceReq 1 FsEnv.ok).2.uploads privFile.stored_name
        = false :=
  ⟨⟨rfl, rfl⟩, rfl, rfl, rfl, rfl, rfl⟩

theorem diskHas_unlink (disk : List DiskFile) (name : String) :
    diskHas (unlink disk name) name = false := by
  unfold diskHas unlink
  rw [List.any_eq_false]
  intro d hd
  have := (List.mem_filter.1 hd).2
  simpa using this

/-- C19: when the metadata insert of `uploadFile` fails, the answer is 500
(StorageError) and no row is added to any table; the bytes stored under the
upload's storage key are removed when the unlink does not fail, and when it
fails the answer is still 500 and the store is unchanged. -/
theorem uploadFile_insert_failure (s : Store) (u : ReqUser) (uf : UploadedFile)
    (is_private : Option String) (now : String) (env : FsEnv) (e : String)
    (hu : Authenticated s u) (hm : env.mkdirFails = false)
    (hins : s.insertFile u.id uf.originalname uf.filename uf.size
      (if is_private == some "true" then 1 else 0) now = .error e) :
    (uploadFile s u (some uf) is_private now env).1 =
        ⟨500, .failure "Server error during file upload (DB issue)" e⟩ ∧
      (uploadFile s u (some uf) is_private now env).1.kind = Kind.StorageError ∧
      (uploadFile s u (some uf) is_private now env).2.files = s.files ∧
      (uploadFile s u (some uf) is_private now env).2.users = s.users ∧
      (uploadFile s u (some uf) is_private now env).2.shared_files = s.shared_files ∧
      (env.unlinkFails = false →
        (uploadFile s u (some uf) is_private now env).2.uploads =
          unlink s.uploads uf.filename ∧
        diskHas (uploadFile s u (some uf) is_private now env).2.uploads uf.filename = false) ∧
      (env.unlinkFails = true → (uploadFile s u (some uf) is_private now env).2 = s) := by
  have h : uploadFile s u (some uf) is_private now env =
      (⟨500, .failure "Server error during file upload (DB issue)" e⟩,
       if env.unlinkFails = true then s
       else { s with uploads := unlink s.uploads uf.filename }) := by
    unfold uploadFile
    simp only
    rw [if_neg (by simp [hm]), hu.opened]
    simp only
    rw [hins]
  rw [h]
  refine ⟨rfl, rfl, ?_, ?_, ?_, ?_, ?_⟩
  · simp only
    split <;> rfl
  · simp only
    split <;> rfl
  · simp only
    split <;> rfl
  · intro hf
    simp only
    rw [if_neg (by simp [hf])]
    exact ⟨rfl, diskHas_unlink _ _⟩
  · intro hf
    simp only
    rw [if_pos hf]

/-- C19 (witness): alice uploads again under the storage key of her private
file; the insert fails on UNIQUE `stored_name`. -/
theorem uploadFile_insert_failure_witness :
    (uploadFile (multerWrite uploaded "1-n.txt" "new") aliceReq (some ⟨"n.txt", "1-n.txt", 3⟩)
        (some "true") "t5" FsEnv.ok).1 =
        ⟨500, .failure "Server error during file upload (DB issue)"
          "SQLITE_CONSTRAINT: UNIQUE constraint failed: files.stored_name"⟩ ∧
      (uploadFile (multerWrite uploaded "1-n.txt" "new") aliceReq (some ⟨"n.txt", "1-n.txt", 3⟩)
        (some "true") "t5" FsEnv.ok).2.files = (multerWrite uploaded "1-n.txt" "new").files :=
  ⟨(uploadFile_insert_failure (multerWrite uploaded "1-n.txt" "new") aliceReq
      ⟨"n.txt", "1-n.txt", 3⟩ (some "true") "t5" FsEnv.ok
      "SQLITE_CONSTRAINT: UNIQUE constraint failed: files.stored_name" ⟨rfl, rfl⟩ rfl rfl).1,
   (uploadFile_insert_failure (multerWrite uploaded "1-n.txt" "new") aliceReq
      ⟨"n.txt", "1-n.txt", 3⟩ (some "true") "t5" FsEnv.ok
      "SQLITE_CONSTRAINT: UNIQUE constraint failed: files.stored_name" ⟨rfl, rfl⟩ rfl rfl).2.2.1⟩

/-! ## Visibility of an upload (C29) -/

theorem uploadFile_ok_inv {s : Store} {u : ReqUser} {uf : UploadedFile}
    {is_private : Option String} {now : String} {env : FsEnv} (hu : Authenticated s u)
    (hok : (uploadFile s u (some uf) is_private now env).1.status = 201) :
    ∃ db1 id, s.insertFile u.id uf.originalname uf.filename uf.size
        (if is_private == some "true" then 1 else 0) now = .ok (db1, id) ∧
      uploadFile s u (some uf) is_private now env =
        (⟨201, .uploaded "File uploaded successfully" id uf.originalname⟩, db1) := by
  unfold uploadFile at hok ⊢
  simp only at hok ⊢
  by_cases hm : env.mkdirFails = true
  · rw [if_pos hm] at hok
    simp at hok
  · rw [if_neg hm, hu.opened] at hok ⊢
    simp only at hok ⊢
    split at hok
    · simp at hok
    · rename_i db1 id hins
      exact ⟨db1, id, hins, rfl⟩

/-- C29: when `uploadFile` succeeds, the files table gains exactly one row,
owned by the authenticated uploader, whose visibility is 1 (private) when the
request field `is_private` is the string "true" and 0 (public) for every
other value and for an absent field. -/
theorem uploadFile_visibility (s : Store) (u : ReqUser) (uf : UploadedFile)
    (is_private : Option String) (now : String) (env : FsEnv) (hu : Authenticated s u)
    (hok : (uploadFile s u (some uf) is_private now env).1.status = 201) :
    ∃ row, (uploadFile s u (some uf) is_private now env).2.files = s.files ++ [row] ∧
      row.user_id = u.id ∧
      (row.is_private = 1 ↔ is_private = some "true") ∧
      (row.is_private = 0 ↔ is_private ≠ some "true") ∧
      (row.is_private = 0 ∨ row.is_private = 1) := by
  obtain ⟨db1, id, hins, heq⟩ := uploadFile_ok_inv hu hok
  obtain ⟨_, _, _, hdb1⟩ := insertFile_ok hins
  rw [heq, hdb1]
  refine ⟨_, rfl, rfl, ?_, ?_, ?_⟩
  · by_cases h : is_private = some "true"
    · simp [h]
    · simp [h]
  · by_cases h : is_private = some "true"
    · simp [h]
    · simp [h]
  · by_cases h : is_private = some "true"
    · simp [h]
    · simp [h]

/-- C29 (witness): bob uploads with the field values "TRUE", "1", "false" and
without the field; each upload is stored public. -/
theorem uploadFile_visibility_witness :
    (∃ row, (uploadFile shared bobReq (some ⟨"q.png", "7-q.png", 4⟩) (some "TRUE") "t7"
        FsEnv.ok).2.files = shared.files ++ [row] ∧ row.user_id = bobReq.id ∧
      (row.is_private = 1 ↔ some "TRUE" = some "true") ∧
      (row.is_private = 0 ↔ some "TRUE" ≠ some "true") ∧
      (row.is_private = 0 ∨ row.is_private = 1)) ∧
      (uploadFile shared bobReq (some ⟨"q.png", "7-q.png", 4⟩) (some "TRUE") "t7"
        FsEnv.ok).2.files = shared.files ++ [⟨3, 3, "q.png", "7-q.png", 4, 0, "t7"⟩] ∧
      (uploadFile shared bobReq (some ⟨"q.png", "7-q.png", 4⟩) (some "1") "t7"
        FsEnv.ok).2.files = shared.files ++ [⟨3, 3, "q.png", "7-q.png", 4, 0, "t7"⟩] ∧
      (uploadFile shared bobReq (some ⟨"q.png", "7-q.png", 4⟩) (some "false") "t7"
        FsEnv.ok).2.files = shared.files ++ [⟨3, 3, "q.png", "7-q.png", 4, 0, "t7"⟩] ∧
      (uploadFile shared bobReq (some ⟨"q.png", "7-q.png", 4⟩) none "t7"
        FsEnv.ok).2.files = shared.files ++ [⟨3, 3, "q.png", "7-q.png", 4, 0, "t7"⟩] ∧
      (uploadFile shared bobReq (some ⟨"q.png", "7-q.png", 4⟩) (some "true") "t7"
        FsEnv.ok).2.files = shared.files ++ [⟨3, 3, "q.png", "7-q.png", 4, 1, "t7"⟩] :=
  ⟨uploadFile_visibility shared bobReq ⟨"q.png", "7-q.png", 4⟩ (some "TRUE") "t7" FsEnv.ok
      ⟨rfl, rfl⟩ rfl,
   rfl, rfl, rfl, rfl, rfl⟩

/-! ## The upload filter (C30) -/

theorem regexTest_iff (alts : List (List Char)) (s : List Char) :
    regexTest alts s = true ↔ ∃ a ∈ alts, a <:+: s := by
  induction s with
  | nil =>
    simp only [regexTest, List.any_eq_true, List.isPrefixOf_iff_prefix, List.prefix_nil,
      List.infix_nil]
  | cons c cs ih =>
    simp only [regexTest, Bool.or_eq_true, List.any_eq_true, List.isPrefixOf_iff_prefix, ih,
      List.infix_cons_iff]
    constructor
    · rintro (⟨a, ha, hp⟩ | ⟨a, ha, hp⟩)
      · exact ⟨a, ha, Or.inl hp⟩
      · exact ⟨a, ha, Or.inr hp⟩
    · rintro ⟨a, ha, hp | hp⟩
      · exact Or.inl ⟨a, ha, hp⟩
      · exact Or.inr ⟨a, ha, hp⟩

theorem regexTest_allowed_iff (s : List Char) :
    regexTest (allowedTypes.map String.data) s = true ↔
      ∃ t ∈ allowedTypes, t.data <:+: s := by
  rw [regexTest_iff]
  constructor
  · rintro ⟨a, ha, hp⟩
    obtain ⟨t, ht, rfl⟩ := List.mem_map.1 ha
    exact ⟨t, ht, hp⟩
  · rintro ⟨t, ht, hp⟩
    exact ⟨t.data, List.mem_map_of_mem _ ht, hp⟩

/-- C30: `fileFilter` accepts an upload if and only if its MIME type contains
one of the listed type tokens as a substring and the lower-cased extension of
its original name contains one of them as a substring; in every other case it
rejects the upload with the invalid-file-type error. -/
theorem fileFilter_accepts_iff (mimetype originalname : String) :
    (fileFilter mimetype originalname = .ok true ↔
        (∃ t ∈ allowedTypes, t.data <:+: mimetype.data) ∧
        (∃ t ∈ allowedTypes, t.data <:+: toLowerCase (extnameChars originalname.data))) ∧
      (¬((∃ t ∈ allowedTypes, t.data <:+: mimetype.data) ∧
          (∃ t ∈ allowedTypes, t.data <:+: toLowerCase (extnameChars originalname.data))) →
        fileFilter mimetype originalname =
          .error "Invalid file type. Only common documents, images, and archives are allowed.") := by
  rw [← regexTest_allowed_iff, ← regexTest_allowed_iff]
  unfold fileFilter
  simp only
  cases h1 : regexTest (allowedTypes.map String.data) mimetype.data <;>
    cases h2 : regexTest (allowedTypes.map String.data)
      (toLowerCase (extnameChars originalname.data)) <;> simp

/-- C30 (evaluation): `notes.txt` sent as `text/plain` and `song.mp3` sent as
`audio/mpeg` are rejected (neither MIME type contains a token), `photo.png`
sent as `image/png` is accepted. -/
theorem fileFilter_accepts_iff_witness :
    fileFilter "text/plain" "notes.txt" =
        .error "Invalid file type. Only common documents, images, and archives are allowed." ∧
      fileFilter "audio/mpeg" "song.mp3" =
        .error "Invalid file type. Only common documents, images, and archives are allowed." ∧
      fileFilter "image/png" "photo.png" = .ok true ∧
      ((∃ t ∈ allowedTypes, t.data <:+: "image/png".data) ∧
        (∃ t ∈ allowedTypes, t.data <:+: toLowerCase (extnameChars "photo.png".data))) :=
  ⟨rfl, rfl, rfl, (fileFilter_accepts_iff "image/png" "photo.png").1.1 rfl⟩

/-! ## The listings and the download permission (C28) -/

theorem sharedWithMe_ids_iff {s : Store} (u : ReqUser) (fileId : Nat) (ho : openDb s = .ok s) :
    fileId ∈ (getSharedWithMeFiles s u).1.fileIds ↔
      ∃ sf ∈ s.shared_files, sf.shared_with_user_id = u.id ∧ sf.file_id = fileId ∧
        (∃ f ∈ s.files, f.id = fileId) ∧ (∃ r ∈ s.users, r.id = sf.shared_by_user_id) := by
  unfold getSharedWithMeFiles Response.fileIds
  rw [ho]
  simp only [List.mem_map, List.mem_flatMap, List.mem_filter, beq_iff_eq]
  constructor
  · rintro ⟨r, ⟨sf, ⟨hsf, hw⟩, f, ⟨hf, hfid⟩, x, ⟨hx, hxid⟩, rfl⟩, rfl⟩
    exact ⟨sf, hsf, hw, hfid, ⟨f, hf, rfl⟩, ⟨x, hx, hxid.symm⟩⟩
  · rintro ⟨sf, hsf, hw, hfid, ⟨f, hf, hid⟩, ⟨x, hx, hxid⟩⟩
    exact ⟨_, ⟨sf, ⟨hsf, hw⟩, f, ⟨hf, by rw [hfid, hid]⟩, x, ⟨hx, hxid.symm⟩, rfl⟩, hid⟩

theorem getFiles_ids_iff {s : Store} (u : ReqUser) (fileId : Nat) (ho : openDb s = .ok s) :
    fileId ∈ (getFiles s (some u)).1.fileIds ↔
      ∃ f ∈ s.files, f.id = fileId ∧ (u.is_admin ≠ 0 ∨ f.user_id = u.id ∨ f.is_private = 0) := by
  unfold getFiles Response.fileIds
  rw [ho]
  simp only
  by_cases ha : u.is_admin = 0
  · rw [if_neg (by unfold ReqUser.isAdmin; simp [ha])]
    simp only [List.mem_map, List.mem_filter, Bool.or_eq_true, beq_iff_eq]
    constructor
    · rintro ⟨f, ⟨hf, hp⟩, rfl⟩
      exact ⟨f, hf, rfl, Or.inr hp⟩
    · rintro ⟨f, hf, hid, hp⟩
      rcases hp with hp | hp
      · exact absurd ha hp
      · exact ⟨f, ⟨hf, hp⟩, hid⟩
  · rw [if_pos (by unfold ReqUser.isAdmin; simpa using ha)]
    simp only [List.mem_map]
    constructor
    · rintro ⟨f, hf, rfl⟩
      exact ⟨f, hf, rfl, Or.inl ha⟩
    · rintro ⟨f, hf, hid, _⟩
      exact ⟨f, hf, hid⟩

theorem downloadFile_authorizes_iff {s : Store} (u : ReqUser) (fileId : Nat)
    (ho : openDb s = .ok s) :
    ((downloadFile s u fileId).1.status ≠ 404 ∧ (downloadFile s u fileId).1.status ≠ 403) ↔
      ∃ F, s.fileById fileId = some F ∧ isAuthorized s u F fileId = true := by
  cases hF : s.fileById fileId with
  | none =>
    have h : downloadFile s u fileId = (⟨404, .message "File not found."⟩, s) := by
      unfold downloadFile
      rw [ho]
      simp only
      rw [hF]
    rw [h]
    simp
  | some F =>
    have h1 := downloadFile_status s u fileId F ho hF
    have h2 : (downloadFile s u fileId).1.status ≠ 404 := by
      unfold downloadFile
      rw [ho]
      simp only
      rw [hF]
      simp only
      split
      · simp
      · split <;> simp
    constructor
    · rintro ⟨_, h3⟩
      exact ⟨F, rfl, h1.1 h3⟩
    · rintro ⟨F1, hF1, hA⟩
      simp only [Option.some.injEq] at hF1
      subst hF1
      exact ⟨h2, h1.2 hA⟩

/-- C28: in a reachable store and for an authenticated user u, `downloadFile`
authorizes u for a file id (answers neither 404 nor 403) if and only if the id
is among the ids `getFiles` returns to u or among the ids
`getSharedWithMeFiles` returns to u; for a non-admin u no id is in both
listings. -/
theorem listings_are_download_permission (s : Store) (u : ReqUser) (fileId : Nat)
    (hs : Reachable s) (hu : Authenticated s u) :
    (((downloadFile s u fileId).1.status ≠ 404 ∧ (downloadFile s u fileId).1.status ≠ 403) ↔
        (fileId ∈ (getFiles s (some u)).1.fileIds ∨
          fileId ∈ (getSharedWithMeFiles s u).1.fileIds)) ∧
      (u.is_admin = 0 →
        ¬(fileId ∈ (getFiles s (some u)).1.fileIds ∧
          fileId ∈ (getSharedWithMeFiles s u).1.fileIds)) := by
  have hv := reachable_valid hs
  have hg := reachable_grantsOK hs
  have hfind : ∀ f ∈ s.files, f.id = fileId → s.fileById fileId = some f := by
    intro f hf hid
    rw [← hid]
    exact find?_eq_of_nodup_map (fun x : FileRow => x.id) hv.files_id hf
  rw [downloadFile_authorizes_iff u fileId hu.opened, getFiles_ids_iff u fileId hu.opened,
    sharedWithMe_ids_iff u fileId hu.opened]
  constructor
  · constructor
    · rintro ⟨F, hF, hA⟩
      have hmem : F ∈ s.files := List.mem_of_find?_eq_some hF
      have hid : F.id = fileId := by simpa using List.find?_some hF
      rcases (isAuthorized_iff s u F fileId).1 hA with h | h | h | ⟨g, hgm, hgf, hgw⟩
      · exact Or.inl ⟨F, hmem, hid, Or.inr (Or.inl h)⟩
      · exact Or.inl ⟨F, hmem, hid, Or.inr (Or.inr h)⟩
      · exact Or.inl ⟨F, hmem, hid, Or.inl h⟩
      · exact Or.inr ⟨g, hgm, hgw, hgf, ⟨F, hmem, hid⟩, hv.shares_by g hgm⟩
    · rintro (⟨f, hf, hid, hp⟩ | ⟨g, hgm, hgw, hgf, ⟨f, hf, hid⟩, _⟩)
      · refine ⟨f, hfind f hf hid, (isAuthorized_iff s u f fileId).2 ?_⟩
        rcases hp with hp | hp | hp
        · exact Or.inr (Or.inr (Or.inl hp))
        · exact Or.inl hp
        · exact Or.inr (Or.inl hp)
      · exact ⟨f, hfind f hf hid, (isAuthorized_iff s u f fileId).2
          (Or.inr (Or.inr (Or.inr ⟨g, hgm, hgf, hgw⟩)))⟩
  · rintro ha ⟨⟨f, hf, hid, hp⟩, ⟨g, hgm, hgw, hgf, _, _⟩⟩
    obtain ⟨F, hF, hpriv, _, _, hne⟩ := hg g hgm
    rw [hgf, hfind f hf hid] at hF
    simp only [Option.some.injEq] at hF
    subst hF
    rcases hp with hp | hp | hp
    · exact hp ha
    · exact hne (by rw [hgw, hp])
    · rw [hp] at hpriv
      exact absurd hpriv (by decide)

/-- C28 (witness): bob may download file 1 of alice, which his shared-with-me
listing holds and his file listing does not. -/
theorem listings_are_download_permission_witness :
    (((downloadFile shared bobReq 1).1.status ≠ 404 ∧
        (downloadFile shared bobReq 1).1.status ≠ 403) ↔
      (1 ∈ (getFiles shared (some bobReq)).1.fileIds ∨
        1 ∈ (getSharedWithMeFiles shared bobReq).1.fileIds)) ∧
      ¬(1 ∈ (getFiles shared (some bobReq)).1.fileIds ∧
        1 ∈ (getSharedWithMeFiles shared bobReq).1.fileIds) :=
  ⟨(listings_are_download_permission shared bobReq 1 reachable_shared ⟨rfl, rfl⟩).1,
   (listings_are_download_permission shared bobReq 1 reachable_shared ⟨rfl, rfl⟩).2 rfl⟩

/-! ## Seeding of the default administrator (C23) -/

theorem reachable_promoted : Reachable promoted :=
  Reachable.setAdmin _ _ reachable_shared (u := adminReq) ⟨rfl, rfl⟩ rfl

theorem reachable_orphaned : Reachable orphaned :=
  Reachable.deleteUser _ reachable_promoted (u := aliceAdminReq) ⟨rfl, rfl⟩ rfl

theorem openDb_present {s : Store} (h : (s.userByEmail "admin@example.com").isSome = true) :
    openDb s = .ok s := (opened_iff s).2 h

theorem openDb_absent {s db : Store} (h : s.userByEmail "admin@example.com" = none)
    (ho : openDb s = .ok db) :
    db = { s with
           users := s.users ++ [{ id := nextId s.seq_users (s.users.map (fun u => u.id)),
                                  username := "admin", email := "admin@example.com",
                                  password := bcryptHash "adminpassword", is_admin := 1 }],
           seq_users := nextId s.seq_users (s.users.map (fun u => u.id)) } := by
  unfold openDb at ho
  rw [h] at ho
  simp only at ho
  split at ho
  · cases ho
  · rename_i s1 id heq
    cases ho
    obtain ⟨_, _, hid, hs1⟩ := insertUser_ok heq
    rw [hs1, hid]

/-- C23 (counterexample): alice, made an administrator, deleted the default
administrator.  The store is reachable and not empty, and the next `openDb`
inserts the default administrator again, as user 4. -/
theorem openDb_seeds_again :
    Reachable orphaned ∧ orphaned.users ≠ [] ∧
      orphaned.userByEmail "admin@example.com" = none ∧
      ∃ db, openDb orphaned = .ok db ∧
        db.users = orphaned.users ++
          [⟨4, "admin", "admin@example.com", bcryptHash "adminpassword", 1⟩] :=
  ⟨reachable_orphaned, by decide, rfl, _, rfl, rfl⟩

/-- C23 (amended): a successful `openDb` inserts the default administrator
exactly when no user row has the email admin@example.com, whether the store
is empty or not; on a store that holds such a row it inserts nothing; and the
call that follows a successful `openDb` inserts nothing. -/
theorem openDb_seeds_iff_absent (s db : Store) (ho : openDb s = .ok db) :
    ((s.userByEmail "admin@example.com").isSome = true → db = s) ∧
      (s.userByEmail "admin@example.com" = none →
        db.users = s.users ++
          [⟨nextId s.seq_users (s.users.map (fun u => u.id)), "admin", "admin@example.com",
            bcryptHash "adminpassword", 1⟩] ∧
        db.files = s.files ∧ db.shared_files = s.shared_files ∧ db.uploads = s.uploads) ∧
      openDb db = .ok db := by
  refine ⟨?_, ?_, openDb_idem ho⟩
  · intro h
    rw [openDb_present h] at ho
    cases ho
    rfl
  · intro h
    rw [openDb_absent h ho]
    exact ⟨rfl, rfl, rfl, rfl⟩

/-- C23 (witness): the first call against the empty store seeds user 1, and
the call after it inserts nothing. -/
theorem openDb_seeds_iff_absent_witness :
    openDb Store.empty = .ok seeded ∧
      seeded.users = Store.empty.users ++
        [⟨1, "admin", "admin@example.com", bcryptHash "adminpassword", 1⟩] ∧
      openDb seeded = .ok seeded :=
  ⟨rfl,
   ((openDb_seeds_iff_absent Store.empty seeded rfl).2.1 rfl).1,
   (openDb_seeds_iff_absent Store.empty seeded rfl).2.2⟩

/-! ## The gate of the admin router (C25) -/

theorem adminRoutes_protect {s db : Store} (d : Decoded) (ho : openDb s = .ok db) :
    protect s (Auth.ofDecoded d) =
      match db.userById d.id with
      | none => (db, .error ⟨401, .message "Not authorized, user not found"⟩)
      | some u => (db, .ok u.toReqUser) := by
  unfold protect Auth.ofDecoded
  simp only
  rw [ho]

/-- C25 (counterexample): on the store that lost the default administrator,
the token of the deleted administrator (user 1) is rejected with 401 and the
token of bob (stored flag 0, token flag 1) with 403; in both cases the
handler is not run, and yet the store has one more user row afterwards. -/
theorem adminRoutes_rejection_changes_store :
    Reachable orphaned ∧
      (adminRoutes orphaned (Auth.ofDecoded ⟨1, 1⟩) AdminOp.getAllUsers).1 =
        ⟨401, .message "Not authorized, user not found"⟩ ∧
      (adminRoutes orphaned (Auth.ofDecoded ⟨3, 1⟩) (AdminOp.deleteUser (PathId.ofNat 2))).1 =
        ⟨403, .message "Not authorized as an admin"⟩ ∧
      (adminRoutes orphaned (Auth.ofDecoded ⟨1, 1⟩) AdminOp.getAllUsers).2 ≠ orphaned ∧
      (adminRoutes orphaned (Auth.ofDecoded ⟨3, 1⟩)
        (AdminOp.deleteUser (PathId.ofNat 2))).2 ≠ orphaned ∧
      (adminRoutes orphaned (Auth.ofDecoded ⟨1, 1⟩) AdminOp.getAllUsers).2.users =
        orphaned.users ++ [⟨4, "admin", "admin@example.com", bcryptHash "adminpassword", 1⟩] := by
  refine ⟨reachable_orphaned, rfl, rfl, ?_, ?_, rfl⟩
  · intro h
    have h1 := congrArg (fun t : Store => t.users.length) h
    revert h1
    decide
  · intro h
    have h1 := congrArg (fun t : Store => t.users.length) h
    revert h1
    decide

/-- C25 (amended): behind the admin router a handler runs only for a
requester whose user row exists in the opened store and has a non-zero admin
flag there.  A verified token whose user row is absent is answered 401, one
whose stored flag is 0 is answered 403 whatever flag the token carries, and
in both cases the handler is not run.  The store afterwards is the one
`openDb` leaves: unchanged when a row with the email admin@example.com
exists, and otherwise the old store plus the default administrator row. -/
theorem adminRoutes_gate (s db : Store) (d : Decoded) (op : AdminOp)
    (ho : openDb s = .ok db) :
    (db.userById d.id = none →
        adminRoutes s (Auth.ofDecoded d) op =
          (⟨401, .message "Not authorized, user not found"⟩, db)) ∧
      (∀ r, db.userById d.id = some r → r.is_admin = 0 →
        adminRoutes s (Auth.ofDecoded d) op =
          (⟨403, .message "Not authorized as an admin"⟩, db)) ∧
      (∀ r, db.userById d.id = some r → r.is_admin ≠ 0 →
        adminRoutes s (Auth.ofDecoded d) op =
          match op with
          | .getAllUsers => getAllUsers db
          | .deleteUser id => deleteUser db r.toReqUser id
          | .updateUserAdminStatus id v => updateUserAdminStatus db r.toReqUser id v) ∧
      ((s.userByEmail "admin@example.com").isSome = true → db = s) ∧
      (s.userByEmail "admin@example.com" = none →
        db.users = s.users ++
          [⟨nextId s.seq_users (s.users.map (fun u => u.id)), "admin", "admin@example.com",
            bcryptHash "adminpassword", 1⟩] ∧
        db.files = s.files ∧ db.shared_files = s.shared_files ∧ db.uploads = s.uploads) := by
  have hp := adminRoutes_protect d ho
  refine ⟨?_, ?_, ?_, ?_, ?_⟩
  · intro hnone
    unfold adminRoutes
    rw [hp, hnone]
  · intro r hr hflag
    unfold adminRoutes
    rw [hp, hr]
    simp only
    have ha : authorizeAdmin (some r.toReqUser) =
        some ⟨403, .message "Not authorized as an admin"⟩ := by
      unfold authorizeAdmin ReqUser.isAdmin User.toReqUser
      simp [hflag]
    rw [ha]
  · intro r hr hflag
    unfold adminRoutes
    rw [hp, hr]
    simp only
    have ha : authorizeAdmin (some r.toReqUser) = none := by
      unfold authorizeAdmin ReqUser.isAdmin User.toReqUser
      simp [hflag]
    rw [ha]
  · intro h
    rw [openDb_present h] at ho
    cases ho
    rfl
  · intro h
    rw [openDb_absent h ho]
    exact ⟨rfl, rfl, rfl, rfl⟩

/-- C25 (witness): alice, whose stored flag is 0, presents a token that
carries the flag 1 and is answered 403; the store is unchanged. -/
theorem adminRoutes_gate_witness :
    adminRoutes shared (Auth.ofDecoded ⟨2, 1⟩) (AdminOp.deleteUser (PathId.ofNat 3)) =
        (⟨403, .message "Not authorized as an admin"⟩, shared) ∧
      adminRoutes shared (Auth.ofDecoded ⟨9, 1⟩) AdminOp.getAllUsers =
        (⟨401, .message "Not authorized, user not found"⟩, shared) :=
  ⟨(adminRoutes_gate shared shared ⟨2, 1⟩ (AdminOp.deleteUser (PathId.ofNat 3)) rfl).2.1
      ⟨2, "alice", "a@x.io", bcryptHash "pw", 0⟩ rfl rfl,
   (adminRoutes_gate shared shared ⟨9, 1⟩ AdminOp.getAllUsers rfl).1 rfl⟩

/-! ## The static route (C21) -/

/-- C21 (the code at the failing input): the stores `uploaded` and `tampered`
differ only in the bytes stored for the private file 1 of alice.  A GET of
`/uploads/1-n.txt`, which carries no identity at all, is answered 200 with
those bytes, so the two answers differ; the download route answers 403 to
bob, who is neither owner nor admin nor recipient, in both stores. -/
theorem static_route_serves_private_bytes :
    tampered.users = uploaded.users ∧ tampered.files = uploaded.files ∧
      tampered.shared_files = uploaded.shared_files ∧
      tampered.uploads.map (fun d => d.name) = uploaded.uploads.map (fun d => d.name) ∧
      uploaded.fileById 1 = some privFile ∧ privFile.is_private = 1 ∧
      serveUpload uploaded privFile.stored_name = ⟨200, .raw "abc"⟩ ∧
      serveUpload tampered privFile.stored_name = ⟨200, .raw "zzz"⟩ ∧
      serveUpload uploaded privFile.stored_name ≠ serveUpload tampered privFile.stored_name ∧
      (downloadFile uploaded bobReq 1).1 =
        ⟨403, .message "Not authorized to download this file."⟩ ∧
      (downloadFile tampered bobReq 1).1 =
        ⟨403, .message "Not authorized to download this file."⟩ := by
  refine ⟨rfl, rfl, rfl, rfl, rfl, rfl, rfl, rfl, ?_, rfl, rfl⟩
  decide

/-! ## Store errors in responses (C22) -/

/-- C22 (the code at the failing input): two uploads fail in the store, one on
UNIQUE `stored_name` (the storage key of an existing file), one on the foreign
key `user_id` (the uploader's row was deleted after `protect` read it).  Each
response carries the store's own error text in its `error` field, and the two
responses of the same operation differ. -/
theorem uploadFile_leaks_store_error :
    (uploadFile (multerWrite uploaded "1-n.txt" "new") aliceReq
        (some ⟨"n.txt", "1-n.txt", 3⟩) (some "true") "t5" FsEnv.ok).1 =
        ⟨500, .failure "Server error during file upload (DB issue)"
          "SQLITE_CONSTRAINT: UNIQUE constraint failed: files.stored_name"⟩ ∧
      (uploadFile (multerWrite (deleteUser uploaded adminReq (PathId.ofNat 2)).2 "9-q.png" "data")
        aliceReq (some ⟨"q.png", "9-q.png", 4⟩) (some "true") "t6" FsEnv.ok).1 =
        ⟨500, .failure "Server error during file upload (DB issue)"
          "SQLITE_CONSTRAINT: FOREIGN KEY constraint failed"⟩ ∧
      (uploadFile (multerWrite uploaded "1-n.txt" "new") aliceReq
        (some ⟨"n.txt", "1-n.txt", 3⟩) (some "true") "t5" FsEnv.ok).1 ≠
      (uploadFile (multerWrite (deleteUser uploaded adminReq (PathId.ofNat 2)).2 "9-q.png" "data")
        aliceReq (some ⟨"q.png", "9-q.png", 4⟩) (some "true") "t6" FsEnv.ok).1 := by
  refine ⟨rfl, rfl, ?_⟩
  decide

/-! ## Two interleaved shares (C24) -/

theorem shareFile_eq_check_insert (s : Store) (u : ReqUser) (fileId : Nat)
    (email now : String) :
    shareFile s u fileId email now =
      match shareFile_check s u fileId email with
      | (db, .error r) => (r, db)
      | (db, .ok (file, recipientUser)) =>
        shareFile_insert db u fileId email file recipientUser now := by
  unfold shareFile shareFile_check shareFile_insert
  split
  · rfl
  · split
    · rfl
    · split
      · rfl
      · split
        · rfl
        · split
          · rfl
          · split
            · rfl
            · split
              · rfl
              · rfl

/-- C24 (the code at the failing input): two `shareFile` calls of alice for
her private file 1 and bob read `existingShare` before either inserts.  Both
checks pass on the same store; the first INSERT succeeds; the second INSERT is
rejected by UNIQUE (file_id, shared_with_user_id) and that call is answered
500 with the store's error text, which is not Conflict.  One grant row for
the pair exists afterwards. -/
theorem shareFile_race_server_error :
    shareFile_check uploaded aliceReq 1 "b@x.io" =
        (uploaded, .ok (privFile, ⟨3, "bob", "b@x.io", bcryptHash "pw", 0⟩)) ∧
      uploaded.grantCount 1 3 = 0 ∧
      shareFile_insert uploaded aliceReq 1 "b@x.io" privFile
          ⟨3, "bob", "b@x.io", bcryptHash "pw", 0⟩ "t3" =
        (⟨200, .message "File \"n.txt\" shared successfully with b@x.io."⟩, shared) ∧
      shareFile_insert shared aliceReq 1 "b@x.io" privFile
          ⟨3, "bob", "b@x.io", bcryptHash "pw", 0⟩ "t4" =
        (⟨500, .failure "Server error during file sharing"
          "SQLITE_CONSTRAINT: UNIQUE constraint failed: shared_files.file_id, shared_files.shared_with_user_id"⟩,
         shared) ∧
      (shareFile_insert shared aliceReq 1 "b@x.io" privFile
          ⟨3, "bob", "b@x.io", bcryptHash "pw", 0⟩ "t4").1.kind = Kind.StorageError ∧
      (shareFile_insert shared aliceReq 1 "b@x.io" privFile
          ⟨3, "bob", "b@x.io", bcryptHash "pw", 0⟩ "t4").1.kind ≠ Kind.Conflict ∧
      shared.grantCount 1 3 = 1 := by
  refine ⟨rfl, rfl, rfl, rfl, rfl, ?_, rfl⟩
  decide

/-! ## The last administrator (C26) -/

theorem admin_kept_when_readings_agree (s : Store) (a : ReqUser) (id : PathId)
    (v : Option Bool) (ha : Authenticated s a) (hadm : a.is_admin ≠ 0)
    (hsame : id.sql = id.parseInt) :
    (∃ r ∈ (deleteUser s a id).2.users, r.is_admin ≠ 0) ∧
      (∃ r ∈ (updateUserAdminStatus s a id v).2.users, r.is_admin ≠ 0) := by
  obtain ⟨row, hrow, hrid, hreq⟩ := ha.row
  have hflag : row.is_admin ≠ 0 := by
    have h : row.is_admin = a.is_admin := by rw [← hreq]; rfl
    rw [h]
    exact hadm
  constructor
  · by_cases hself : id.parseInt = some a.id
    · rw [deleteUser_self ha hself]
      exact ⟨row, hrow, hflag⟩
    · cases hT : id.sql with
      | none =>
        have h : deleteUser s a id = (⟨404, .message "User not found"⟩, s) := by
          unfold deleteUser
          rw [ha.opened]
          simp only
          rw [if_neg (fun h => hself (eq_of_beq h).symm), hT]
        rw [h]
        exact ⟨row, hrow, hflag⟩
      | some T =>
        have hne : ¬ row.id = T := by
          intro h
          apply hself
          rw [← hsame, hT, ← h, hrid]
        have hmem : row ∈ s.users.filter (fun r => !(r.id == T)) :=
          List.mem_filter.2 ⟨hrow, by simpa using hne⟩
        rw [deleteUser_run ha hself hT]
        split
        · exact ⟨row, hmem, hflag⟩
        · exact ⟨row, hmem, hflag⟩
  · cases v with
    | none =>
      have h : updateUserAdminStatus s a id none =
          (⟨400, .message "Invalid value for is_admin. Must be true or false."⟩, s) := by
        unfold updateUserAdminStatus
        rfl
      rw [h]
      exact ⟨row, hrow, hflag⟩
    | some b =>
      by_cases hself : id.parseInt = some a.id
      · rw [updateUserAdminStatus_self b ha hself]
        exact ⟨row, hrow, hflag⟩
      · cases hT : id.sql with
        | none =>
          have h : updateUserAdminStatus s a id (some b) =
              (⟨404, .message "User not found or admin status already set."⟩, s) := by
            unfold updateUserAdminStatus
            simp only
            rw [ha.opened]
            simp only
            rw [if_neg (fun h => hself (eq_of_beq h).symm), hT]
          rw [h]
          exact ⟨row, hrow, hflag⟩
        | some T =>
          have hne : ¬ row.id = T := by
            intro h
            apply hself
            rw [← hsame, hT, ← h, hrid]
          have hmem : row ∈ (s.setAdmin T (if b = true then 1 else 0)).1.users := by
            have h1 : (if (row.id == T) = true then
                { row with is_admin := (if b = true then (1 : Int) else 0) } else row) = row := by
              rw [if_neg (by simpa using hne)]
            have h2 := List.mem_map_of_mem
              (fun u : User => if (u.id == T) = true then
                { u with is_admin := (if b = true then (1 : Int) else 0) } else u) hrow
            simp only [h1] at h2
            exact h2
          rw [updateUserAdminStatus_run b ha.opened hself hT]
          split
          · exact ⟨row, hmem, hflag⟩
          · exact ⟨row, hmem, hflag⟩

/-- C26 (the code at the failing input): the seeded store has one
administrator, user 1.  That administrator requests
`PUT /api/admin/users/10e-1/admin` with `is_admin: false`: `parseInt` reads 10,
the self-protection does not fire, and the UPDATE changes row 1.  The answer is
200 and no user has the admin flag set afterwards; `openDb` does not seed
again, because the row with the default email still exists.  The same path id
on `DELETE /api/admin/users/10e-1` deletes the administrator's own row. -/
theorem admin_count_drops_to_zero :
    Authenticated seeded adminReq ∧ adminReq.isAdmin = true ∧
      (∃ r ∈ seeded.users, r.is_admin ≠ 0) ∧
      adminRoutes seeded (Auth.ofDecoded ⟨1, 1⟩)
          (AdminOp.updateUserAdminStatus PathId.tenEMinusOne (some false)) =
        updateUserAdminStatus seeded adminReq PathId.tenEMinusOne (some false) ∧
      (updateUserAdminStatus seeded adminReq PathId.tenEMinusOne (some false)).1 =
        ⟨200, .message "User ID 10e-1 admin status updated to false."⟩ ∧
      (updateUserAdminStatus seeded adminReq PathId.tenEMinusOne (some false)).2.users =
        [⟨1, "admin", "admin@example.com", bcryptHash "adminpassword", 0⟩] ∧
      ¬(∃ r ∈ (updateUserAdminStatus seeded adminReq PathId.tenEMinusOne
          (some false)).2.users, r.is_admin ≠ 0) ∧
      openDb (updateUserAdminStatus seeded adminReq PathId.tenEMinusOne (some false)).2 =
        .ok (updateUserAdminStatus seeded adminReq PathId.tenEMinusOne (some false)).2 ∧
      (deleteUser seeded adminReq PathId.tenEMinusOne).1 =
        ⟨200, .message "User and their files deleted successfully"⟩ ∧
      (deleteUser seeded adminReq PathId.tenEMinusOne).2.users = [] := by
  refine ⟨⟨rfl, rfl⟩, rfl, ⟨_, List.mem_singleton.2 rfl, by decide⟩, rfl, rfl, rfl, ?_, rfl,
    rfl, rfl⟩
  decide

/-! ## A failed upload under a colliding storage key (C27) -/

/-- C27 (the code at the failing input): file 1 of alice is stored under
`1-n.txt`.  Bob uploads a file of the same original name when `Date.now()`
is 1 again: multer writes his bytes under `1-n.txt`, the INSERT fails on
UNIQUE `stored_name`, and the compensating unlink removes `1-n.txt`.  The row
of file 1 still exists, its stored bytes are gone, and alice's download is
answered 500. -/
theorem failed_upload_destroys_content :
    uploaded.fileById 1 = some privFile ∧
      uploaded.uploads.find? (fun d => d.name == privFile.stored_name) =
        some ⟨"1-n.txt", "abc"⟩ ∧
      storageFilename 1 "n.txt" = privFile.stored_name ∧
      (uploadRoute uploaded bobReq (some ⟨"n.txt", "application/txt", "evil"⟩) 1 (some "true")
        "t9" FsEnv.ok).1 =
        ⟨500, .failure "Server error during file upload (DB issue)"
          "SQLITE_CONSTRAINT: UNIQUE constraint failed: files.stored_name"⟩ ∧
      (uploadRoute uploaded bobReq (some ⟨"n.txt", "application/txt", "evil"⟩) 1 (some "true")
        "t9" FsEnv.ok).2.files = uploaded.files ∧
      diskHas (uploadRoute uploaded bobReq (some ⟨"n.txt", "application/txt", "evil"⟩) 1
        (some "true") "t9" FsEnv.ok).2.uploads privFile.stored_name = false ∧
      (downloadFile (uploadRoute uploaded bobReq (some ⟨"n.txt", "application/txt", "evil"⟩) 1
        (some "true") "t9" FsEnv.ok).2 aliceReq 1).1 =
        ⟨500, .message "The file content is missing on the server."⟩ :=
  ⟨rfl, rfl, rfl, rfl, rfl, rfl, rfl⟩

end SecureShare
